import Mathlib

/-! # Higher Order Filter Project: biquad and FIR filters

A shallow embedding of `higher_order_filter.h`, `allpass~.c`, `lowpass~.c`,
`highshelf~.c`, `peak~.c` and `fir~.c`.

Conventions of the embedding.

* `t_float` is an arbitrary carrier `F`.  The sample engines only use the
  operations `+`, `-`, `*` and `0` of `F`, in exactly the order in which the C
  expressions apply them.
* The helpers of the header and the coefficient engines are written twice.
  Over a linearly ordered field (exact arithmetic: no rounding, no NaN, no
  infinities) they say which formulas the code evaluates.  In the namespace
  `Single` they are evaluated as the code evaluates them, in IEEE 754 binary32
  with rounding to nearest after every operation, infinities and NaN; these
  definitions say which values the code stores.
* `t_int` and `int` are `Int`.  No counter of the code can overflow: the write
  pointers stay within the array bounds and loop counters within the block
  size.
* An array access outside the bounds of the array (undefined behaviour in C)
  makes the embedded function return `none`.
* The functions and constants of `<math.h>` and `<float.h>` that the code
  calls are not part of the repository; they are the fields of `CMath`.
* The services of Pd and of the allocator that `fir_set` calls
  (`pd_findbyclass`, `garray_getfloatwords`, `calloc`, `realloc`) are the
  fields of `t_pd`; the messages passed to `pd_error` are returned as a list.
-/

namespace HigherOrderFilter

/-! ## The C library the code calls -/

/-- Functions and constants of `math.h` and `float.h` used by the code. -/
structure CMath (F : Type) where
  tanf : F → F
  sqrtf : F → F
  powf : F → F → F
  log10f : F → F
  M_PI : F
  M_SQRT2 : F
  M_SQRT1_2 : F
  FLT_EPSILON : F
  FLT_MAX : F
  FLT_MIN : F

/-- The C library function `fminf` on ordinary (non-NaN) values: the smaller
of its two arguments. -/
def fminf {F : Type} [LinearOrder F] (a b : F) : F := min a b

/-! ## `higher_order_filter.h` -/

section Header

variable {F : Type} [LinearOrderedField F]

/-- Constant `default_Q = M_SQRT1_2`. -/
def default_Q (m : CMath F) : F := m.M_SQRT1_2

/-- Constant `default_freq = 1000.f`. -/
def default_freq : F := 1000

/-- Constant `default_dB = 0.f`. -/
def default_dB : F := 0

/-- Constant `min_freq = FLT_EPSILON`. -/
def min_freq (m : CMath F) : F := m.FLT_EPSILON

/-- Constant `max_freq_ratio = 0.5f - FLT_EPSILON`. -/
def max_freq_ratio (m : CMath F) : F := 1 / 2 - m.FLT_EPSILON

/-- Constant `min_Q = FLT_EPSILON`. -/
def min_Q (m : CMath F) : F := m.FLT_EPSILON

/-- Constant `max_Q = 1000.f - FLT_EPSILON`, as an exact difference (in
`t_float` arithmetic the difference rounds to `1000`, see `Single.max_Q`). -/
def max_Q (m : CMath F) : F := 1000 - m.FLT_EPSILON

/-- Constant `max_order = 65536.f`. -/
def max_order : F := 65536

/-- Function `clip_float`: `(val < min) ? min : fminf(val, max)`. -/
def clip_float (val min max : F) : F :=
  if val < min then min else fminf val max

/-- Function `clip_freq_ratio`: `clip_float(freq / sr, min_freq, sr * max_freq_ratio)`. -/
def clip_freq_ratio (m : CMath F) (freq sr : F) : F :=
  clip_float (freq / sr) (min_freq m) (sr * max_freq_ratio m)

/-- Function `clip_Q`: `clip_float(Q, min_Q, max_Q)`. -/
def clip_Q (m : CMath F) (Q : F) : F :=
  clip_float Q (min_Q m) (max_Q m)

/-- Function `dB_to_gain`: `clip_float(powf(10.f, dB * 0.05f), 0.f, FLT_MAX)`. -/
def dB_to_gain (m : CMath F) (dB : F) : F :=
  clip_float (m.powf 10 (dB * (1 / 20))) 0 m.FLT_MAX

/-- Function `gain_to_dB`: `clip_float(20.f * log10f(gain), FLT_MIN, FLT_MAX)`. -/
def gain_to_dB (m : CMath F) (gain : F) : F :=
  clip_float (20 * m.log10f gain) m.FLT_MIN m.FLT_MAX

end Header

/-! ## The biquad filters: shared members and the perform loop -/

/-- The members every biquad object (`t_allpass`, `t_lowpass`, `t_highshelf`,
`t_peak`) declares under "filter coefficients and delay table":
`b_coef[3]`, `a_coef[2]`, `f_feed[2]`, `b_feed[2]` and `wptr`. -/
structure t_biquad (F : Type) where
  b_coef : Fin 3 → F
  a_coef : Fin 2 → F
  f_feed : Fin 2 → F
  b_feed : Fin 2 → F
  wptr : Int

/-- The slot of a two-element array addressed by a `t_int` index; `none` when
the index is outside the array. -/
def slot2 (i : Int) : Option (Fin 2) :=
  if i = 0 then some 0 else if i = 1 then some 1 else none

section Biquad

variable {F : Type} [Add F] [Sub F] [Mul F]

/-- One iteration of the `for` loop of `allpass_perform`, `lowpass_perform`,
`highshelf_perform` and `peak_perform` (the four bodies are the same text):
returns the output sample `output[n]` and the updated members. -/
def biquad_iter (x : t_biquad F) (sample : F) : Option (F × t_biquad F) := do
  let rptr1 := x.wptr
  let rptr0 := 1 - rptr1
  let w ← slot2 x.wptr
  let r0 ← slot2 rptr0
  let r1 ← slot2 rptr1
  let out :=
    sample * x.b_coef 0 +
    x.f_feed r0 * x.b_coef 1 +
    x.f_feed r1 * x.b_coef 2 -
    x.b_feed r0 * x.a_coef 0 -
    x.b_feed r1 * x.a_coef 1
  let b_feed := Function.update x.b_feed w out
  let f_feed := Function.update x.f_feed w sample
  some (out, { x with b_feed := b_feed, f_feed := f_feed, wptr := rptr0 })

/-- The `for (n = 0; n < nSamples; ++n)` loop of the four perform methods over
an input block; returns the output block and the members after the block. -/
def biquad_loop : List F → t_biquad F → Option (List F × t_biquad F)
  | [], x => some ([], x)
  | sample :: rest, x => do
    let (out, x1) ← biquad_iter x sample
    let (outs, x2) ← biquad_loop rest x1
    some (out :: outs, x2)

end Biquad

/-- The object of `allpass~.c`. -/
structure t_allpass (F : Type) extends t_biquad F where
  sample : F
  Q : F
  freq : F
  sr : F

/-- The object of `lowpass~.c`. -/
structure t_lowpass (F : Type) extends t_biquad F where
  sample : F
  Q : F
  freq : F
  sr : F

/-- The object of `highshelf~.c`. -/
structure t_highshelf (F : Type) extends t_biquad F where
  sample : F
  dB : F
  freq : F
  sr : F

/-- The object of `peak~.c`. -/
structure t_peak (F : Type) extends t_biquad F where
  sample : F
  Q : F
  dB : F
  freq : F
  sr : F

section Perform

variable {F : Type} [Add F] [Sub F] [Mul F]

/-- Method `allpass_perform` on the block `input`: the output block and the object
after the call. -/
def allpass_perform (input : List F) (x : t_allpass F) :
    Option (List F × t_allpass F) :=
  (biquad_loop input x.tot_biquad).map fun r => (r.1, { x with tot_biquad := r.2 })

/-- Method `lowpass_perform` on the block `input`. -/
def lowpass_perform (input : List F) (x : t_lowpass F) :
    Option (List F × t_lowpass F) :=
  (biquad_loop input x.tot_biquad).map fun r => (r.1, { x with tot_biquad := r.2 })

/-- Method `highshelf_perform` on the block `input`. -/
def highshelf_perform (input : List F) (x : t_highshelf F) :
    Option (List F × t_highshelf F) :=
  (biquad_loop input x.tot_biquad).map fun r => (r.1, { x with tot_biquad := r.2 })

/-- Method `peak_perform` on the block `input`. -/
def peak_perform (input : List F) (x : t_peak F) :
    Option (List F × t_peak F) :=
  (biquad_loop input x.tot_biquad).map fun r => (r.1, { x with tot_biquad := r.2 })

end Perform

/-! ## The coefficient engines (`*_update_BA`)

The formulas of the four routines, over exact arithmetic.  The same routines in
`t_float` arithmetic are in the namespace `Single`. -/

section Coefficients

variable {F : Type} [LinearOrderedField F]

/-- Function `allpass_update_BA`: recomputes the five coefficients of an
allpass object from its stored `Q`, `freq` and `sr`. -/
def allpass_update_BA (m : CMath F) (x : t_allpass F) : t_allpass F :=
  let Q := clip_Q m x.Q
  let K := m.tanf (m.M_PI * clip_freq_ratio m x.freq x.sr)
  let KKQ := K * K * Q
  let rDenominator := 1 / (KKQ + K + Q)
  let b0a1 := ((KKQ - K) + Q) * rDenominator
  let b1a0 := 2 * (KKQ - Q) * rDenominator
  { x with
    b_coef := ![b0a1, b1a0, 1]
    a_coef := ![b1a0, b0a1] }

/-- Function `lowpass_update_BA`: recomputes the five coefficients of a
lowpass object from its stored `Q`, `freq` and `sr`. -/
def lowpass_update_BA (m : CMath F) (x : t_lowpass F) : t_lowpass F :=
  let Q := clip_Q m x.Q
  let K := m.tanf (m.M_PI * clip_freq_ratio m x.freq x.sr)
  let KKQ := K * K * Q
  let rDenominator := 1 / (KKQ + K + Q)
  let b2b0 := KKQ * rDenominator
  { x with
    b_coef := ![b2b0, 2 * KKQ * rDenominator, b2b0]
    a_coef := ![2 * (KKQ - Q) * rDenominator, ((KKQ - K) + Q) * rDenominator] }

/-- Function `highshelf_update_BA`: recomputes the five coefficients of a
highshelf object from its stored `dB`, `freq` and `sr`. -/
def highshelf_update_BA (m : CMath F) (x : t_highshelf F) : t_highshelf F :=
  let G := dB_to_gain m x.dB
  let K := m.tanf (m.M_PI * clip_freq_ratio m x.freq x.sr)
  let G2 := 2 * G
  let KK := K * K
  let sqrt_2G_K := m.sqrtf G2 * K
  let sqrt_2_K := m.M_SQRT2 * K
  if G > 1 then
    -- HF boost
    let rDenominator := 1 / (1 + sqrt_2_K + KK)
    { x with
      b_coef := ![(G + sqrt_2G_K + KK) * rDenominator,
                  2 * (KK - G) * rDenominator,
                  (G - sqrt_2G_K + KK) * rDenominator]
      a_coef := ![2 * (KK - 1) * rDenominator,
                  (1 - sqrt_2_K + KK) * rDenominator] }
  else
    -- HF attenuation
    let rDenominator := 1 / (1 + sqrt_2G_K + G * KK)
    { x with
      b_coef := ![G * (1 + sqrt_2_K + KK) * rDenominator,
                  G2 * (KK - 1) * rDenominator,
                  G * (1 - sqrt_2_K + KK) * rDenominator]
      a_coef := ![(G2 * KK - 2) * rDenominator,
                  (1 - sqrt_2G_K + G * KK) * rDenominator] }

/-- Function `peak_update_BA`: recomputes the five coefficients of a peak
object from its stored `Q`, `dB`, `freq` and `sr`. -/
def peak_update_BA (m : CMath F) (x : t_peak F) : t_peak F :=
  let Q := clip_Q m x.Q
  let G := dB_to_gain m x.dB
  let K := m.tanf (m.M_PI * clip_freq_ratio m x.freq x.sr)
  let KK := K * K
  let KrQ := K / Q
  if G > 1 then
    -- HF boost
    let KGrQ := G * KrQ
    let rDenominator := 1 / (1 + KrQ + KK)
    let a0b1 := 2 * (KK - 1) * rDenominator
    { x with
      b_coef := ![(1 + KGrQ + KK) * rDenominator, a0b1, (1 - KGrQ + KK) * rDenominator]
      a_coef := ![a0b1, (1 - KrQ + KK) * rDenominator] }
  else
    -- HF attenuation
    let KrQG := KrQ / G
    let rDenominator := 1 / (1 + KrQG + KK)
    let a0b1 := 2 * (KK - 1) * rDenominator
    { x with
      b_coef := ![(1 + KrQ + KK) * rDenominator, a0b1, (1 - KrQ + KK) * rDenominator]
      a_coef := ![a0b1, (1 - KrQG + KK) * rDenominator] }

/-- The local `rDenominator` of `peak_update_BA` (lines 101 and 112 of
`peak~.c`): the factor by which every coefficient numerator is multiplied. -/
def peak_rDenominator (m : CMath F) (x : t_peak F) : F :=
  let Q := clip_Q m x.Q
  let G := dB_to_gain m x.dB
  let K := m.tanf (m.M_PI * clip_freq_ratio m x.freq x.sr)
  let KK := K * K
  let KrQ := K / Q
  if G > 1 then
    1 / (1 + KrQ + KK)
  else
    let KrQG := KrQ / G
    1 / (1 + KrQG + KK)

end Coefficients

/-! ## `fir~.c` -/

/-- The object of `fir~.c`.  `table` is the owned history buffer and `coefs`
the borrowed coefficient words; a null pointer is `none`, a non-null pointer is
the content of the array it points to. -/
structure t_fir (F : Type) where
  sample : F
  table : Option (List F)
  coefs : Option (List F)
  order : Int
  wptr : Int

/-- Read `a[i]` for a `t_int` index; `none` outside the array. -/
def readAt {F : Type} (a : List F) (i : Int) : Option F :=
  if 0 ≤ i then a[i.toNat]? else none

/-- Store `a[i] = v` for a `t_int` index; `none` outside the array. -/
def writeAt {F : Type} (a : List F) (i : Int) (v : F) : Option (List F) :=
  if 0 ≤ i ∧ i < (a.length : Int) then some (a.set i.toNat v) else none

section Fir

variable {F : Type} [Add F] [Mul F] [Zero F]

/-- One iteration of the inner loop of `fir_perform`, for the tap `k`:
`m = wptr - k; y_n += coefs[k] * table[(m < 0) ? order + m : m]`. -/
def fir_tap (order wptr : Int) (coefs table : List F) (y_n : F) (k : Nat) :
    Option F := do
  let m := wptr - (k : Int)
  let h ← readAt coefs (k : Int)
  let t ← readAt table (if m < 0 then order + m else m)
  some (y_n + h * t)

/-- The inner loop of `fir_perform`: `for (k = 1; k < order; ++k)`. -/
def fir_taps (order wptr : Int) (coefs table : List F) (y_n : F) : Option F :=
  (List.range' 1 (order.toNat - 1)).foldlM (fir_tap order wptr coefs table) y_n

/-- One iteration of the outer loop of `fir_perform` (with the `++x->wptr` that
ends it): returns the output sample `output[n]` and the updated object. -/
def fir_iter (x : t_fir F) (x_n : F) : Option (F × t_fir F) := do
  let coefs ← x.coefs
  let wptr := if x.wptr < x.order then x.wptr else 0
  let h0 ← readAt coefs 0
  let y0 := h0 * x_n
  let table ← x.table
  let y_n ← fir_taps x.order wptr coefs table y0
  let table1 ← writeAt table wptr x_n
  some (y_n, { x with table := some table1, wptr := wptr + 1 })

/-- The outer loop of `fir_perform` over an input block. -/
def fir_loop : List F → t_fir F → Option (List F × t_fir F)
  | [], x => some ([], x)
  | x_n :: rest, x => do
    let (y_n, x1) ← fir_iter x x_n
    let (ys, x2) ← fir_loop rest x1
    some (y_n :: ys, x2)

/-- Method `fir_perform` on the block `input`: the output block and the object
after the call. -/
def fir_perform (input : List F) (x : t_fir F) : Option (List F × t_fir F) :=
  if x.coefs.isNone then
    -- memset(output, 0, sizeof(t_float) * nSamples)
    some (List.replicate input.length 0, x)
  else
    fir_loop input x

/-- Successive `fir_perform` calls, one per block of `blocks`; returns the
concatenation of the output blocks and the object after the last call. -/
def fir_perform_blocks : List (List F) → t_fir F → Option (List F × t_fir F)
  | [], x => some ([], x)
  | input :: rest, x => do
    let (out, x1) ← fir_perform input x
    let (outs, x2) ← fir_perform_blocks rest x1
    some (out ++ outs, x2)

end Fir

/-! ## Signals -/

/-- The sample of the signal `l` at time `i`, with the convention that a signal
is `0` before time `0` (and past its end). -/
def sig {F : Type} [Zero F] (l : List F) (i : Int) : F :=
  if i < 0 then 0 else l.getD i.toNat 0

/-! ## Reference evaluation of the biquad difference equation -/

section Direct

variable {F : Type} [Add F] [Sub F] [Mul F]

/-- The output sample of one biquad iteration, from the current input sample
`x0`, the two previous inputs `x1`, `x2` and the two previous outputs `y1`,
`y2`, with the products and sums in the order of the C expression. -/
def biquad_out (b : Fin 3 → F) (a : Fin 2 → F) (x0 x1 x2 y1 y2 : F) : F :=
  x0 * b 0 + x1 * b 1 + x2 * b 2 - y1 * a 0 - y2 * a 1

/-- The recurrence of the difference equation applied by hand, sample after
sample, from given previous inputs `x1`, `x2` and previous outputs `y1`,
`y2`. -/
def biquad_direct (b : Fin 3 → F) (a : Fin 2 → F) : F → F → F → F → List F → List F
  | _, _, _, _, [] => []
  | x1, x2, y1, y2, x0 :: rest =>
    biquad_out b a x0 x1 x2 y1 y2 ::
      biquad_direct b a x0 x1 (biquad_out b a x0 x1 x2 y1 y2) y1 rest

end Direct

/-! ## Reference evaluation of the FIR convolution -/

/-- The direct convolution `y(n) = sum of h(k) * x(n - k)` over the taps
`k = 0 .. min(n, N - 1)`, where `N` is the number of coefficients: the samples
before time 0 do not contribute. -/
def fir_direct {F : Type} [AddCommMonoid F] [Mul F] (h X : List F) (n : Nat) : F :=
  ∑ k ∈ Finset.range (min n (h.length - 1) + 1), h.getD k 0 * X.getD (n - k) 0

/-- The history table `tbl` of length `N` holds the last `N` samples of the
stream `X` received so far, the sample of time `i` in the slot `i mod N`, and 0
where the stream has not reached yet. -/
def fir_history {F : Type} [Zero F] (N : Nat) (X tbl : List F) : Prop :=
  ∀ k : Nat, 1 ≤ k → k ≤ N →
    tbl.getD ((X.length + N - k) % N) 0 = if k ≤ X.length then X.getD (X.length - k) 0 else 0

/-! ## Branch bodies of the coefficient engines -/

section Branches

variable {F : Type} [LinearOrderedField F]

/-- The `b_coef` and `a_coef` arrays written by the `if (G > 1.f)` branch
("HF boost") of `highshelf_update_BA`, lines 100 to 106. -/
def highshelf_boost (m : CMath F) (G K : F) : (Fin 3 → F) × (Fin 2 → F) :=
  let G2 := 2 * G
  let KK := K * K
  let sqrt_2G_K := m.sqrtf G2 * K
  let sqrt_2_K := m.M_SQRT2 * K
  let rDenominator := 1 / (1 + sqrt_2_K + KK)
  (![(G + sqrt_2G_K + KK) * rDenominator,
     2 * (KK - G) * rDenominator,
     (G - sqrt_2G_K + KK) * rDenominator],
   ![2 * (KK - 1) * rDenominator,
     (1 - sqrt_2_K + KK) * rDenominator])

/-- The `b_coef` and `a_coef` arrays written by the `else` branch ("HF
attenuation") of `highshelf_update_BA`, lines 110 to 116. -/
def highshelf_cut (m : CMath F) (G K : F) : (Fin 3 → F) × (Fin 2 → F) :=
  let G2 := 2 * G
  let KK := K * K
  let sqrt_2G_K := m.sqrtf G2 * K
  let sqrt_2_K := m.M_SQRT2 * K
  let rDenominator := 1 / (1 + sqrt_2G_K + G * KK)
  (![G * (1 + sqrt_2_K + KK) * rDenominator,
     G2 * (KK - 1) * rDenominator,
     G * (1 - sqrt_2_K + KK) * rDenominator],
   ![(G2 * KK - 2) * rDenominator,
     (1 - sqrt_2G_K + G * KK) * rDenominator])

/-- The `b_coef` and `a_coef` arrays written by the `if (G > 1.f)` branch of
`peak_update_BA`, lines 100 to 107. -/
def peak_boost (Q G K : F) : (Fin 3 → F) × (Fin 2 → F) :=
  let KK := K * K
  let KrQ := K / Q
  let KGrQ := G * KrQ
  let rDenominator := 1 / (1 + KrQ + KK)
  (![(1 + KGrQ + KK) * rDenominator,
     2 * (KK - 1) * rDenominator,
     (1 - KGrQ + KK) * rDenominator],
   ![2 * (KK - 1) * rDenominator,
     (1 - KrQ + KK) * rDenominator])

/-- The `b_coef` and `a_coef` arrays written by the `else` branch of
`peak_update_BA`, lines 111 to 118. -/
def peak_cut (Q G K : F) : (Fin 3 → F) × (Fin 2 → F) :=
  let KK := K * K
  let KrQ := K / Q
  let KrQG := KrQ / G
  let rDenominator := 1 / (1 + KrQG + KK)
  (![(1 + KrQ + KK) * rDenominator,
     2 * (KK - 1) * rDenominator,
     (1 - KrQ + KK) * rDenominator],
   ![2 * (KK - 1) * rDenominator,
     (1 - KrQG + KK) * rDenominator])

end Branches

/-! ## `fir~.c`: binding, construction and release -/

/-- A Pd symbol (`t_symbol*`), identified with its name. -/
abbrev t_symbol := String

/-- A Pd array (`t_garray`), as far as `fir_set` looks at it: `floatwords` is
what `garray_getfloatwords` hands out, the words of the array when it holds
floats only and `none` when the call returns 0. -/
structure t_garray (F : Type) where
  floatwords : Option (List F)

/-- The services of Pd and of the C library that one `fir_set` call uses:
`pd_findbyclass(name, garray_class)`, and the outcome `alloc` of its single
`calloc` or `realloc` call, `none` for a null result and `some g` for a block,
where `g i` is the indeterminate content of cell `i` when `realloc` hands out a
cell that does not come from the old block. -/
structure t_pd (F : Type) where
  pd_findbyclass : t_symbol → Option (t_garray F)
  alloc : Option (Nat → F)

/-- The messages `fir_set` passes to `pd_error`. -/
inductive t_error where
  | no_such_array (name : t_symbol)
  | bad_template (name : t_symbol)
  | not_enough_memory

/-- The calls a host makes on an existing `fir~` object. -/
inductive t_call (F : Type) where
  | set (pd : t_pd F) (array_name : Option t_symbol)
  | perform (input : List F)
  | free

section FirBind

variable {F : Type} [Add F] [Mul F] [Zero F]

/-- Library call `calloc(n, sizeof(t_float))`: a zero-filled block, or null. -/
def calloc (pd : t_pd F) (n : Nat) : Option (List F) :=
  pd.alloc.map fun _ => List.replicate n 0

/-- Library call `realloc(old, sizeof(t_float) * n)`: a block of `n` cells that
keeps the content of `old` as far as it fits, or null. -/
def realloc (pd : t_pd F) (old : List F) (n : Nat) : Option (List F) :=
  pd.alloc.map fun g => (List.range n).map fun i => old.getD i (g i)

/-- Function `fir_free`: forgets the coefficients and releases the history
table. -/
def fir_free (x : t_fir F) : t_fir F :=
  { x with coefs := none, order := 0, table := none }

/-- Function `fir_set`: binds the object to the array named `array_name`.
Returns the object after the call and the errors reported. -/
def fir_set (pd : t_pd F) (x : t_fir F) (array_name : Option t_symbol) :
    t_fir F × List t_error :=
  match array_name with
  | none =>
    -- array name is empty
    (x, [])
  | some name =>
    match pd.pd_findbyclass name with
    | none =>
      -- array name doesn't exist
      (fir_free x, [t_error.no_such_array name])
    | some array =>
      match array.floatwords with
      | none =>
        -- array isn't for floats only
        (fir_free x, [t_error.bad_template name])
      | some words =>
        let x1 : t_fir F := { x with order := (words.length : Int), coefs := some words }
        let x2 : t_fir F :=
          match x1.table with
          | some old =>
            -- replace an old table
            { x1 with table := realloc pd old x1.order.toNat }
          | none =>
            -- reference a new table for the first time
            { x1 with table := calloc pd x1.order.toNat }
        if x2.table.isNone then
          -- delay line failed to allocate memory
          (fir_free x2, [t_error.not_enough_memory])
        else
          (x2, [])

/-- Function `fir_new`: the object created with the creation arguments `argv`
(each given by the symbol `atom_getsymbol` reads from it), and the errors
reported. -/
def fir_new (pd : t_pd F) (argv : List t_symbol) : t_fir F × List t_error :=
  let x : t_fir F := { sample := 0, table := none, coefs := none, order := 0, wptr := 0 }
  let array_name : Option t_symbol := if argv.length > 0 then argv[0]? else none
  let r := fir_set pd x array_name
  if r.1.coefs.isNone || r.1.table.isNone then (fir_free r.1, r.2) else r

/-- One call on the object; `none` when `fir_perform` runs out of an array. -/
def fir_call (x : t_fir F) : t_call F → Option (t_fir F)
  | t_call.set pd array_name => some (fir_set pd x array_name).1
  | t_call.perform input => (fir_perform input x).map fun r => r.2
  | t_call.free => some (fir_free x)

/-- A sequence of calls on the object, in order. -/
def fir_calls : List (t_call F) → t_fir F → Option (t_fir F)
  | [], x => some x
  | c :: rest, x => (fir_call x c).bind (fir_calls rest)

end FirBind

/-- The validity of an `fir~` object: either it has no coefficients, order 0
and no history table, or it refers to a coefficient table `words`, its order is
the length of `words` and its history table has exactly that length. -/
def fir_valid {F : Type} (x : t_fir F) : Prop :=
  (x.coefs = none ∧ x.order = 0 ∧ x.table = none) ∨
  ∃ words tbl : List F, x.coefs = some words ∧ x.order = (words.length : Int) ∧
    x.table = some tbl ∧ tbl.length = words.length

/-! ## The parameter setters of the biquad filters -/

section Setters

variable {F : Type} [LinearOrderedField F]

/-- Method `allpass_Q`: `x->Q = new_Q; allpass_update_BA(x);`. -/
def allpass_Q (m : CMath F) (x : t_allpass F) (new_Q : F) : t_allpass F :=
  allpass_update_BA m { x with Q := new_Q }

/-- Method `allpass_freq`: `x->freq = new_freq; allpass_update_BA(x);`. -/
def allpass_freq (m : CMath F) (x : t_allpass F) (new_freq : F) : t_allpass F :=
  allpass_update_BA m { x with freq := new_freq }

/-- Method `lowpass_Q`: `x->Q = new_Q; lowpass_update_BA(x);`. -/
def lowpass_Q (m : CMath F) (x : t_lowpass F) (new_Q : F) : t_lowpass F :=
  lowpass_update_BA m { x with Q := new_Q }

/-- Method `lowpass_freq`: `x->freq = new_freq; lowpass_update_BA(x);`. -/
def lowpass_freq (m : CMath F) (x : t_lowpass F) (new_freq : F) : t_lowpass F :=
  lowpass_update_BA m { x with freq := new_freq }

/-- Method `highshelf_dB`: `x->dB = new_dB; highshelf_update_BA(x);`. -/
def highshelf_dB (m : CMath F) (x : t_highshelf F) (new_dB : F) : t_highshelf F :=
  highshelf_update_BA m { x with dB := new_dB }

/-- Method `highshelf_freq`: `x->freq = new_freq; highshelf_update_BA(x);`. -/
def highshelf_freq (m : CMath F) (x : t_highshelf F) (new_freq : F) : t_highshelf F :=
  highshelf_update_BA m { x with freq := new_freq }

/-- Method `peak_Q`: `x->Q = new_Q; peak_update_BA(x);`. -/
def peak_Q (m : CMath F) (x : t_peak F) (new_Q : F) : t_peak F :=
  peak_update_BA m { x with Q := new_Q }

/-- Method `peak_dB`: `x->dB = new_dB; peak_update_BA(x);`. -/
def peak_dB (m : CMath F) (x : t_peak F) (new_dB : F) : t_peak F :=
  peak_update_BA m { x with dB := new_dB }

/-- Method `peak_freq`: `x->freq = new_freq; peak_update_BA(x);`. -/
def peak_freq (m : CMath F) (x : t_peak F) (new_freq : F) : t_peak F :=
  peak_update_BA m { x with freq := new_freq }

end Setters

/-! ## Roles of the two slots of a biquad delay array -/

/-- The slot of `f_feed` and `b_feed` that the last iteration of the perform
loop wrote: the loop writes slot `wptr` and then toggles `wptr`, so this is the
slot other than `wptr`. -/
def recent_slot {F : Type} (c : t_biquad F) : Fin 2 := if c.wptr = 0 then 1 else 0

/-- The slot of `f_feed` and `b_feed` that the next iteration of the perform
loop writes: slot `wptr`. -/
def write_slot {F : Type} (c : t_biquad F) : Fin 2 := if c.wptr = 0 then 0 else 1

/-! ## The indices `fir_perform` uses -/

/-- The index at which the inner loop of `fir_perform` reads the history table
for the tap `k`: `m = wptr - k; (m < 0) ? order + m : m`. -/
def fir_tap_index (order wptr : Int) (k : Nat) : Int :=
  let m := wptr - (k : Int)
  if m < 0 then order + m else m

/-- The indices one iteration of the outer loop of `fir_perform` uses, for the
order `order` and the write pointer `wptr` found at its start: first those at
which it reads `coefs` (`coefs[0]`, then `coefs[k]` for `k = 1 .. order - 1`),
then those at which it reads `table` (one per tap `k`) followed by the one at
which it writes `table` (`table[wptr]`, after the wrap of `wptr`). -/
def fir_iter_indices (order wptr : Int) : List Int × List Int :=
  let w := if wptr < order then wptr else 0
  (0 :: (List.range' 1 (order.toNat - 1)).map fun (k : Nat) => (k : Int),
   ((List.range' 1 (order.toNat - 1)).map fun (k : Nat) => fir_tap_index order w k) ++ [w])

/-- The indices `fir_perform` uses on a block of `nSamples` samples: those into
`coefs` and those into `table`, the write pointer going from the wrapped value
`w` to `w + 1` at the end of each iteration. -/
def fir_indices : Nat → Int → Int → List Int × List Int
  | 0, _, _ => ([], [])
  | nSamples + 1, order, wptr =>
    let w := if wptr < order then wptr else 0
    let r := fir_iter_indices order wptr
    let rest := fir_indices nSamples order (w + 1)
    (r.1 ++ rest.1, r.2 ++ rest.2)

/-! ## Single-precision arithmetic

The coefficient routines compute in `t_float`, the IEEE 754 binary32 format,
with round-to-nearest-even after every operation; the constants `M_PI` and
`M_SQRT2` of `math.h` are doubles, and a product with one of them is a binary64
product.  The definitions below evaluate the routines in that arithmetic. -/

/-- A floating-point value: a rational number, an infinity, or NaN.  The sign
of a zero is not recorded: a zero is `finite 0`, and a zero divisor is taken
as `+0`. -/
inductive Flt where
  | finite (q : ℚ)
  | inf (negative : Bool)
  | nan
deriving DecidableEq

/-- A binary floating-point format: `prec` significand bits (the implicit one
included) and largest exponent `emax`; the smallest normal exponent is
`1 - emax`. -/
structure FloatFormat where
  prec : Nat
  emax : Nat

/-- The format of `float`. -/
def binary32 : FloatFormat := ⟨24, 127⟩

/-- The format of `double`. -/
def binary64 : FloatFormat := ⟨53, 1023⟩

/-- The number `k` with `2^k <= n < 2^(k+1)`, for positive `n` (at most `fuel`
halvings). -/
def bitLog2 : Nat → Nat → Nat
  | 0, _ => 0
  | fuel + 1, n => if n < 2 then 0 else bitLog2 fuel (n / 2) + 1

/-- The integer `e` with `2^e <= n/d < 2^(e+1)`, for positive `n` and `d`. -/
def floorLog2 (n d : Nat) : Int :=
  let e : Int := (bitLog2 n n : Int) - (bitLog2 d d : Int)
  if n * 2 ^ (-e).toNat < d * 2 ^ e.toNat then e - 1 else e

/-- Rounding of the rational `q` to the format `f`, to nearest, ties to even:
`q` is written `m * 2^u` with `u` the exponent of the last significand bit
(that of the subnormals below the normal range), `m` is rounded to an integer,
and a result of magnitude `2^(emax+1)` or more is an infinity. -/
def roundTo (f : FloatFormat) (q : ℚ) : Flt :=
  if q = 0 then Flt.finite 0
  else
    let n := q.num.natAbs
    let d := q.den
    let e := max (floorLog2 n d) (1 - (f.emax : Int))
    let u := e - ((f.prec : Int) - 1)
    let N := n * 2 ^ (-u).toNat
    let D := d * 2 ^ u.toNat
    let m := N / D
    let r := N % D
    let m1 := if 2 * r < D then m else if D < 2 * r then m + 1
      else if m % 2 = 0 then m else m + 1
    if 2 ^ (f.emax + 1) * 2 ^ (-u).toNat ≤ m1 * 2 ^ u.toNat then Flt.inf (decide (q < 0))
    else
      let v : ℚ := ((m1 * 2 ^ u.toNat : Nat) : ℚ) / ((2 ^ (-u).toNat : Nat) : ℚ)
      Flt.finite (if q < 0 then -v else v)

namespace Flt

/-- Negation. -/
def neg : Flt → Flt
  | finite q => finite (-q)
  | inf s => inf (!s)
  | nan => nan

/-- Addition in the format `f`. -/
def add (f : FloatFormat) : Flt → Flt → Flt
  | finite a, finite b => roundTo f (a + b)
  | finite _, inf s => inf s
  | inf s, finite _ => inf s
  | inf s, inf t => if s = t then inf s else nan
  | _, _ => nan

/-- Subtraction in the format `f`. -/
def sub (f : FloatFormat) (a b : Flt) : Flt := add f a (neg b)

/-- Multiplication in the format `f`. -/
def mul (f : FloatFormat) : Flt → Flt → Flt
  | finite a, finite b => roundTo f (a * b)
  | finite a, inf s => if a = 0 then nan else inf (xor s (decide (a < 0)))
  | inf s, finite b => if b = 0 then nan else inf (xor s (decide (b < 0)))
  | inf s, inf t => inf (xor s t)
  | _, _ => nan

/-- Division in the format `f`. -/
def div (f : FloatFormat) : Flt → Flt → Flt
  | finite a, finite b =>
    if b = 0 then (if a = 0 then nan else inf (decide (a < 0))) else roundTo f (a / b)
  | finite _, inf _ => finite 0
  | inf s, finite b => inf (xor s (decide (b < 0)))
  | _, _ => nan

/-- Comparison `a < b`; false when an operand is NaN. -/
def lt : Flt → Flt → Bool
  | finite a, finite b => decide (a < b)
  | finite _, inf s => !s
  | inf s, finite _ => s
  | inf s, inf t => s && !t
  | _, _ => false

/-- Conversion to `float` (of a `double` value). -/
def toSingle : Flt → Flt
  | finite q => roundTo binary32 q
  | x => x

end Flt

/-- The `t_float` operations `+`, `-`, `*`, `/`: those of binary32. -/
instance : Add Flt := ⟨Flt.add binary32⟩

instance : Sub Flt := ⟨Flt.sub binary32⟩

instance : Mul Flt := ⟨Flt.mul binary32⟩

instance : Div Flt := ⟨Flt.div binary32⟩

instance : LT Flt := ⟨fun a b => Flt.lt a b = true⟩

instance (a b : Flt) : Decidable (a < b) := inferInstanceAs (Decidable (Flt.lt a b = true))

/-- A `float` literal whose value is the natural number `n`. -/
instance (n : Nat) : OfNat Flt n := ⟨Flt.finite n⟩

/-- The functions of `libm` that the routines call, as functions on `float`
values. -/
structure Libm where
  tanf : Flt → Flt
  sqrtf : Flt → Flt
  powf : Flt → Flt → Flt

namespace Single

/-- Constant `FLT_EPSILON` of `float.h`: `2^-23`. -/
def FLT_EPSILON : Flt := Flt.finite (1 / 2 ^ 23)

/-- Constant `FLT_MAX` of `float.h`: `(2 - 2^-23) * 2^127`. -/
def FLT_MAX : Flt := Flt.finite ((2 - 1 / 2 ^ 23) * 2 ^ 127)

/-- Constant `M_PI` of `math.h`, a `double`: `0x1.921fb54442d18p+1`. -/
def M_PI : Flt := Flt.finite (0x1921fb54442d18 / 2 ^ 51)

/-- Constant `M_SQRT2` of `math.h`, a `double`: `0x1.6a09e667f3bcdp+0`. -/
def M_SQRT2 : Flt := Flt.finite (0x16a09e667f3bcd / 2 ^ 52)

/-- Library function `fminf`: the smaller operand, the other one when an
operand is NaN. -/
def fminf (a b : Flt) : Flt :=
  match a, b with
  | Flt.nan, _ => b
  | _, Flt.nan => a
  | _, _ => if b < a then b else a

/-- Constant `min_freq = FLT_EPSILON`. -/
def min_freq : Flt := FLT_EPSILON

/-- Constant `max_freq_ratio = 0.5f - FLT_EPSILON`. -/
def max_freq_ratio : Flt := Flt.finite (1 / 2) - FLT_EPSILON

/-- Constant `min_Q = FLT_EPSILON`. -/
def min_Q : Flt := FLT_EPSILON

/-- Constant `max_Q = 1000.f - FLT_EPSILON`. -/
def max_Q : Flt := 1000 - FLT_EPSILON

/-- Function `clip_float`: `(val < min) ? min : fminf(val, max)`. -/
def clip_float (val min max : Flt) : Flt :=
  if val < min then min else fminf val max

/-- Function `clip_freq_ratio`: `clip_float(freq / sr, min_freq, sr * max_freq_ratio)`. -/
def clip_freq_ratio (freq sr : Flt) : Flt :=
  clip_float (freq / sr) min_freq (sr * max_freq_ratio)

/-- Function `clip_Q`: `clip_float(Q, min_Q, max_Q)`. -/
def clip_Q (Q : Flt) : Flt :=
  clip_float Q min_Q max_Q

/-- Function `dB_to_gain`: `clip_float(powf(10.f, dB * 0.05f), 0.f, FLT_MAX)`;
`0.05f` is the `float` nearest to `1/20`. -/
def dB_to_gain (l : Libm) (dB : Flt) : Flt :=
  clip_float (l.powf 10 (dB * roundTo binary32 (1 / 20))) 0 FLT_MAX

/-- The local `K` of the four routines: `tanf(M_PI * clip_freq_ratio(freq, sr))`,
a `double` product converted to `float` for `tanf`. -/
def tan_K (l : Libm) (freq sr : Flt) : Flt :=
  l.tanf (Flt.toSingle (Flt.mul binary64 M_PI (clip_freq_ratio freq sr)))

/-- Function `allpass_update_BA` in `t_float` arithmetic. -/
def allpass_update_BA (l : Libm) (x : t_allpass Flt) : t_allpass Flt :=
  let Q := clip_Q x.Q
  let K := tan_K l x.freq x.sr
  let KKQ := K * K * Q
  let rDenominator := 1 / (KKQ + K + Q)
  { x with
    b_coef := ![((KKQ - K) + Q) * rDenominator, 2 * (KKQ - Q) * rDenominator, 1]
    a_coef := ![2 * (KKQ - Q) * rDenominator, ((KKQ - K) + Q) * rDenominator] }

/-- Function `lowpass_update_BA` in `t_float` arithmetic. -/
def lowpass_update_BA (l : Libm) (x : t_lowpass Flt) : t_lowpass Flt :=
  let Q := clip_Q x.Q
  let K := tan_K l x.freq x.sr
  let KKQ := K * K * Q
  let rDenominator := 1 / (KKQ + K + Q)
  { x with
    b_coef := ![KKQ * rDenominator, 2 * KKQ * rDenominator, KKQ * rDenominator]
    a_coef := ![2 * (KKQ - Q) * rDenominator, ((KKQ - K) + Q) * rDenominator] }

/-- The `b_coef` and `a_coef` arrays written by the `if (G > 1.f)` branch of
`highshelf_update_BA`, in `t_float` arithmetic; `M_SQRT2 * K` is a `double`
product stored in a `t_float`. -/
def highshelf_boost (l : Libm) (G K : Flt) : (Fin 3 → Flt) × (Fin 2 → Flt) :=
  let G2 := 2 * G
  let KK := K * K
  let sqrt_2G_K := l.sqrtf G2 * K
  let sqrt_2_K := Flt.toSingle (Flt.mul binary64 M_SQRT2 K)
  let rDenominator := 1 / (1 + sqrt_2_K + KK)
  (![(G + sqrt_2G_K + KK) * rDenominator,
     2 * (KK - G) * rDenominator,
     (G - sqrt_2G_K + KK) * rDenominator],
   ![2 * (KK - 1) * rDenominator,
     (1 - sqrt_2_K + KK) * rDenominator])

/-- The arrays written by the `else` branch of `highshelf_update_BA`, in
`t_float` arithmetic. -/
def highshelf_cut (l : Libm) (G K : Flt) : (Fin 3 → Flt) × (Fin 2 → Flt) :=
  let G2 := 2 * G
  let KK := K * K
  let sqrt_2G_K := l.sqrtf G2 * K
  let sqrt_2_K := Flt.toSingle (Flt.mul binary64 M_SQRT2 K)
  let rDenominator := 1 / (1 + sqrt_2G_K + G * KK)
  (![G * (1 + sqrt_2_K + KK) * rDenominator,
     G2 * (KK - 1) * rDenominator,
     G * (1 - sqrt_2_K + KK) * rDenominator],
   ![(G2 * KK - 2) * rDenominator,
     (1 - sqrt_2G_K + G * KK) * rDenominator])

/-- Function `highshelf_update_BA` in `t_float` arithmetic. -/
def highshelf_update_BA (l : Libm) (x : t_highshelf Flt) : t_highshelf Flt :=
  let G := dB_to_gain l x.dB
  let K := tan_K l x.freq x.sr
  let r := if 1 < G then highshelf_boost l G K else highshelf_cut l G K
  { x with b_coef := r.1, a_coef := r.2 }

/-- The arrays written by the `if (G > 1.f)` branch of `peak_update_BA`, in
`t_float` arithmetic. -/
def peak_boost (Q G K : Flt) : (Fin 3 → Flt) × (Fin 2 → Flt) :=
  let KK := K * K
  let KrQ := K / Q
  let KGrQ := G * KrQ
  let rDenominator := 1 / (1 + KrQ + KK)
  (![(1 + KGrQ + KK) * rDenominator,
     2 * (KK - 1) * rDenominator,
     (1 - KGrQ + KK) * rDenominator],
   ![2 * (KK - 1) * rDenominator,
     (1 - KrQ + KK) * rDenominator])

/-- The arrays written by the `else` branch of `peak_update_BA`, in `t_float`
arithmetic. -/
def peak_cut (Q G K : Flt) : (Fin 3 → Flt) × (Fin 2 → Flt) :=
  let KK := K * K
  let KrQ := K / Q
  let KrQG := KrQ / G
  let rDenominator := 1 / (1 + KrQG + KK)
  (![(1 + KrQ + KK) * rDenominator,
     2 * (KK - 1) * rDenominator,
     (1 - KrQ + KK) * rDenominator],
   ![2 * (KK - 1) * rDenominator,
     (1 - KrQG + KK) * rDenominator])

/-- Function `peak_update_BA` in `t_float` arithmetic. -/
def peak_update_BA (l : Libm) (x : t_peak Flt) : t_peak Flt :=
  let Q := clip_Q x.Q
  let G := dB_to_gain l x.dB
  let K := tan_K l x.freq x.sr
  let r := if 1 < G then peak_boost Q G K else peak_cut Q G K
  { x with b_coef := r.1, a_coef := r.2 }

end Single

/-- The values of a correctly rounded `libm` at the arguments met in the
evaluations below (the binary32 numbers nearest to the exact results); NaN
stands for an argument that is not in the table. -/
def libm_values : Libm where
  tanf := fun a =>
    if a = Flt.finite (0x1921fb6 / 2 ^ 25) then Flt.finite 1
    else if a = Flt.finite (0x1921fb6 / 2 ^ 46) then Flt.finite (0x1921fb6 / 2 ^ 46)
    else if a = Flt.finite (0x12acb24 / 2 ^ 38) then Flt.finite (0x12acb24 / 2 ^ 38)
    else if a = Flt.finite (0x16cbcfa / 2 ^ 26) then Flt.finite (0x17cfcfe / 2 ^ 26)
    else Flt.nan
  sqrtf := fun a =>
    if a = Flt.finite 0 then Flt.finite 0
    else if a = Flt.finite 2 then Flt.finite (0x16a09e6 / 2 ^ 24)
    else if a = Flt.finite 4 then Flt.finite 2
    else if a = Flt.finite (0x12ced32 / 2 ^ 24 * 2 ^ 127) then Flt.finite (0x18885ea / 2 ^ 24 * 2 ^ 63)
    else if a = Flt.inf false then Flt.inf false
    else Flt.nan
  powf := fun a b =>
    if a = Flt.finite 10 ∧ b = Flt.finite 0 then Flt.finite 1
    else if a = Flt.finite 10 ∧ b = Flt.finite (-50) then Flt.finite 0
    else if a = Flt.finite 10 ∧ b = Flt.finite 38 then Flt.finite (0x12ced32 / 2 ^ 24 * 2 ^ 126)
    else if a = Flt.finite 10 ∧ b = Flt.finite (77 / 2) then Flt.finite (0x1dbce82 / 2 ^ 24 * 2 ^ 127)
    else Flt.nan

/-- A biquad core with zero coefficients and zero delay arrays, in `t_float`. -/
def biquad_zero : t_biquad Flt :=
  { b_coef := ![0, 0, 0], a_coef := ![0, 0], f_feed := ![0, 0], b_feed := ![0, 0], wptr := 0 }

/-! ## Concrete objects -/

/-- A biquad state over the integers, write pointer at slot 1. -/
def biquad_example : t_biquad Int :=
  { b_coef := ![2, 3, 5], a_coef := ![7, 11], f_feed := ![1, 2], b_feed := ![3, 4], wptr := 1 }

/-! # Theorems -/

/-! ## The biquad sample engine -/

section BiquadLemmas

variable {F : Type} [Add F] [Sub F] [Mul F]

theorem biquad_iter_zero (x : t_biquad F) (s : F) (h : x.wptr = 0) :
    biquad_iter x s = some
      (biquad_out x.b_coef x.a_coef s (x.f_feed 1) (x.f_feed 0) (x.b_feed 1) (x.b_feed 0),
      { x with
        b_feed := Function.update x.b_feed 0
          (biquad_out x.b_coef x.a_coef s (x.f_feed 1) (x.f_feed 0) (x.b_feed 1) (x.b_feed 0))
        f_feed := Function.update x.f_feed 0 s
        wptr := 1 }) := by
  simp [biquad_iter, h, slot2, biquad_out]

theorem biquad_iter_one (x : t_biquad F) (s : F) (h : x.wptr = 1) :
    biquad_iter x s = some
      (biquad_out x.b_coef x.a_coef s (x.f_feed 0) (x.f_feed 1) (x.b_feed 0) (x.b_feed 1),
      { x with
        b_feed := Function.update x.b_feed 1
          (biquad_out x.b_coef x.a_coef s (x.f_feed 0) (x.f_feed 1) (x.b_feed 0) (x.b_feed 1))
        f_feed := Function.update x.f_feed 1 s
        wptr := 0 }) := by
  simp [biquad_iter, h, slot2, biquad_out]

/-- The perform loop computes the hand-applied recurrence, the slot `1 - wptr`
of each delay array being the most recent sample and the slot `wptr` the one
before; the coefficients are not modified. -/
theorem biquad_loop_direct (xs : List F) :
    ∀ x : t_biquad F, (x.wptr = 0 ∨ x.wptr = 1) →
      ∃ x1 : t_biquad F,
        biquad_loop xs x = some
          (biquad_direct x.b_coef x.a_coef
            (x.f_feed (if x.wptr = 0 then 1 else 0)) (x.f_feed (if x.wptr = 0 then 0 else 1))
            (x.b_feed (if x.wptr = 0 then 1 else 0)) (x.b_feed (if x.wptr = 0 then 0 else 1))
            xs, x1) ∧
        x1.b_coef = x.b_coef ∧ x1.a_coef = x.a_coef := by
  induction xs with
  | nil => intro x _; exact ⟨x, by simp [biquad_loop, biquad_direct]⟩
  | cons s rest ih =>
    intro x hw
    rcases hw with h | h
    · obtain ⟨x1, h1, hb, ha⟩ := ih _ (Or.inr rfl : ({ x with
        b_feed := Function.update x.b_feed 0
          (biquad_out x.b_coef x.a_coef s (x.f_feed 1) (x.f_feed 0) (x.b_feed 1) (x.b_feed 0))
        f_feed := Function.update x.f_feed 0 s
        wptr := 1 } : t_biquad F).wptr = 0 ∨ _)
      refine ⟨x1, ?_, hb, ha⟩
      simp [biquad_loop, biquad_iter_zero x s h, h1, biquad_direct, h]
    · obtain ⟨x1, h1, hb, ha⟩ := ih _ (Or.inl rfl : ({ x with
        b_feed := Function.update x.b_feed 1
          (biquad_out x.b_coef x.a_coef s (x.f_feed 0) (x.f_feed 1) (x.b_feed 0) (x.b_feed 1))
        f_feed := Function.update x.f_feed 1 s
        wptr := 0 } : t_biquad F).wptr = 0 ∨ _)
      refine ⟨x1, ?_, hb, ha⟩
      simp [biquad_loop, biquad_iter_one x s h, h1, biquad_direct, h]

theorem biquad_direct_length (b : Fin 3 → F) (a : Fin 2 → F) (xs : List F) :
    ∀ x1 x2 y1 y2 : F, (biquad_direct b a x1 x2 y1 y2 xs).length = xs.length := by
  induction xs with
  | nil => intros; rfl
  | cons s rest ih => intro x1 x2 y1 y2; simp [biquad_direct, ih]

/-- Every sample of the hand-applied recurrence is the biquad expression of
the three latest inputs and the two latest outputs, the given previous samples
standing before the sequence. -/
theorem biquad_direct_getD (b : Fin 3 → F) (a : Fin 2 → F) (d : F) (xs : List F) :
    ∀ (x1 x2 y1 y2 : F) (n : Nat), n < xs.length →
      (y2 :: y1 :: biquad_direct b a x1 x2 y1 y2 xs).getD (n + 2) d =
        biquad_out b a ((x2 :: x1 :: xs).getD (n + 2) d) ((x2 :: x1 :: xs).getD (n + 1) d)
          ((x2 :: x1 :: xs).getD n d)
          ((y2 :: y1 :: biquad_direct b a x1 x2 y1 y2 xs).getD (n + 1) d)
          ((y2 :: y1 :: biquad_direct b a x1 x2 y1 y2 xs).getD n d) := by
  induction xs with
  | nil => intro _ _ _ _ n hn; simp at hn
  | cons s rest ih =>
    intro x1 x2 y1 y2 n hn
    cases n with
    | zero => simp [biquad_direct]
    | succ k =>
      have hk : k < rest.length := by simpa using hn
      have := ih s x1 (biquad_out b a s x1 x2 y1 y2) y1 k hk
      simpa [biquad_direct] using this

end BiquadLemmas

section SigLemmas

variable {F : Type} [Zero F]

theorem sig_natCast (l : List F) (n : Nat) :
    sig l (n : Int) = (0 :: 0 :: l).getD (n + 2) 0 := by
  simp [sig]

theorem sig_natCast_sub_one (l : List F) (n : Nat) :
    sig l ((n : Int) - 1) = (0 :: 0 :: l).getD (n + 1) 0 := by
  cases n with
  | zero => simp [sig]
  | succ k => simp [sig]

theorem sig_natCast_sub_two (l : List F) (n : Nat) :
    sig l ((n : Int) - 2) = (0 :: 0 :: l).getD n 0 := by
  rcases n with _ | _ | k
  · simp [sig]
  · simp [sig]
  · have : ((k + 1 + 1 : Nat) : Int) - 2 = (k : Int) := by push_cast; ring
    rw [this]; simp [sig]

end SigLemmas

/-! ## Claims on the biquad sample engine -/

section BiquadClaims

theorem biquad_loop_zero_state {F : Type} [Add F] [Sub F] [Zero F] [CommMagma F]
    (b0 b1 b2 a1 a2 : F) (xs : List F) :
    ∃ (ys : List F) (x1 : t_biquad F),
      biquad_loop xs ⟨![b0, b1, b2], ![a1, a2], ![0, 0], ![0, 0], 0⟩ = some (ys, x1) ∧
      ys.length = xs.length ∧
      ∀ n : Nat, n < xs.length →
        sig ys n = b0 * sig xs n + b1 * sig xs (n - 1) + b2 * sig xs (n - 2)
          - a1 * sig ys (n - 1) - a2 * sig ys (n - 2) := by
  obtain ⟨x1, h1, -, -⟩ := biquad_loop_direct xs
    (⟨![b0, b1, b2], ![a1, a2], ![0, 0], ![0, 0], 0⟩ : t_biquad F) (Or.inl rfl)
  refine ⟨_, x1, h1, biquad_direct_length _ _ _ _ _ _ _, ?_⟩
  intro n hn
  have h := biquad_direct_getD ![b0, b1, b2] ![a1, a2] 0 xs 0 0 0 0 n hn
  simp only [sig_natCast, sig_natCast_sub_one, sig_natCast_sub_two]
  simp only [if_true, Matrix.cons_val_zero, Matrix.cons_val_one, Matrix.head_cons] at h ⊢
  rw [h]
  simp [biquad_out, mul_comm]

/-- Claim C1.  For all coefficients `b0 b1 b2 a1 a2` and every input block
`xs`, each of the four perform methods, started on an object whose delay arrays
are zero and whose write pointer is 0, returns an output block `ys` of the
length of `xs` with
`ys[n] = b0*xs[n] + b1*xs[n-1] + b2*xs[n-2] - a1*ys[n-1] - a2*ys[n-2]`
for every `n` below that length, samples at negative times being 0 (`sig`).
The unit impulse is the case `xs = 1 :: 0 :: 0 :: ...`.  Only commutativity of
the product is used to reorder the factors of the C expression; the sum is
evaluated in the order of the C expression. -/
theorem biquad_perform_difference_equation {F : Type} [Add F] [Sub F] [Zero F] [CommMagma F]
    (b0 b1 b2 a1 a2 sample Q dB freq sr : F) (xs : List F) :
    ∃ (ys : List F) (x1 : t_biquad F),
      allpass_perform xs ⟨⟨![b0, b1, b2], ![a1, a2], ![0, 0], ![0, 0], 0⟩, sample, Q, freq, sr⟩
        = some (ys, ⟨x1, sample, Q, freq, sr⟩) ∧
      lowpass_perform xs ⟨⟨![b0, b1, b2], ![a1, a2], ![0, 0], ![0, 0], 0⟩, sample, Q, freq, sr⟩
        = some (ys, ⟨x1, sample, Q, freq, sr⟩) ∧
      highshelf_perform xs ⟨⟨![b0, b1, b2], ![a1, a2], ![0, 0], ![0, 0], 0⟩, sample, dB, freq, sr⟩
        = some (ys, ⟨x1, sample, dB, freq, sr⟩) ∧
      peak_perform xs ⟨⟨![b0, b1, b2], ![a1, a2], ![0, 0], ![0, 0], 0⟩, sample, Q, dB, freq, sr⟩
        = some (ys, ⟨x1, sample, Q, dB, freq, sr⟩) ∧
      ys.length = xs.length ∧
      ∀ n : Nat, n < xs.length →
        sig ys n = b0 * sig xs n + b1 * sig xs (n - 1) + b2 * sig xs (n - 2)
          - a1 * sig ys (n - 1) - a2 * sig ys (n - 2) := by
  obtain ⟨ys, x1, h1, hl, hr⟩ := biquad_loop_zero_state b0 b1 b2 a1 a2 xs
  refine ⟨ys, x1, ?_, ?_, ?_, ?_, hl, hr⟩ <;>
    simp [allpass_perform, lowpass_perform, highshelf_perform, peak_perform, h1]

/-- Claim C9.  For a biquad state `c` whose write pointer is the slot `w` (0 or
1), one iteration of the perform loop on the input sample `x` reads
`rptr1 = w` and `rptr0 = 1 - w`, outputs
`y = x*b0 + ff[rptr0]*b1 + ff[rptr1]*b2 - fb[rptr0]*a1 - fb[rptr1]*a2`,
stores `fb[w] = y` and `ff[w] = x`, sets the write pointer to `rptr0` and
changes nothing else: the new state is `c` with these three members replaced,
so the slots `rptr0` and the coefficients are unchanged.  Each of the four
perform methods on the one-sample block `[x]` does exactly this to its
object and leaves the parameters of the object as they were. -/
theorem biquad_perform_one_iteration {F : Type} [Add F] [Sub F] [Mul F]
    (c : t_biquad F) (w : Fin 2) (x sample Q dB freq sr : F)
    (hw : c.wptr = ((w : Nat) : Int)) :
    ∃ (y : F) (c1 : t_biquad F),
      y = x * c.b_coef 0 + c.f_feed (1 - w) * c.b_coef 1 + c.f_feed w * c.b_coef 2
            - c.b_feed (1 - w) * c.a_coef 0 - c.b_feed w * c.a_coef 1 ∧
      c1 = { c with
              b_feed := Function.update c.b_feed w y
              f_feed := Function.update c.f_feed w x
              wptr := 1 - c.wptr } ∧
      biquad_iter c x = some (y, c1) ∧
      allpass_perform [x] ⟨c, sample, Q, freq, sr⟩ = some ([y], ⟨c1, sample, Q, freq, sr⟩) ∧
      lowpass_perform [x] ⟨c, sample, Q, freq, sr⟩ = some ([y], ⟨c1, sample, Q, freq, sr⟩) ∧
      highshelf_perform [x] ⟨c, sample, dB, freq, sr⟩ = some ([y], ⟨c1, sample, dB, freq, sr⟩) ∧
      peak_perform [x] ⟨c, sample, Q, dB, freq, sr⟩ = some ([y], ⟨c1, sample, Q, dB, freq, sr⟩) ∧
      c1.b_feed w = y ∧ c1.f_feed w = x ∧ c1.wptr = (((1 - w : Fin 2) : Nat) : Int) ∧
      c1.f_feed (1 - w) = c.f_feed (1 - w) ∧ c1.b_feed (1 - w) = c.b_feed (1 - w) ∧
      c1.b_coef = c.b_coef ∧ c1.a_coef = c.a_coef := by
  have hit : biquad_iter c x = some
      (x * c.b_coef 0 + c.f_feed (1 - w) * c.b_coef 1 + c.f_feed w * c.b_coef 2
            - c.b_feed (1 - w) * c.a_coef 0 - c.b_feed w * c.a_coef 1,
       { c with
          b_feed := Function.update c.b_feed w
            (x * c.b_coef 0 + c.f_feed (1 - w) * c.b_coef 1 + c.f_feed w * c.b_coef 2
              - c.b_feed (1 - w) * c.a_coef 0 - c.b_feed w * c.a_coef 1)
          f_feed := Function.update c.f_feed w x
          wptr := 1 - c.wptr }) := by
    fin_cases w
    · have h0 : c.wptr = 0 := by simpa using hw
      simp [biquad_iter_zero c x h0, biquad_out, h0]
    · have h1 : c.wptr = 1 := by simpa using hw
      simp [biquad_iter_one c x h1, biquad_out, h1]
  refine ⟨_, _, rfl, rfl, hit, ?_, ?_, ?_, ?_, ?_, ?_, ?_, ?_, ?_, rfl, rfl⟩
  · simp [allpass_perform, biquad_loop, hit]
  · simp [lowpass_perform, biquad_loop, hit]
  · simp [highshelf_perform, biquad_loop, hit]
  · simp [peak_perform, biquad_loop, hit]
  · simp
  · simp
  · fin_cases w <;> simp [hw]
  · fin_cases w <;> simp
  · fin_cases w <;> simp

/-- Witness of claim C9 at `biquad_example` (write pointer 1) and the input
sample 10. -/
theorem biquad_perform_one_iteration_witness :
    biquad_example.wptr = (((1 : Fin 2) : Nat) : Int) ∧
    ∃ (y : Int) (c1 : t_biquad Int),
      y = 10 * biquad_example.b_coef 0 + biquad_example.f_feed (1 - 1) * biquad_example.b_coef 1
            + biquad_example.f_feed 1 * biquad_example.b_coef 2
            - biquad_example.b_feed (1 - 1) * biquad_example.a_coef 0
            - biquad_example.b_feed 1 * biquad_example.a_coef 1 ∧
      c1 = { biquad_example with
              b_feed := Function.update biquad_example.b_feed 1 y
              f_feed := Function.update biquad_example.f_feed 1 10
              wptr := 1 - biquad_example.wptr } ∧
      biquad_iter biquad_example 10 = some (y, c1) ∧
      allpass_perform [10] ⟨biquad_example, 0, 1, 1000, 44100⟩
        = some ([y], ⟨c1, 0, 1, 1000, 44100⟩) ∧
      lowpass_perform [10] ⟨biquad_example, 0, 1, 1000, 44100⟩
        = some ([y], ⟨c1, 0, 1, 1000, 44100⟩) ∧
      highshelf_perform [10] ⟨biquad_example, 0, 6, 1000, 44100⟩
        = some ([y], ⟨c1, 0, 6, 1000, 44100⟩) ∧
      peak_perform [10] ⟨biquad_example, 0, 1, 6, 1000, 44100⟩
        = some ([y], ⟨c1, 0, 1, 6, 1000, 44100⟩) ∧
      c1.b_feed 1 = y ∧ c1.f_feed 1 = 10 ∧ c1.wptr = (((1 - 1 : Fin 2) : Nat) : Int) ∧
      c1.f_feed (1 - 1) = biquad_example.f_feed (1 - 1) ∧
      c1.b_feed (1 - 1) = biquad_example.b_feed (1 - 1) ∧
      c1.b_coef = biquad_example.b_coef ∧ c1.a_coef = biquad_example.a_coef :=
  ⟨rfl, biquad_perform_one_iteration biquad_example 1 10 0 1 6 1000 44100 rfl⟩

end BiquadClaims

/-! ## The FIR sample engine -/

section FirLemmas

theorem readAt_natCast {F : Type} (d : F) (a : List F) (i : Nat) (hi : i < a.length) :
    readAt a (i : Int) = some (a.getD i d) := by
  simp [readAt, List.getD, List.getElem?_eq_getElem hi]

theorem writeAt_natCast {F : Type} (a : List F) (i : Nat) (v : F) (hi : i < a.length) :
    writeAt a (i : Int) v = some (a.set i v) := by
  simp [writeAt, hi]

theorem emod_toNat_eq (N w k : Nat) (hk : k ≤ w + N) :
    (((w : Int) - (k : Int)) % (N : Int)).toNat = (w + N - k) % N := by
  have h1 : ((w : Int) - (k : Int)) % (N : Int) = (((w + N - k : Nat) : Int)) % (N : Int) := by
    rw [← Int.add_emod_self]
    congr 1
    omega
  rw [h1, ← Int.natCast_mod, Int.toNat_ofNat]

theorem sum_map_range' {F : Type} [AddCommMonoid F] (f : Nat → F) (n : Nat) :
    ((List.range' 1 n).map f).sum = ∑ k ∈ Finset.Ico 1 (n + 1), f k := by
  induction n with
  | zero => simp
  | succ n ih =>
    rw [List.range'_concat, List.map_append, List.sum_append, ih,
      Finset.sum_Ico_succ_top (show 1 ≤ n + 1 by omega) f]
    simp [Nat.add_comm]

theorem mod_sub_ne (N n j : Nat) (hj : 1 ≤ j) (hjN : j < N) :
    (n + N - j) % N ≠ n % N := by
  intro h
  have h1 : n + N - j = n + (N - j) := by omega
  rw [h1] at h
  have h2 : (n + (N - j)) ≡ n + 0 [MOD N] := by simpa [Nat.ModEq] using h
  have h3 : (N - j) ≡ 0 [MOD N] := Nat.ModEq.add_left_cancel' n h2
  have h4 : N ∣ N - j := (Nat.modEq_zero_iff_dvd).mp h3
  have := Nat.le_of_dvd (by omega) h4
  omega

theorem mod_add_sub (N n k : Nat) (hk : k ≤ N) :
    (n % N + N - k) % N = (n + N - k) % N := by
  have h1 : n % N + N - k = n % N + (N - k) := by omega
  have h2 : n + N - k = n + (N - k) := by omega
  rw [h1, h2, Nat.mod_add_mod]

theorem succ_mod_norm (N n : Nat) (hN : 1 ≤ N) :
    (if ((n % N : Nat) : Int) + 1 < (N : Int) then ((n % N : Nat) : Int) + 1 else 0)
      = (((n + 1) % N : Nat) : Int) := by
  have hlt : n % N < N := Nat.mod_lt _ (by omega)
  have h1 : (n + 1) % N = (n % N + 1) % N := (Nat.mod_add_mod n N 1).symm
  by_cases h : n % N + 1 < N
  · have : ((n % N : Nat) : Int) + 1 < (N : Int) := by omega
    rw [if_pos this, h1, Nat.mod_eq_of_lt h]; push_cast; rfl
  · have hN' : n % N + 1 = N := by omega
    have : ¬ (((n % N : Nat) : Int) + 1 < (N : Int)) := by omega
    rw [if_neg this, h1, hN', Nat.mod_self]; rfl

variable {F : Type} [AddCommMonoid F] [Mul F]

theorem fir_tap_fold (order wptr : Int) (h tbl : List F) (term : Nat → F) (ks : List Nat)
    (hk : ∀ k ∈ ks, ∀ y : F, fir_tap order wptr h tbl y k = some (y + term k)) :
    ∀ y0 : F, ks.foldlM (fir_tap order wptr h tbl) y0 = some (y0 + (ks.map term).sum) := by
  induction ks with
  | nil => intro y0; simp
  | cons k rest ih =>
    intro y0
    have h1 := hk k (List.mem_cons_self _ _) y0
    have h2 := ih (fun j hj => hk j (List.mem_cons_of_mem _ hj)) (y0 + term k)
    simp [List.foldlM_cons, h1, h2, add_assoc]

theorem fir_tap_eq (N w k : Nat) (h tbl : List F) (hh : h.length = N) (ht : tbl.length = N)
    (hw : w < N) (hk1 : 1 ≤ k) (hkN : k < N) (y : F) :
    fir_tap (N : Int) (w : Int) h tbl y k
      = some (y + h.getD k 0 * tbl.getD ((w + N - k) % N) 0) := by
  have hrd : readAt h (k : Int) = some (h.getD k 0) := readAt_natCast 0 h k (by omega)
  by_cases hlt : w < k
  · have hidx : (N : Int) + ((w : Int) - (k : Int)) = ((w + N - k : Nat) : Int) := by omega
    have hmod : (w + N - k) % N = w + N - k := Nat.mod_eq_of_lt (by omega)
    have hneg : (w : Int) - (k : Int) < 0 := by omega
    have hrt := readAt_natCast 0 tbl (w + N - k) (by omega)
    simp [fir_tap, hrd, hneg, hidx, hmod, hrt]
  · have hidx : (w : Int) - (k : Int) = ((w - k : Nat) : Int) := by omega
    have hmod : (w + N - k) % N = w - k := by
      have : w + N - k = (w - k) + N := by omega
      rw [this, Nat.add_mod_right, Nat.mod_eq_of_lt (by omega)]
    have hneg : ¬ (((w - k : Nat) : Int) < 0) := by omega
    have hrt := readAt_natCast 0 tbl (w - k) (by omega)
    simp [fir_tap, hrd, hidx, hneg, hmod, hrt]

theorem fir_taps_eq (N w : Nat) (h tbl : List F) (hh : h.length = N) (ht : tbl.length = N)
    (hw : w < N) (y0 : F) :
    fir_taps (N : Int) (w : Int) h tbl y0
      = some (y0 + ∑ k ∈ Finset.Ico 1 N, h.getD k 0 * tbl.getD ((w + N - k) % N) 0) := by
  have hN : N - 1 + 1 = N := by omega
  unfold fir_taps
  rw [fir_tap_fold (N : Int) (w : Int) h tbl
    (fun k => h.getD k 0 * tbl.getD ((w + N - k) % N) 0)]
  · rw [sum_map_range', Int.toNat_ofNat, hN]
  · intro k hk y
    rw [Int.toNat_ofNat, List.mem_range'_1] at hk
    exact fir_tap_eq N w k h tbl hh ht hw hk.1 (by omega) y

theorem fir_iter_eq (N w : Nat) (wp : Int) (h tbl : List F) (hh : h.length = N)
    (ht : tbl.length = N) (hw : w < N)
    (hnorm : (if wp < (N : Int) then wp else 0) = (w : Int)) (smp x : F) :
    fir_iter ⟨smp, some tbl, some h, (N : Int), wp⟩ x
      = some (h.getD 0 0 * x + ∑ k ∈ Finset.Ico 1 N, h.getD k 0 * tbl.getD ((w + N - k) % N) 0,
          ⟨smp, some (tbl.set w x), some h, (N : Int), (w : Int) + 1⟩) := by
  have h0 : readAt h 0 = some (h.getD 0 0) := readAt_natCast 0 h 0 (by omega)
  have hwr := writeAt_natCast tbl w x (by omega)
  have ht := fir_taps_eq N w h tbl hh ht hw (h.getD 0 0 * x)
  simp only [fir_iter, hnorm, h0, ht, hwr, Option.bind_eq_bind, Option.some_bind]

end FirLemmas

section FirHistory

variable {F : Type} [NonUnitalNonAssocSemiring F]

theorem fir_history_nil (N : Nat) : fir_history N ([] : List F) (List.replicate N 0) := by
  intro k hk1 _
  have : ¬ k ≤ 0 := by omega
  simp [List.getD, List.getElem?_replicate, this]
  split <;> rfl

theorem fir_history_snoc (N : Nat) (X tbl : List F) (x : F) (hN : 1 ≤ N) (ht : tbl.length = N)
    (hist : fir_history N X tbl) :
    fir_history N (X ++ [x]) (tbl.set (X.length % N) x) := by
  intro k hk1 hkN
  have hlt : X.length % N < N := Nat.mod_lt _ (by omega)
  by_cases hk : k = 1
  · subst hk
    have h1 : ((X ++ [x]).length + N - 1) % N = X.length % N := by
      have : (X ++ [x]).length + N - 1 = X.length + N := by simp
      rw [this, Nat.add_mod_right]
    rw [h1]
    simp [List.getD, hlt, ht]
  · have hidx : ((X ++ [x]).length + N - k) = X.length + N - (k - 1) := by
      simp; omega
    have hne := mod_sub_ne N X.length (k - 1) (by omega) (by omega)
    have hold := hist (k - 1) (by omega) (by omega)
    rw [hidx]
    have hset : (tbl.set (X.length % N) x).getD ((X.length + N - (k - 1)) % N) 0
        = tbl.getD ((X.length + N - (k - 1)) % N) 0 := by
      simp [List.getD, List.getElem?_set_ne (Ne.symm hne)]
    rw [hset, hold]
    by_cases hle : k - 1 ≤ X.length
    · have hle' : k ≤ (X ++ [x]).length := by simp; omega
      have hsub : (X ++ [x]).length - k = X.length - (k - 1) := by simp; omega
      rw [if_pos hle, if_pos hle', hsub, List.getD_append _ _ _ _ (by omega)]
    · have hle' : ¬ k ≤ (X ++ [x]).length := by simp; omega
      rw [if_neg hle, if_neg hle']

theorem fir_out_eq (N : Nat) (h X tbl rest : List F) (x : F) (hN : 1 ≤ N) (hh : h.length = N)
    (hist : fir_history N X tbl) :
    h.getD 0 0 * x + ∑ k ∈ Finset.Ico 1 N, h.getD k 0 * tbl.getD ((X.length % N + N - k) % N) 0
      = fir_direct h (X ++ x :: rest) X.length := by
  have hA : fir_direct h (X ++ x :: rest) X.length
      = ∑ k ∈ Finset.range (min X.length (N - 1) + 1),
          h.getD k 0 * (if k ≤ X.length then (X ++ x :: rest).getD (X.length - k) 0 else 0) := by
    unfold fir_direct
    rw [hh]
    refine Finset.sum_congr rfl fun k hk => ?_
    have : k ≤ X.length := by
      have := Finset.mem_range.mp hk
      omega
    rw [if_pos this]
  have hB : ∑ k ∈ Finset.range (min X.length (N - 1) + 1),
          h.getD k 0 * (if k ≤ X.length then (X ++ x :: rest).getD (X.length - k) 0 else 0)
      = ∑ k ∈ Finset.range N,
          h.getD k 0 * (if k ≤ X.length then (X ++ x :: rest).getD (X.length - k) 0 else 0) := by
    refine Finset.sum_subset (Finset.range_subset.mpr (by omega)) fun k hk hnk => ?_
    have h1 := Finset.mem_range.mp hk
    have h2 : ¬ k < min X.length (N - 1) + 1 := fun hc => hnk (Finset.mem_range.mpr hc)
    have : ¬ k ≤ X.length := by omega
    rw [if_neg this, mul_zero]
  rw [hA, hB, Finset.range_eq_Ico, Finset.sum_eq_sum_Ico_succ_bot (by omega : 0 < N)]
  congr 1
  · have hx : (X ++ x :: rest).getD (X.length - 0) 0 = x := by
      have hx1 : (X ++ x :: rest)[X.length]? = some x := by
        rw [List.getElem?_append_right (le_refl _)]; simp
      rw [List.getD_eq_getElem?_getD, Nat.sub_zero, hx1]; rfl
    rw [if_pos (Nat.zero_le _), hx]
  · refine Finset.sum_congr rfl fun k hk => ?_
    have hk' := Finset.mem_Ico.mp hk
    rw [mod_add_sub N X.length k (by omega), hist k (by omega) (by omega)]
    by_cases hle : k ≤ X.length
    · rw [if_pos hle, if_pos hle, List.getD_append _ _ _ _ (by omega)]
    · rw [if_neg hle, if_neg hle]

end FirHistory

section FirRun

variable {F : Type} [NonUnitalNonAssocSemiring F]

theorem fir_loop_direct (N : Nat) (h : List F) (smp : F) (hN : 1 ≤ N) (hh : h.length = N)
    (xs : List F) :
    ∀ (X tbl : List F) (wp : Int), tbl.length = N → fir_history N X tbl →
      (if wp < (N : Int) then wp else 0) = ((X.length % N : Nat) : Int) →
      ∃ (tbl1 : List F) (wp1 : Int),
        fir_loop xs ⟨smp, some tbl, some h, (N : Int), wp⟩
          = some ((List.range xs.length).map fun i => fir_direct h (X ++ xs) (X.length + i),
              ⟨smp, some tbl1, some h, (N : Int), wp1⟩) ∧
        tbl1.length = N ∧ fir_history N (X ++ xs) tbl1 ∧
        (if wp1 < (N : Int) then wp1 else 0) = (((X ++ xs).length % N : Nat) : Int) := by
  induction xs with
  | nil =>
    intro X tbl wp ht hist hwp
    exact ⟨tbl, wp, by simp [fir_loop], ht, by simpa using hist, by simpa using hwp⟩
  | cons x rest ih =>
    intro X tbl wp ht hist hwp
    have hlt : X.length % N < N := Nat.mod_lt _ (by omega)
    have hstep := fir_iter_eq N (X.length % N) wp h tbl hh ht hlt hwp smp x
    rw [fir_out_eq N h X tbl rest x hN hh hist] at hstep
    have hlen : (tbl.set (X.length % N) x).length = N := by simp [ht]
    have hnorm : (if ((X.length % N : Nat) : Int) + 1 < (N : Int)
        then ((X.length % N : Nat) : Int) + 1 else 0) = (((X ++ [x]).length % N : Nat) : Int) := by
      rw [succ_mod_norm N X.length hN]; simp
    obtain ⟨tbl1, wp1, hrun, hl1, hh1, hw1⟩ :=
      ih (X ++ [x]) (tbl.set (X.length % N) x) _ hlen
        (fir_history_snoc N X tbl x hN ht hist) hnorm
    have happ : X ++ [x] ++ rest = X ++ x :: rest := by simp
    rw [happ] at hrun hh1 hw1
    refine ⟨tbl1, wp1, ?_, hl1, hh1, hw1⟩
    simp only [fir_loop, hstep, hrun, Option.bind_eq_bind, Option.some_bind]
    simp [List.range_succ_eq_map, Nat.add_assoc, Nat.add_comm 1]

theorem fir_direct_append (h X Y : List F) (n : Nat) (hn : n < X.length) :
    fir_direct h (X ++ Y) n = fir_direct h X n := by
  unfold fir_direct
  refine Finset.sum_congr rfl fun k _ => ?_
  rw [List.getD_append _ _ _ _ (by omega)]

theorem fir_perform_blocks_direct (N : Nat) (h : List F) (smp : F) (hN : 1 ≤ N)
    (hh : h.length = N) (blocks : List (List F)) :
    ∀ (X tbl : List F) (wp : Int), tbl.length = N → fir_history N X tbl →
      (if wp < (N : Int) then wp else 0) = ((X.length % N : Nat) : Int) →
      ∃ (tbl1 : List F) (wp1 : Int),
        fir_perform_blocks blocks ⟨smp, some tbl, some h, (N : Int), wp⟩
          = some ((List.range blocks.flatten.length).map fun i =>
                fir_direct h (X ++ blocks.flatten) (X.length + i),
              ⟨smp, some tbl1, some h, (N : Int), wp1⟩) ∧
        tbl1.length = N ∧ fir_history N (X ++ blocks.flatten) tbl1 ∧
        (if wp1 < (N : Int) then wp1 else 0) = (((X ++ blocks.flatten).length % N : Nat) : Int) := by
  induction blocks with
  | nil =>
    intro X tbl wp ht hist hwp
    exact ⟨tbl, wp, by simp [fir_perform_blocks], ht, by simpa using hist, by simpa using hwp⟩
  | cons b rest ih =>
    intro X tbl wp ht hist hwp
    obtain ⟨tbl1, wp1, hrun1, hl1, hh1, hw1⟩ :=
      fir_loop_direct N h smp hN hh b X tbl wp ht hist hwp
    obtain ⟨tbl2, wp2, hrun2, hl2, hh2, hw2⟩ := ih (X ++ b) tbl1 wp1 hl1 hh1 hw1
    have happ : X ++ b ++ rest.flatten = X ++ (b :: rest).flatten := by simp
    rw [happ] at hrun2 hh2 hw2
    refine ⟨tbl2, wp2, ?_, hl2, hh2, hw2⟩
    have hp : fir_perform b ⟨smp, some tbl, some h, (N : Int), wp⟩
        = fir_loop b ⟨smp, some tbl, some h, (N : Int), wp⟩ := by
      simp [fir_perform]
    simp only [fir_perform_blocks, hp, hrun1, hrun2, Option.bind_eq_bind, Option.some_bind]
    have hlen : (b :: rest).flatten.length = b.length + rest.flatten.length := by simp
    have hfst : ((List.range b.length).map fun i => fir_direct h (X ++ b) (X.length + i))
        = (List.range b.length).map fun i =>
            fir_direct h (X ++ (b :: rest).flatten) (X.length + i) := by
      refine List.map_congr_left fun i hi => ?_
      have hi' := List.mem_range.mp hi
      rw [← happ, fir_direct_append h (X ++ b) rest.flatten (X.length + i) (by simp; omega)]
    rw [hfst, hlen, List.range_add, List.map_append, List.map_map]
    simp [Function.comp_def, Nat.add_assoc]

end FirRun

theorem sig_ofNat {F : Type} [Zero F] (l : List F) (n : Nat) : sig l (n : Int) = l.getD n 0 := by
  simp [sig]

/-! ## Claims on the FIR sample engine -/

section FirClaims

/-- Claim C2.  For every order `N >= 1`, every coefficient table `h` of length
`N` and every input delivered as a sequence of blocks `blocks` (any number of
blocks of any lengths, empty ones included), successive `fir_perform` calls
started from a zero-filled history table of length `N` and write pointer 0
return, concatenated, an output `ys` as long as the whole input
`x = blocks.flatten`, with `ys[n]` the sum of `h[k] * x[n - k]` over
`k = 0 .. min(n, N - 1)`.  For `N = 3` this is
`h0*x(n) + h1*x(n-1) + h2*x(n-2)` with `x(n < 0) = 0`. -/
theorem fir_perform_convolution {F : Type} [NonUnitalNonAssocSemiring F]
    (N : Nat) (h : List F) (smp : F) (blocks : List (List F))
    (hN : 1 ≤ N) (hh : h.length = N) :
    ∃ (ys : List F) (x1 : t_fir F),
      fir_perform_blocks blocks ⟨smp, some (List.replicate N 0), some h, (N : Int), 0⟩
        = some (ys, x1) ∧
      ys.length = blocks.flatten.length ∧
      (∀ n : Nat, n < blocks.flatten.length →
        ys.getD n 0
          = ∑ k ∈ Finset.range (min n (N - 1) + 1),
              h.getD k 0 * blocks.flatten.getD (n - k) 0) ∧
      (N = 3 → ∀ n : Nat, n < blocks.flatten.length →
        ys.getD n 0
          = h.getD 0 0 * sig blocks.flatten n + h.getD 1 0 * sig blocks.flatten (n - 1)
              + h.getD 2 0 * sig blocks.flatten (n - 2)) := by
  obtain ⟨tbl1, wp1, hrun, -, -, -⟩ :=
    fir_perform_blocks_direct N h smp hN hh blocks [] (List.replicate N 0) 0
      (by simp) (fir_history_nil N) (by simp)
  simp only [List.nil_append, List.length_nil, Nat.zero_add] at hrun
  have hget : ∀ n : Nat, n < blocks.flatten.length →
      ((List.range blocks.flatten.length).map fun i =>
          fir_direct h blocks.flatten i).getD n 0
        = ∑ k ∈ Finset.range (min n (N - 1) + 1),
              h.getD k 0 * blocks.flatten.getD (n - k) 0 := by
    intro n hn
    rw [List.getD_eq_getElem?_getD, List.getElem?_map, List.getElem?_range hn]
    simp [fir_direct, hh]
  refine ⟨_, _, hrun, by simp, hget, ?_⟩
  intro h3 n hn
  rw [hget n hn, h3]
  rcases n with _ | _ | k
  · simp [sig, Finset.sum_range_succ]
  · simp [sig, Finset.sum_range_succ]
  · have e1 : ((k + 1 + 1 : Nat) : Int) - 1 = ((k + 1 : Nat) : Int) := by push_cast; ring
    have e2 : ((k + 1 + 1 : Nat) : Int) - 2 = (k : Int) := by push_cast; ring
    have e3 : min (k + 1 + 1) (3 - 1) + 1 = 3 := by omega
    rw [e1, e2, e3, sig_ofNat, sig_ofNat, sig_ofNat]
    simp [Finset.sum_range_succ]

/-- Witness of claim C2: order 3, coefficients `[2, 3, 5]`, five input samples
delivered as the blocks `[1, 10]`, `[]` and `[100, 1000, 10000]`. -/
theorem fir_perform_convolution_witness :
    1 ≤ 3 ∧ ([2, 3, 5] : List Int).length = 3 ∧
    ∃ (ys : List Int) (x1 : t_fir Int),
      fir_perform_blocks [[1, 10], [], [100, 1000, 10000]]
          ⟨0, some (List.replicate 3 0), some [2, 3, 5], ((3 : Nat) : Int), 0⟩
        = some (ys, x1) ∧
      ys.length = ([[1, 10], [], [100, 1000, 10000]] : List (List Int)).flatten.length ∧
      (∀ n : Nat, n < ([[1, 10], [], [100, 1000, 10000]] : List (List Int)).flatten.length →
        ys.getD n 0
          = ∑ k ∈ Finset.range (min n (3 - 1) + 1),
              ([2, 3, 5] : List Int).getD k 0
                * ([[1, 10], [], [100, 1000, 10000]] : List (List Int)).flatten.getD (n - k) 0) ∧
      (3 = 3 → ∀ n : Nat, n < ([[1, 10], [], [100, 1000, 10000]] : List (List Int)).flatten.length →
        ys.getD n 0
          = ([2, 3, 5] : List Int).getD 0 0
                * sig ([[1, 10], [], [100, 1000, 10000]] : List (List Int)).flatten n
              + ([2, 3, 5] : List Int).getD 1 0
                * sig ([[1, 10], [], [100, 1000, 10000]] : List (List Int)).flatten (n - 1)
              + ([2, 3, 5] : List Int).getD 2 0
                * sig ([[1, 10], [], [100, 1000, 10000]] : List (List Int)).flatten (n - 2)) :=
  ⟨by decide, rfl,
    fir_perform_convolution 3 [2, 3, 5] 0 [[1, 10], [], [100, 1000, 10000]] (by decide) rfl⟩

/-- Claim C3.  When the coefficient reference of the object is absent
(`coefs == 0`), `fir_perform` on a block of length `n` returns an output block
of length `n` whose samples are all 0, and the object (history table, order,
write pointer) is unchanged. -/
theorem fir_perform_no_coefs {F : Type} [Add F] [Mul F] [Zero F] (x : t_fir F) (input : List F)
    (h : x.coefs = none) :
    ∃ output : List F, fir_perform input x = some (output, x) ∧
      output.length = input.length ∧ ∀ y ∈ output, y = 0 := by
  refine ⟨List.replicate input.length 0, ?_, by simp, ?_⟩
  · simp [fir_perform, h]
  · intro y hy
    exact List.eq_of_mem_replicate hy

/-- Witness of claim C3: the object as `fir_new` leaves it without a table,
on a block of three samples. -/
theorem fir_perform_no_coefs_witness :
    (⟨0, none, none, 0, 0⟩ : t_fir Int).coefs = none ∧
    ∃ output : List Int,
      fir_perform [1, 2, 3] (⟨0, none, none, 0, 0⟩ : t_fir Int)
        = some (output, ⟨0, none, none, 0, 0⟩) ∧
      output.length = ([1, 2, 3] : List Int).length ∧ ∀ y ∈ output, y = 0 :=
  ⟨rfl, fir_perform_no_coefs ⟨0, none, none, 0, 0⟩ [1, 2, 3] rfl⟩

/-- Claim C10 as stated fails on the write pointer.  With order 3, write
pointer 2, history `[7, 8, 9]` and coefficients `[2, 3, 5]`, processing the
sample 1 outputs `2*1 + 3*8 + 5*7`, stores the sample in slot 2 and leaves the
write pointer at 3 (the order), not at `(2 + 1) mod 3 = 0`. -/
theorem fir_perform_wptr_reaches_order :
    fir_perform [1] (⟨0, some [7, 8, 9], some [2, 3, 5], 3, 2⟩ : t_fir Int)
        = some ([2 * 1 + (3 * 8 + 5 * 7)], ⟨0, some [7, 8, 1], some [2, 3, 5], 3, 3⟩) ∧
    ¬ ∃ (ys : List Int) (x1 : t_fir Int),
      fir_perform [1] (⟨0, some [7, 8, 9], some [2, 3, 5], 3, 2⟩ : t_fir Int) = some (ys, x1) ∧
      x1.wptr = (2 + 1) % 3 := by
  have h2 : fir_perform [1] (⟨0, some [7, 8, 9], some [2, 3, 5], 3, 2⟩ : t_fir Int)
        = some ([2 * 1 + (3 * 8 + 5 * 7)], ⟨0, some [7, 8, 1], some [2, 3, 5], 3, 3⟩) := by rfl
  refine ⟨h2, ?_⟩
  rintro ⟨ys, x1, h, hw⟩
  rw [h2] at h
  simp only [Option.some.injEq, Prod.mk.injEq] at h
  rw [← h.2] at hw
  revert hw
  decide

/-- Claim C10, amended.  For every order `N >= 1`, coefficients `h` and history
table `tbl` of length `N`, write pointer `0 <= w < N` and input sample `x`,
`fir_perform` on the one-sample block `[x]` outputs
`y = h[0]*x + sum over k = 1 .. N-1 of h[k] * tbl[(w - k) mod N]`, stores
`tbl[w] = x` and leaves the write pointer equal to `w + 1` (which is `N` when
`w = N - 1`); nothing else changes.  The pointer the next sample uses, after
the wrap `(wptr < order) ? wptr : 0` that opens the next iteration, is
`(w + 1) mod N`. -/
theorem fir_perform_one_sample {F : Type} [AddCommMonoid F] [Mul F] (N w : Nat) (h tbl : List F) (smp x : F) (_hN : 1 ≤ N)
    (hh : h.length = N) (ht : tbl.length = N) (hw : w < N) :
    fir_perform [x] ⟨smp, some tbl, some h, (N : Int), (w : Int)⟩
      = some ([h.getD 0 0 * x + ∑ k ∈ Finset.Ico 1 N,
                h.getD k 0 * tbl.getD (((w : Int) - (k : Int)) % (N : Int)).toNat 0],
          ⟨smp, some (tbl.set w x), some h, (N : Int), (w : Int) + 1⟩) ∧
    (if (w : Int) + 1 < (N : Int) then (w : Int) + 1 else 0) = ((w : Int) + 1) % (N : Int) := by
  constructor
  · have hsum : ∑ k ∈ Finset.Ico 1 N,
          h.getD k 0 * tbl.getD (((w : Int) - (k : Int)) % (N : Int)).toNat 0
        = ∑ k ∈ Finset.Ico 1 N, h.getD k 0 * tbl.getD ((w + N - k) % N) 0 := by
      refine Finset.sum_congr rfl fun k hk => ?_
      rw [emod_toNat_eq N w k (by have := (Finset.mem_Ico.mp hk).2; omega)]
    have hnorm : (if (w : Int) < (N : Int) then (w : Int) else 0) = (w : Int) := by
      simp [hw]
    rw [hsum]
    simp [fir_perform, fir_loop, fir_iter_eq N w (w : Int) h tbl hh ht hw hnorm]
  · by_cases hlt : (w : Int) + 1 < (N : Int)
    · rw [if_pos hlt, Int.emod_eq_of_lt (by omega) hlt]
    · have : (w : Int) + 1 = (N : Int) := by omega
      rw [if_neg hlt, this, Int.emod_self]

/-- Witness of the amended claim C10: order 3, write pointer 2. -/
theorem fir_perform_one_sample_witness :
    1 ≤ 3 ∧ ([2, 3, 5] : List Int).length = 3 ∧ ([7, 8, 9] : List Int).length = 3 ∧ 2 < 3 ∧
    (fir_perform [1] ⟨0, some [7, 8, 9], some [2, 3, 5], ((3 : Nat) : Int), ((2 : Nat) : Int)⟩
      = some ([([2, 3, 5] : List Int).getD 0 0 * 1 + ∑ k ∈ Finset.Ico 1 3,
                ([2, 3, 5] : List Int).getD k 0
                  * ([7, 8, 9] : List Int).getD
                      ((((2 : Nat) : Int) - (k : Int)) % ((3 : Nat) : Int)).toNat 0],
          ⟨0, some (([7, 8, 9] : List Int).set 2 1), some [2, 3, 5], ((3 : Nat) : Int),
            ((2 : Nat) : Int) + 1⟩) ∧
    (if ((2 : Nat) : Int) + 1 < ((3 : Nat) : Int) then ((2 : Nat) : Int) + 1 else 0)
      = (((2 : Nat) : Int) + 1) % ((3 : Nat) : Int)) :=
  ⟨by decide, rfl, rfl, by decide,
    fir_perform_one_sample 3 2 [2, 3, 5] [7, 8, 9] 0 1 (by decide) rfl rfl (by decide)⟩

end FirClaims

/-! ## Claims on the coefficient engines -/

section CoefficientClaims

variable {F : Type} [LinearOrderedField F]

/-- Claim C4.  For every stored `Q`, `freq` and `sr`, with `Q' = clip_Q(Q)`,
`K = tanf(M_PI * clip_freq_ratio(freq, sr))`, `KKQ = K*K*Q'` and
`denom = 1/(KKQ + K + Q')`, `allpass_update_BA` sets
`b0 = a2 = ((KKQ - K) + Q')*denom`, `b1 = a1 = 2*(KKQ - Q')*denom` and
`b2 = 1`, so that `(b0, b1, b2)` is `(1, a1, a2)` reversed; no other member of
the object changes. -/
theorem allpass_update_BA_coefficients (m : CMath F) (x : t_allpass F) :
    let Q' := clip_Q m x.Q
    let K := m.tanf (m.M_PI * clip_freq_ratio m x.freq x.sr)
    let KKQ := K * K * Q'
    let denom := 1 / (KKQ + K + Q')
    let y := allpass_update_BA m x
    y.b_coef 0 = ((KKQ - K) + Q') * denom ∧ y.a_coef 1 = ((KKQ - K) + Q') * denom ∧
    y.b_coef 1 = 2 * (KKQ - Q') * denom ∧ y.a_coef 0 = 2 * (KKQ - Q') * denom ∧
    y.b_coef 2 = 1 ∧
    ![y.b_coef 0, y.b_coef 1, y.b_coef 2] = ![y.a_coef 1, y.a_coef 0, 1] ∧
    y = { x with b_coef := y.b_coef, a_coef := y.a_coef } := by
  intro Q' K KKQ denom y
  refine ⟨rfl, rfl, rfl, rfl, rfl, rfl, rfl⟩

/-- Claim C5.  For every stored `Q`, `freq` and `sr`, with `Q'`, `K`, `KKQ`
and `denom` as for the allpass, `lowpass_update_BA` sets
`b0 = b2 = KKQ*denom`, `b1 = 2*KKQ*denom`, `a1 = 2*(KKQ - Q')*denom` and
`a2 = ((KKQ - K) + Q')*denom`; no other member of the object changes. -/
theorem lowpass_update_BA_coefficients (m : CMath F) (x : t_lowpass F) :
    let Q' := clip_Q m x.Q
    let K := m.tanf (m.M_PI * clip_freq_ratio m x.freq x.sr)
    let KKQ := K * K * Q'
    let denom := 1 / (KKQ + K + Q')
    let y := lowpass_update_BA m x
    y.b_coef 0 = KKQ * denom ∧ y.b_coef 2 = KKQ * denom ∧
    y.b_coef 1 = 2 * KKQ * denom ∧
    y.a_coef 0 = 2 * (KKQ - Q') * denom ∧ y.a_coef 1 = ((KKQ - K) + Q') * denom ∧
    y = { x with b_coef := y.b_coef, a_coef := y.a_coef } := by
  intro Q' K KKQ denom y
  refine ⟨rfl, rfl, rfl, rfl, rfl, rfl⟩

/-- Claim C6.  For every stored `dB`, `freq` and `sr`, with
`G = dB_to_gain(dB)` and `K = tanf(M_PI * clip_freq_ratio(freq, sr))`,
`highshelf_update_BA` yields, when `G > 1`,
`(G + sqrt(2G)*K + K^2, 2(K^2 - G), G - sqrt(2G)*K + K^2, 2(K^2 - 1),
1 - sqrt(2)*K + K^2) / (1 + sqrt(2)*K + K^2)` and, when `G <= 1`,
`(G(1 + sqrt(2)*K + K^2), 2G(K^2 - 1), G(1 - sqrt(2)*K + K^2), 2G*K^2 - 2,
1 - sqrt(2G)*K + G*K^2) / (1 + sqrt(2G)*K + G*K^2)` for
`(b0, b1, b2, a1, a2)`, where `sqrt(2)` is the constant `M_SQRT2` and
`sqrt(2G)` is `sqrtf(2*G)`; no other member of the object changes. -/
theorem highshelf_update_BA_coefficients (m : CMath F) (x : t_highshelf F) :
    let G := dB_to_gain m x.dB
    let K := m.tanf (m.M_PI * clip_freq_ratio m x.freq x.sr)
    let y := highshelf_update_BA m x
    (G > 1 →
      y.b_coef 0 = (G + m.sqrtf (2 * G) * K + K ^ 2) / (1 + m.M_SQRT2 * K + K ^ 2) ∧
      y.b_coef 1 = 2 * (K ^ 2 - G) / (1 + m.M_SQRT2 * K + K ^ 2) ∧
      y.b_coef 2 = (G - m.sqrtf (2 * G) * K + K ^ 2) / (1 + m.M_SQRT2 * K + K ^ 2) ∧
      y.a_coef 0 = 2 * (K ^ 2 - 1) / (1 + m.M_SQRT2 * K + K ^ 2) ∧
      y.a_coef 1 = (1 - m.M_SQRT2 * K + K ^ 2) / (1 + m.M_SQRT2 * K + K ^ 2)) ∧
    (G ≤ 1 →
      y.b_coef 0 = G * (1 + m.M_SQRT2 * K + K ^ 2) / (1 + m.sqrtf (2 * G) * K + G * K ^ 2) ∧
      y.b_coef 1 = 2 * G * (K ^ 2 - 1) / (1 + m.sqrtf (2 * G) * K + G * K ^ 2) ∧
      y.b_coef 2 = G * (1 - m.M_SQRT2 * K + K ^ 2) / (1 + m.sqrtf (2 * G) * K + G * K ^ 2) ∧
      y.a_coef 0 = (2 * G * K ^ 2 - 2) / (1 + m.sqrtf (2 * G) * K + G * K ^ 2) ∧
      y.a_coef 1 = (1 - m.sqrtf (2 * G) * K + G * K ^ 2)
                      / (1 + m.sqrtf (2 * G) * K + G * K ^ 2)) ∧
    y = { x with b_coef := y.b_coef, a_coef := y.a_coef } := by
  intro G K y
  refine ⟨fun hG => ?_, fun hG => ?_, ?_⟩
  · have hG' : dB_to_gain m x.dB > 1 := hG
    refine ⟨?_, ?_, ?_, ?_, ?_⟩ <;>
      simp only [y, G, K, highshelf_update_BA, if_pos hG', Matrix.cons_val_zero,
        Matrix.cons_val_one, Matrix.cons_val_two, Matrix.head_cons, Matrix.tail_cons] <;>
      ring
  · have hG' : ¬ dB_to_gain m x.dB > 1 := not_lt.mpr hG
    refine ⟨?_, ?_, ?_, ?_, ?_⟩ <;>
      simp only [y, G, K, highshelf_update_BA, if_neg hG', Matrix.cons_val_zero,
        Matrix.cons_val_one, Matrix.cons_val_two, Matrix.head_cons, Matrix.tail_cons] <;>
      ring
  · simp only [y, highshelf_update_BA]
    split <;> rfl

/-- Claim C7 as stated fails in the boost branch.  With the real functions
`tan`, `sqrt`, power and the IEEE single constants for the C library, and
`Q = 1`, `dB = 20`, `freq = 11025`, `sr = 44100`: `Q' = 1`, `G = 10 > 1` and
`K = tan(pi/4) = 1`; the factor `rDenominator` of `peak_update_BA` is
`1/(1 + K/Q' + K^2) = 1/3`, and the coefficients are `b = (12/3, 0, -8/3)`,
`a = (0, 1/3)`, whereas the claimed denominator `1 + K*G/Q' + K^2` is 12. -/
theorem peak_boost_denominator_counterexample :
    let m : CMath ℝ :=
      ⟨Real.tan, Real.sqrt, fun a b => a ^ b, fun a => Real.log a / Real.log 10, Real.pi,
        Real.sqrt 2, 1 / Real.sqrt 2, 1 / 2 ^ 23, (2 - 1 / 2 ^ 23) * 2 ^ 127, 1 / 2 ^ 126⟩
    let x : t_peak ℝ := ⟨⟨![0, 0, 0], ![0, 0], ![0, 0], ![0, 0], 0⟩, 0, 1, 20, 11025, 44100⟩
    let Q' := clip_Q m x.Q
    let G := dB_to_gain m x.dB
    let K := m.tanf (m.M_PI * clip_freq_ratio m x.freq x.sr)
    Q' = 1 ∧ G = 10 ∧ K = 1 ∧ G > 1 ∧
    peak_rDenominator m x = 1 / 3 ∧
    (peak_update_BA m x).b_coef = ![4, 0, -8 / 3] ∧
    (peak_update_BA m x).a_coef = ![0, 1 / 3] ∧
    1 / (1 + K * G / Q' + K ^ 2) = 1 / 12 ∧
    peak_rDenominator m x ≠ 1 / (1 + K * G / Q' + K ^ 2) := by
  intro m x Q' G K
  have hQ : Q' = 1 := by
    simp only [Q', x, m, clip_Q, clip_float, min_Q, max_Q, fminf]
    norm_num
  have hG : G = 10 := by
    simp only [G, x, m, dB_to_gain, clip_float, fminf]
    norm_num
  have hr : clip_freq_ratio m x.freq x.sr = 1 / 4 := by
    simp only [x, m, clip_freq_ratio, clip_float, min_freq, max_freq_ratio, fminf]
    norm_num
  have hK : K = 1 := by
    simp only [K, hr]
    show Real.tan (Real.pi * (1 / 4)) = 1
    rw [show Real.pi * (1 / 4) = Real.pi / 4 by ring, Real.tan_pi_div_four]
  have hG1 : G > 1 := by rw [hG]; norm_num
  have hD : peak_rDenominator m x = 1 / 3 := by
    have : peak_rDenominator m x = if G > 1 then 1 / (1 + K / Q' + K * K)
        else 1 / (1 + K / Q' / G + K * K) := rfl
    rw [this, if_pos hG1, hQ, hK]; norm_num
  have hU : peak_update_BA m x
      = if G > 1 then
          { x with
            b_coef := ![(1 + G * (K / Q') + K * K) * (1 / (1 + K / Q' + K * K)),
                        2 * (K * K - 1) * (1 / (1 + K / Q' + K * K)),
                        (1 - G * (K / Q') + K * K) * (1 / (1 + K / Q' + K * K))]
            a_coef := ![2 * (K * K - 1) * (1 / (1 + K / Q' + K * K)),
                        (1 - K / Q' + K * K) * (1 / (1 + K / Q' + K * K))] }
        else
          { x with
            b_coef := ![(1 + K / Q' + K * K) * (1 / (1 + K / Q' / G + K * K)),
                        2 * (K * K - 1) * (1 / (1 + K / Q' / G + K * K)),
                        (1 - K / Q' + K * K) * (1 / (1 + K / Q' / G + K * K))]
            a_coef := ![2 * (K * K - 1) * (1 / (1 + K / Q' / G + K * K)),
                        (1 - K / Q' / G + K * K) * (1 / (1 + K / Q' / G + K * K))] } := rfl
  rw [hU, if_pos hG1, hD, hQ, hG, hK]
  refine ⟨rfl, rfl, rfl, by norm_num, rfl, ?_, ?_, by norm_num, by norm_num⟩
  · norm_num
  · norm_num

/-- Claim C7, amended.  For every stored `Q`, `dB`, `freq` and `sr`, with
`Q' = clip_Q(Q)`, `G = dB_to_gain(dB)` and
`K = tanf(M_PI * clip_freq_ratio(freq, sr))`, `peak_update_BA` branches on
`G > 1` versus `G <= 1`, and the denominator by which all five coefficients are
divided is `1 + K/Q' + K^2` in the `G > 1` branch (where `K*G/Q'` enters the
numerators of `b0` and `b2` only) and `1 + (K/Q')/G + K^2` in the `G <= 1`
branch. -/
theorem peak_update_BA_denominator (m : CMath F) (x : t_peak F) :
    let Q' := clip_Q m x.Q
    let G := dB_to_gain m x.dB
    let K := m.tanf (m.M_PI * clip_freq_ratio m x.freq x.sr)
    let y := peak_update_BA m x
    (G > 1 →
      peak_rDenominator m x = 1 / (1 + K / Q' + K ^ 2) ∧
      y.b_coef 0 = (1 + G * (K / Q') + K ^ 2) / (1 + K / Q' + K ^ 2) ∧
      y.b_coef 1 = 2 * (K ^ 2 - 1) / (1 + K / Q' + K ^ 2) ∧
      y.b_coef 2 = (1 - G * (K / Q') + K ^ 2) / (1 + K / Q' + K ^ 2) ∧
      y.a_coef 0 = 2 * (K ^ 2 - 1) / (1 + K / Q' + K ^ 2) ∧
      y.a_coef 1 = (1 - K / Q' + K ^ 2) / (1 + K / Q' + K ^ 2)) ∧
    (G ≤ 1 →
      peak_rDenominator m x = 1 / (1 + K / Q' / G + K ^ 2) ∧
      y.b_coef 0 = (1 + K / Q' + K ^ 2) / (1 + K / Q' / G + K ^ 2) ∧
      y.b_coef 1 = 2 * (K ^ 2 - 1) / (1 + K / Q' / G + K ^ 2) ∧
      y.b_coef 2 = (1 - K / Q' + K ^ 2) / (1 + K / Q' / G + K ^ 2) ∧
      y.a_coef 0 = 2 * (K ^ 2 - 1) / (1 + K / Q' / G + K ^ 2) ∧
      y.a_coef 1 = (1 - K / Q' / G + K ^ 2) / (1 + K / Q' / G + K ^ 2)) := by
  intro Q' G K y
  refine ⟨fun hG => ?_, fun hG => ?_⟩
  · have hG' : dB_to_gain m x.dB > 1 := hG
    refine ⟨?_, ?_, ?_, ?_, ?_, ?_⟩ <;>
      simp only [y, Q', G, K, peak_update_BA, peak_rDenominator, if_pos hG', Matrix.cons_val_zero,
        Matrix.cons_val_one, Matrix.cons_val_two, Matrix.head_cons, Matrix.tail_cons] <;>
      ring
  · have hG' : ¬ dB_to_gain m x.dB > 1 := not_lt.mpr hG
    refine ⟨?_, ?_, ?_, ?_, ?_, ?_⟩ <;>
      simp only [y, Q', G, K, peak_update_BA, peak_rDenominator, if_neg hG', Matrix.cons_val_zero,
        Matrix.cons_val_one, Matrix.cons_val_two, Matrix.head_cons, Matrix.tail_cons] <;>
      ring

/-- Claim C8.  For every stored `Q`, `dB`, `freq` and `sr`, in both gain
branches, the coefficients produced by `peak_update_BA` satisfy `a1 = b1`
(`a_coef[0] = b_coef[1]`), both equal to `2*(K^2 - 1)` times the reciprocal
denominator of the branch (the local `rDenominator`, which is
`1/(1 + K/Q' + K^2)` when `G > 1` and `1/(1 + (K/Q')/G + K^2)` when
`G <= 1`). -/
theorem peak_update_BA_a1_eq_b1 (m : CMath F) (x : t_peak F) :
    let Q' := clip_Q m x.Q
    let G := dB_to_gain m x.dB
    let K := m.tanf (m.M_PI * clip_freq_ratio m x.freq x.sr)
    let y := peak_update_BA m x
    y.a_coef 0 = y.b_coef 1 ∧
    y.b_coef 1 = 2 * (K ^ 2 - 1) * peak_rDenominator m x ∧
    (G > 1 → y.b_coef 1 = 2 * (K ^ 2 - 1) * (1 / (1 + K / Q' + K ^ 2))) ∧
    (G ≤ 1 → y.b_coef 1 = 2 * (K ^ 2 - 1) * (1 / (1 + K / Q' / G + K ^ 2))) := by
  intro Q' G K y
  refine ⟨?_, ?_, fun hG => ?_, fun hG => ?_⟩
  · simp only [y, peak_update_BA]
    split <;> rfl
  · simp only [y, K, peak_update_BA, peak_rDenominator]
    split <;> simp only [Matrix.cons_val_one, Matrix.head_cons] <;> ring
  · have hG' : dB_to_gain m x.dB > 1 := hG
    simp only [y, Q', K, peak_update_BA, if_pos hG', Matrix.cons_val_one, Matrix.head_cons]
    ring
  · have hG' : ¬ dB_to_gain m x.dB > 1 := not_lt.mpr hG
    simp only [y, Q', G, K, peak_update_BA, if_neg hG', Matrix.cons_val_one, Matrix.head_cons]
    ring

end CoefficientClaims

/-! ## Claims on the clamp and conversion helpers -/

section ClampClaims

variable {F : Type} [LinearOrderedField F]

/-- The two-sided form of `clip_float` for ordered bounds. -/
theorem clip_float_eq_max_min (v lo hi : F) (h : lo ≤ hi) :
    clip_float v lo hi = max lo (min v hi) := by
  unfold clip_float fminf
  by_cases hv : v < lo
  · rw [if_pos hv, min_eq_left (le_trans hv.le h), max_eq_left hv.le]
  · rw [if_neg hv, max_eq_right (le_min (not_lt.mp hv) h)]

/-- Claim C11.  For every value `v` and bounds `lo <= hi`,
`clip_float(v, lo, hi)` equals `max(lo, min(v, hi))`: it lies in `[lo, hi]`,
equals `v` when `lo <= v <= hi`, equals `lo` when `v < lo` and equals `hi` when
`v > hi`. -/
theorem clip_float_saturates (v lo hi : F) (h : lo ≤ hi) :
    clip_float v lo hi = max lo (min v hi) ∧
    lo ≤ clip_float v lo hi ∧ clip_float v lo hi ≤ hi ∧
    (lo ≤ v → v ≤ hi → clip_float v lo hi = v) ∧
    (v < lo → clip_float v lo hi = lo) ∧
    (hi < v → clip_float v lo hi = hi) := by
  rw [clip_float_eq_max_min v lo hi h]
  refine ⟨rfl, le_max_left _ _, max_le h (min_le_right _ _), ?_, ?_, ?_⟩
  · intro h1 h2
    rw [min_eq_left h2, max_eq_right h1]
  · intro h1
    rw [min_eq_left (le_trans h1.le h), max_eq_left h1.le]
  · intro h1
    rw [min_eq_right h1.le, max_eq_right h]

/-- Witness of claim C11: the value 5 clipped to `[0, 3]`. -/
theorem clip_float_saturates_witness :
    (0 : ℚ) ≤ 3 ∧
    (clip_float (5 : ℚ) 0 3 = max 0 (min 5 3) ∧
    (0 : ℚ) ≤ clip_float 5 0 3 ∧ clip_float (5 : ℚ) 0 3 ≤ 3 ∧
    ((0 : ℚ) ≤ 5 → (5 : ℚ) ≤ 3 → clip_float (5 : ℚ) 0 3 = 5) ∧
    ((5 : ℚ) < 0 → clip_float (5 : ℚ) 0 3 = 0) ∧
    ((3 : ℚ) < 5 → clip_float (5 : ℚ) 0 3 = 3)) :=
  ⟨by norm_num, clip_float_saturates 5 0 3 (by norm_num)⟩

/-- Claim C14.  For every `dB`, `dB_to_gain(dB)` is
`clip_float(powf(10, dB/20), 0, FLT_MAX)`, that is
`max(0, min(10^(dB/20), FLT_MAX))`, and therefore lies in `[0, FLT_MAX]`
(`FLT_MAX` being non-negative). -/
theorem dB_to_gain_bounds (m : CMath F) (dB : F) (hmax : 0 ≤ m.FLT_MAX) :
    dB_to_gain m dB = clip_float (m.powf 10 (dB / 20)) 0 m.FLT_MAX ∧
    dB_to_gain m dB = max 0 (min (m.powf 10 (dB / 20)) m.FLT_MAX) ∧
    0 ≤ dB_to_gain m dB ∧ dB_to_gain m dB ≤ m.FLT_MAX := by
  have e : dB * (1 / 20) = dB / 20 := by ring
  have h1 : dB_to_gain m dB = clip_float (m.powf 10 (dB / 20)) 0 m.FLT_MAX := by
    unfold dB_to_gain
    rw [e]
  have h2 := clip_float_eq_max_min (m.powf 10 (dB / 20)) 0 m.FLT_MAX hmax
  refine ⟨h1, h1.trans h2, ?_, ?_⟩
  · rw [h1, h2]; exact le_max_left _ _
  · rw [h1, h2]; exact max_le hmax (min_le_right _ _)

/-- Witness of claim C14: the real C library with the IEEE single constants,
and `dB = -6`. -/
theorem dB_to_gain_bounds_witness :
    let m : CMath ℝ :=
      ⟨Real.tan, Real.sqrt, fun a b => a ^ b, fun a => Real.log a / Real.log 10, Real.pi,
        Real.sqrt 2, 1 / Real.sqrt 2, 1 / 2 ^ 23, (2 - 1 / 2 ^ 23) * 2 ^ 127, 1 / 2 ^ 126⟩
    0 ≤ m.FLT_MAX ∧
    (dB_to_gain m (-6) = clip_float (m.powf 10 (-6 / 20)) 0 m.FLT_MAX ∧
    dB_to_gain m (-6) = max 0 (min (m.powf 10 (-6 / 20)) m.FLT_MAX) ∧
    0 ≤ dB_to_gain m (-6) ∧ dB_to_gain m (-6) ≤ m.FLT_MAX) := by
  intro m
  have hmax : 0 ≤ m.FLT_MAX := by
    show (0 : ℝ) ≤ (2 - 1 / 2 ^ 23) * 2 ^ 127
    norm_num
  exact ⟨hmax, dB_to_gain_bounds m (-6) hmax⟩

/-- Claim C13 fails on the code.  With the real C library and the IEEE single
constants, `freq = 44100` and `sr = 44100 > 0`: the ratio `freq / sr = 1` is
compared with the upper bound `sr * max_freq_ratio`, about 22050, so
`clip_freq_ratio` returns 1, which is above `0.5 - FLT_EPSILON`; the
coefficient routines then take `K = tan(pi * 1) = 0`. -/
theorem clip_freq_ratio_above_nyquist :
    let m : CMath ℝ :=
      ⟨Real.tan, Real.sqrt, fun a b => a ^ b, fun a => Real.log a / Real.log 10, Real.pi,
        Real.sqrt 2, 1 / Real.sqrt 2, 1 / 2 ^ 23, (2 - 1 / 2 ^ 23) * 2 ^ 127, 1 / 2 ^ 126⟩
    (0 : ℝ) < 44100 ∧
    clip_freq_ratio m 44100 44100 = 1 ∧
    ¬ (clip_freq_ratio m 44100 44100 ≤ 1 / 2 - m.FLT_EPSILON) ∧
    m.tanf (m.M_PI * clip_freq_ratio m 44100 44100) = 0 := by
  intro m
  have h1 : clip_freq_ratio m 44100 44100 = 1 := by
    simp only [m, clip_freq_ratio, clip_float, min_freq, max_freq_ratio, fminf]
    norm_num
  rw [h1]
  refine ⟨by norm_num, rfl, ?_, ?_⟩
  · show ¬ ((1 : ℝ) ≤ 1 / 2 - 1 / 2 ^ 23)
    norm_num
  · show Real.tan (Real.pi * 1) = 0
    rw [mul_one, Real.tan_pi]

end ClampClaims

/-! ## Claims on the gain branches -/

section BranchClaims

variable {F : Type} [LinearOrderedField F]

theorem highshelf_update_BA_branch (m : CMath F) (x : t_highshelf F) :
    ((highshelf_update_BA m x).b_coef, (highshelf_update_BA m x).a_coef)
      = if dB_to_gain m x.dB > 1
        then highshelf_boost m (dB_to_gain m x.dB)
              (m.tanf (m.M_PI * clip_freq_ratio m x.freq x.sr))
        else highshelf_cut m (dB_to_gain m x.dB)
              (m.tanf (m.M_PI * clip_freq_ratio m x.freq x.sr)) := by
  by_cases hG : dB_to_gain m x.dB > 1
  · simp only [highshelf_update_BA, highshelf_boost, if_pos hG]
  · simp only [highshelf_update_BA, highshelf_cut, if_neg hG]

theorem peak_update_BA_branch (m : CMath F) (x : t_peak F) :
    ((peak_update_BA m x).b_coef, (peak_update_BA m x).a_coef)
      = if dB_to_gain m x.dB > 1
        then peak_boost (clip_Q m x.Q) (dB_to_gain m x.dB)
              (m.tanf (m.M_PI * clip_freq_ratio m x.freq x.sr))
        else peak_cut (clip_Q m x.Q) (dB_to_gain m x.dB)
              (m.tanf (m.M_PI * clip_freq_ratio m x.freq x.sr)) := by
  by_cases hG : dB_to_gain m x.dB > 1
  · simp only [peak_update_BA, peak_boost, if_pos hG]
  · simp only [peak_update_BA, peak_cut, if_neg hG]

theorem dB_to_gain_zero (m : CMath F) (hpow : m.powf 10 0 = 1) (hmax : 1 ≤ m.FLT_MAX) :
    dB_to_gain m 0 = 1 := by
  unfold dB_to_gain clip_float fminf
  rw [zero_mul, hpow, if_neg (by norm_num), min_eq_left hmax]

/-- Claim C16.  `highshelf_update_BA` and `peak_update_BA` write the arrays of
the boost branch exactly when `dB_to_gain(dB) > 1` and those of the `else`
branch otherwise; at `dB = 0` the gain is `G = 1` (`powf(10, 0) = 1` and
`1 <= FLT_MAX`), `G > 1` is false, and the five coefficients are those of the
attenuation branch evaluated at `G = 1`. -/
theorem gain_branch_boundary (m : CMath F) (xh : t_highshelf F) (xp : t_peak F)
    (hpow : m.powf 10 0 = 1) (hmax : 1 ≤ m.FLT_MAX) :
    (∀ x : t_highshelf F,
      ((highshelf_update_BA m x).b_coef, (highshelf_update_BA m x).a_coef)
        = if dB_to_gain m x.dB > 1
          then highshelf_boost m (dB_to_gain m x.dB)
                (m.tanf (m.M_PI * clip_freq_ratio m x.freq x.sr))
          else highshelf_cut m (dB_to_gain m x.dB)
                (m.tanf (m.M_PI * clip_freq_ratio m x.freq x.sr))) ∧
    (∀ x : t_peak F,
      ((peak_update_BA m x).b_coef, (peak_update_BA m x).a_coef)
        = if dB_to_gain m x.dB > 1
          then peak_boost (clip_Q m x.Q) (dB_to_gain m x.dB)
                (m.tanf (m.M_PI * clip_freq_ratio m x.freq x.sr))
          else peak_cut (clip_Q m x.Q) (dB_to_gain m x.dB)
                (m.tanf (m.M_PI * clip_freq_ratio m x.freq x.sr))) ∧
    dB_to_gain m 0 = 1 ∧ ¬ (dB_to_gain m 0 > 1) ∧
    ((highshelf_update_BA m { xh with dB := 0 }).b_coef,
      (highshelf_update_BA m { xh with dB := 0 }).a_coef)
        = highshelf_cut m 1 (m.tanf (m.M_PI * clip_freq_ratio m xh.freq xh.sr)) ∧
    ((peak_update_BA m { xp with dB := 0 }).b_coef,
      (peak_update_BA m { xp with dB := 0 }).a_coef)
        = peak_cut (clip_Q m xp.Q) 1 (m.tanf (m.M_PI * clip_freq_ratio m xp.freq xp.sr)) := by
  have hG := dB_to_gain_zero m hpow hmax
  have hn : ¬ (dB_to_gain m 0 > 1) := by rw [hG]; exact lt_irrefl 1
  refine ⟨highshelf_update_BA_branch m, peak_update_BA_branch m, hG, hn, ?_, ?_⟩
  · rw [highshelf_update_BA_branch]
    simp only [hG, gt_iff_lt, lt_self_iff_false, if_false]
  · rw [peak_update_BA_branch]
    simp only [hG, gt_iff_lt, lt_self_iff_false, if_false]

/-- Claim C17, amended.  In exact arithmetic, where `sqrtf(2)` and `M_SQRT2`
are one number, the boost-branch formulas of the highshelf and of the peak
filter evaluated at `G = 1` give the same five coefficients as the
attenuation-branch formulas evaluated at `G = 1`, for every `K` and every `Q`
(positive or not). -/
theorem gain_branches_agree_at_one (m : CMath F) (Q K : F) (hs : m.sqrtf 2 = m.M_SQRT2) :
    highshelf_boost m 1 K = highshelf_cut m 1 K ∧ peak_boost Q 1 K = peak_cut Q 1 K := by
  constructor
  · simp only [highshelf_boost, highshelf_cut, mul_one, one_mul, hs]
    rw [show 2 * (K * K) - 2 = 2 * (K * K - 1) by ring]
  · simp only [peak_boost, peak_cut, one_mul, div_one]

end BranchClaims

/-- Witness of claim C16: the real C library with the IEEE single constants, a
highshelf and a peak object at 1000 Hz and 44100 Hz. -/
theorem gain_branch_boundary_witness :
    let m : CMath ℝ :=
      ⟨Real.tan, Real.sqrt, fun a b => a ^ b, fun a => Real.log a / Real.log 10, Real.pi,
        Real.sqrt 2, 1 / Real.sqrt 2, 1 / 2 ^ 23, (2 - 1 / 2 ^ 23) * 2 ^ 127, 1 / 2 ^ 126⟩
    let xh : t_highshelf ℝ := ⟨⟨![0, 0, 0], ![0, 0], ![0, 0], ![0, 0], 0⟩, 0, 6, 1000, 44100⟩
    let xp : t_peak ℝ := ⟨⟨![0, 0, 0], ![0, 0], ![0, 0], ![0, 0], 0⟩, 0, 1, 6, 1000, 44100⟩
    m.powf 10 0 = 1 ∧ 1 ≤ m.FLT_MAX ∧
    ((∀ x : t_highshelf ℝ,
      ((highshelf_update_BA m x).b_coef, (highshelf_update_BA m x).a_coef)
        = if dB_to_gain m x.dB > 1
          then highshelf_boost m (dB_to_gain m x.dB)
                (m.tanf (m.M_PI * clip_freq_ratio m x.freq x.sr))
          else highshelf_cut m (dB_to_gain m x.dB)
                (m.tanf (m.M_PI * clip_freq_ratio m x.freq x.sr))) ∧
    (∀ x : t_peak ℝ,
      ((peak_update_BA m x).b_coef, (peak_update_BA m x).a_coef)
        = if dB_to_gain m x.dB > 1
          then peak_boost (clip_Q m x.Q) (dB_to_gain m x.dB)
                (m.tanf (m.M_PI * clip_freq_ratio m x.freq x.sr))
          else peak_cut (clip_Q m x.Q) (dB_to_gain m x.dB)
                (m.tanf (m.M_PI * clip_freq_ratio m x.freq x.sr))) ∧
    dB_to_gain m 0 = 1 ∧ ¬ (dB_to_gain m 0 > 1) ∧
    ((highshelf_update_BA m { xh with dB := 0 }).b_coef,
      (highshelf_update_BA m { xh with dB := 0 }).a_coef)
        = highshelf_cut m 1 (m.tanf (m.M_PI * clip_freq_ratio m xh.freq xh.sr)) ∧
    ((peak_update_BA m { xp with dB := 0 }).b_coef,
      (peak_update_BA m { xp with dB := 0 }).a_coef)
        = peak_cut (clip_Q m xp.Q) 1 (m.tanf (m.M_PI * clip_freq_ratio m xp.freq xp.sr))) := by
  intro m xh xp
  have hpow : m.powf 10 0 = 1 := Real.rpow_zero 10
  have hmax : 1 ≤ m.FLT_MAX := by
    show (1 : ℝ) ≤ (2 - 1 / 2 ^ 23) * 2 ^ 127
    norm_num
  exact ⟨hpow, hmax, gain_branch_boundary m xh xp hpow hmax⟩

/-- Witness of the amended claim C17: the real numbers, `Q = 1` and `K = 1/2`. -/
theorem gain_branches_agree_at_one_witness :
    let m : CMath ℝ :=
      ⟨Real.tan, Real.sqrt, fun a b => a ^ b, fun a => Real.log a / Real.log 10, Real.pi,
        Real.sqrt 2, 1 / Real.sqrt 2, 1 / 2 ^ 23, (2 - 1 / 2 ^ 23) * 2 ^ 127, 1 / 2 ^ 126⟩
    m.sqrtf 2 = m.M_SQRT2 ∧
    (highshelf_boost m 1 (1 / 2) = highshelf_cut m 1 (1 / 2) ∧
      peak_boost (1 : ℝ) 1 (1 / 2) = peak_cut 1 1 (1 / 2)) := by
  intro m
  exact ⟨rfl, gain_branches_agree_at_one m 1 (1 / 2) rfl⟩

/-! ## Binding, construction and release of the FIR object -/

section FirBindLemmas

variable {F : Type}

theorem fir_perform_blocks_no_coefs [Add F] [Mul F] [Zero F] (blocks : List (List F)) (x : t_fir F)
    (h : x.coefs = none) :
    fir_perform_blocks blocks x = some (List.replicate blocks.flatten.length 0, x) := by
  induction blocks with
  | nil => simp [fir_perform_blocks]
  | cons b rest ih =>
    have hb : fir_perform b x = some (List.replicate b.length 0, x) := by
      simp [fir_perform, h]
    simp only [fir_perform_blocks, hb, ih, Option.bind_eq_bind, Option.some_bind]
    rw [List.flatten_cons, List.length_append, List.replicate_add]

theorem fir_valid_free (x : t_fir F) : fir_valid (fir_free x) :=
  Or.inl ⟨rfl, rfl, rfl⟩

theorem fir_set_cases [Zero F] (pd : t_pd F) (x : t_fir F) (name : t_symbol) :
    (fir_set pd x (some name)).1 = fir_free x ∨
    ∃ (words tbl : List F) (g : Nat → F),
      pd.pd_findbyclass name = some ⟨some words⟩ ∧ pd.alloc = some g ∧
      tbl.length = words.length ∧
      (x.table = none → tbl = List.replicate words.length 0) ∧
      (fir_set pd x (some name)) =
        ({ x with table := some tbl, coefs := some words, order := (words.length : Int) }, []) := by
  cases hf : pd.pd_findbyclass name with
  | none => left; simp [fir_set, hf]
  | some array =>
    cases hw : array.floatwords with
    | none => left; simp [fir_set, hf, hw]
    | some words =>
      have harr : array = ⟨some words⟩ := by
        cases array; simp only at hw; rw [hw]
      cases ha : pd.alloc with
      | none =>
        left
        cases ht : x.table <;> simp [fir_set, hf, hw, calloc, realloc, ha, ht, fir_free]
      | some g =>
        right
        cases ht : x.table with
        | none =>
          exact ⟨words, List.replicate words.length 0, g, by rw [harr], rfl, by simp,
            fun _ => rfl, by simp [fir_set, hf, hw, calloc, ha, ht]⟩
        | some old =>
          exact ⟨words, (List.range words.length).map fun i => old.getD i (g i), g, by rw [harr],
            rfl, by simp, fun h => by simp at h,
            by simp [fir_set, hf, hw, realloc, ha, ht]⟩

theorem fir_valid_set [Zero F] (pd : t_pd F) (x : t_fir F) (array_name : Option t_symbol)
    (hx : fir_valid x) : fir_valid (fir_set pd x array_name).1 := by
  cases array_name with
  | none => exact hx
  | some name =>
    rcases fir_set_cases pd x name with h | ⟨words, tbl, g, -, -, hl, -, h⟩
    · rw [h]; exact fir_valid_free x
    · rw [h]; exact Or.inr ⟨words, tbl, rfl, rfl, rfl, hl⟩

theorem writeAt_length (a a1 : List F) (i : Int) (v : F) (h : writeAt a i v = some a1) :
    a1.length = a.length := by
  unfold writeAt at h
  split at h
  · simp only [Option.some.injEq] at h
    rw [← h, List.length_set]
  · simp at h

theorem fir_iter_keeps [Add F] [Mul F] [Zero F] (x x1 : t_fir F) (x_n y_n : F)
    (h : fir_iter x x_n = some (y_n, x1)) :
    x1.coefs = x.coefs ∧ x1.order = x.order ∧
    ∃ tbl tbl1 : List F, x.table = some tbl ∧ x1.table = some tbl1 ∧ tbl1.length = tbl.length := by
  unfold fir_iter at h
  cases hc : x.coefs with
  | none => simp [hc] at h
  | some coefs =>
    cases ht : x.table with
    | none =>
      simp only [hc, ht, Option.bind_eq_bind, Option.some_bind] at h
      cases h0 : readAt coefs 0 <;> simp [h0] at h
    | some tbl =>
      simp only [hc, ht, Option.bind_eq_bind, Option.some_bind] at h
      cases h0 : readAt coefs 0 with
      | none => simp [h0] at h
      | some c0 =>
        simp only [h0, Option.some_bind] at h
        cases hy : fir_taps x.order (if x.wptr < x.order then x.wptr else 0) coefs tbl (c0 * x_n) with
        | none => simp [hy] at h
        | some y =>
          simp only [hy, Option.some_bind] at h
          cases hw : writeAt tbl (if x.wptr < x.order then x.wptr else 0) x_n with
          | none => simp [hw] at h
          | some tbl1 =>
            simp only [hw, Option.some_bind, Option.some.injEq, Prod.mk.injEq] at h
            obtain ⟨-, rfl⟩ := h
            exact ⟨rfl, rfl, tbl, tbl1, rfl, rfl, writeAt_length tbl tbl1 _ _ hw⟩

theorem fir_loop_valid [Add F] [Mul F] [Zero F] (input : List F) :
    ∀ (x x1 : t_fir F) (out : List F), fir_valid x → fir_loop input x = some (out, x1) →
      fir_valid x1 := by
  induction input with
  | nil =>
    intro x x1 out hx h
    simp only [fir_loop, Option.some.injEq, Prod.mk.injEq] at h
    rw [← h.2]; exact hx
  | cons x_n rest ih =>
    intro x x1 out hx h
    simp only [fir_loop, Option.bind_eq_bind] at h
    cases hi : fir_iter x x_n with
    | none => simp [hi] at h
    | some r =>
      obtain ⟨y_n, x2⟩ := r
      simp only [hi, Option.some_bind] at h
      cases hl : fir_loop rest x2 with
      | none => simp [hl] at h
      | some r2 =>
        obtain ⟨ys, x3⟩ := r2
        simp only [hl, Option.some_bind, Option.some.injEq, Prod.mk.injEq] at h
        obtain ⟨hc, ho, tbl, tbl1, ht, ht1, hlen⟩ := fir_iter_keeps x x2 x_n y_n hi
        have hx2 : fir_valid x2 := by
          rcases hx with ⟨-, -, hn⟩ | ⟨words, tbl0, hw, hord, htb, hl0⟩
          · rw [hn] at ht; simp at ht
          · rw [htb] at ht
            simp only [Option.some.injEq] at ht
            exact Or.inr ⟨words, tbl1, by rw [hc, hw], by rw [ho, hord], ht1,
              by rw [hlen, ← ht, hl0]⟩
        rw [← h.2]
        exact ih x2 x3 ys hx2 hl

theorem fir_valid_perform [Add F] [Mul F] [Zero F] (input out : List F) (x x1 : t_fir F)
    (hx : fir_valid x) (h : fir_perform input x = some (out, x1)) : fir_valid x1 := by
  unfold fir_perform at h
  split at h
  · simp only [Option.some.injEq, Prod.mk.injEq] at h
    rw [← h.2]; exact hx
  · exact fir_loop_valid input x x1 out hx h

theorem fir_valid_new [Zero F] (pd : t_pd F) (argv : List t_symbol) :
    fir_valid (fir_new pd argv).1 := by
  unfold fir_new
  generalize (if argv.length > 0 then argv[0]? else none) = name
  have h := fir_valid_set pd ⟨0, none, none, 0, 0⟩ name (Or.inl ⟨rfl, rfl, rfl⟩)
  simp only []
  split
  · exact fir_valid_free _
  · exact h

theorem fir_valid_calls [Add F] [Mul F] [Zero F] (calls : List (t_call F)) :
    ∀ x x1 : t_fir F, fir_valid x → fir_calls calls x = some x1 → fir_valid x1 := by
  induction calls with
  | nil =>
    intro x x1 hx h
    simp only [fir_calls, Option.some.injEq] at h
    rw [← h]; exact hx
  | cons c rest ih =>
    intro x x1 hx h
    simp only [fir_calls] at h
    cases hc : fir_call x c with
    | none => simp [hc] at h
    | some x2 =>
      simp only [hc, Option.some_bind] at h
      refine ih x2 x1 ?_ h
      cases c with
      | set pd array_name =>
        simp only [fir_call, Option.some.injEq] at hc
        rw [← hc]; exact fir_valid_set pd x array_name hx
      | perform input =>
        simp only [fir_call, Option.map_eq_some'] at hc
        obtain ⟨r, hr, rfl⟩ := hc
        exact fir_valid_perform input r.1 x r.2 hx hr
      | free =>
        simp only [fir_call, Option.some.injEq] at hc
        rw [← hc]; exact fir_valid_free x

theorem fir_loop_keeps [Add F] [Mul F] [Zero F] (input : List F) :
    ∀ (x x1 : t_fir F) (out : List F), fir_loop input x = some (out, x1) →
      x1.coefs = x.coefs ∧ x1.order = x.order := by
  induction input with
  | nil =>
    intro x x1 out h
    simp only [fir_loop, Option.some.injEq, Prod.mk.injEq] at h
    rw [← h.2]; exact ⟨rfl, rfl⟩
  | cons x_n rest ih =>
    intro x x1 out h
    simp only [fir_loop, Option.bind_eq_bind] at h
    cases hi : fir_iter x x_n with
    | none => simp [hi] at h
    | some r =>
      obtain ⟨y_n, x2⟩ := r
      simp only [hi, Option.some_bind] at h
      cases hl : fir_loop rest x2 with
      | none => simp [hl] at h
      | some r2 =>
        obtain ⟨ys, x3⟩ := r2
        simp only [hl, Option.some_bind, Option.some.injEq, Prod.mk.injEq] at h
        obtain ⟨hc, ho, -⟩ := fir_iter_keeps x x2 x_n y_n hi
        obtain ⟨hc3, ho3⟩ := ih x2 x3 ys hl
        rw [← h.2]
        exact ⟨hc3.trans hc, ho3.trans ho⟩

theorem fir_perform_keeps [Add F] [Mul F] [Zero F] (input out : List F) (x x1 : t_fir F)
    (h : fir_perform input x = some (out, x1)) :
    x1.coefs = x.coefs ∧ x1.order = x.order := by
  unfold fir_perform at h
  split at h
  · simp only [Option.some.injEq, Prod.mk.injEq] at h
    rw [← h.2]; exact ⟨rfl, rfl⟩
  · exact fir_loop_keeps input x x1 out h

end FirBindLemmas

/-! ## Claims on the FIR object -/

section FirBindClaims

variable {F : Type}

/-- Claim C18.  For every object state, a `fir_set` call whose named array is
not found, or is found but is not float-only, or for which the allocation of
the history table fails, reports an error and leaves the object with `coefs`
absent, `order = 0` and no history table, every other member as before; every
later `fir_perform`, on any sequence of blocks, outputs zeros only and leaves
the object in that state. -/
theorem fir_set_failure [Add F] [Mul F] [Zero F] (pd : t_pd F) (x : t_fir F) (name : t_symbol)
    (blocks : List (List F))
    (hfail : pd.pd_findbyclass name = none ∨ pd.pd_findbyclass name = some ⟨none⟩ ∨
      ∃ words, pd.pd_findbyclass name = some ⟨some words⟩ ∧ pd.alloc = none) :
    (fir_set pd x (some name)).1 = { x with coefs := none, order := 0, table := none } ∧
    (fir_set pd x (some name)).1.coefs = none ∧
    (fir_set pd x (some name)).1.order = 0 ∧
    (fir_set pd x (some name)).1.table = none ∧
    (fir_set pd x (some name)).2 ≠ [] ∧
    fir_perform_blocks blocks (fir_set pd x (some name)).1
      = some (List.replicate blocks.flatten.length 0, (fir_set pd x (some name)).1) := by
  have h1 : (fir_set pd x (some name)).1 = { x with coefs := none, order := 0, table := none } ∧
      (fir_set pd x (some name)).2 ≠ [] := by
    rcases hfail with h | h | ⟨words, h, ha⟩
    · simp [fir_set, h, fir_free]
    · simp [fir_set, h, fir_free]
    · cases ht : x.table <;> simp [fir_set, h, ha, ht, calloc, realloc, fir_free]
  have hc : (fir_set pd x (some name)).1.coefs = none := by rw [h1.1]
  refine ⟨h1.1, hc, by rw [h1.1], by rw [h1.1], h1.2, fir_perform_blocks_no_coefs blocks _ hc⟩

/-- Witness of claim C18: a bound object of order 3, a float array found under
the name `h`, and a failing `realloc`. -/
theorem fir_set_failure_witness :
    let pd : t_pd Int := ⟨fun _ => some ⟨some [1, 1]⟩, none⟩
    let x : t_fir Int := ⟨0, some [7, 8, 9], some [2, 3, 5], 3, 2⟩
    (pd.pd_findbyclass "h" = none ∨ pd.pd_findbyclass "h" = some ⟨none⟩ ∨
      ∃ words, pd.pd_findbyclass "h" = some ⟨some words⟩ ∧ pd.alloc = none) ∧
    ((fir_set pd x (some "h")).1 = { x with coefs := none, order := 0, table := none } ∧
    (fir_set pd x (some "h")).1.coefs = none ∧
    (fir_set pd x (some "h")).1.order = 0 ∧
    (fir_set pd x (some "h")).1.table = none ∧
    (fir_set pd x (some "h")).2 ≠ [] ∧
    fir_perform_blocks [[1, 2], [3]] (fir_set pd x (some "h")).1
      = some (List.replicate ([[1, 2], [3]] : List (List Int)).flatten.length 0,
          (fir_set pd x (some "h")).1)) := by
  intro pd x
  have hfail : pd.pd_findbyclass "h" = none ∨ pd.pd_findbyclass "h" = some ⟨none⟩ ∨
      ∃ words, pd.pd_findbyclass "h" = some ⟨some words⟩ ∧ pd.alloc = none :=
    Or.inr (Or.inr ⟨[1, 1], rfl, rfl⟩)
  exact ⟨hfail, fir_set_failure pd x "h" [[1, 2], [3]] hfail⟩

/-- Claim C19 as stated fails for an object that holds valid coefficients.
`fir_set` with `array_name == 0` returns at once: the object of order 3 with
coefficients `[2, 3, 5]` is unchanged, and the next `fir_perform` on the block
`[1]` outputs `[2]`, not zeros. -/
theorem fir_set_no_name_keeps_coefs :
    let pd : t_pd Int := ⟨fun _ => none, none⟩
    let x : t_fir Int := ⟨0, some [0, 0, 0], some [2, 3, 5], 3, 0⟩
    fir_set pd x none = (x, []) ∧
    fir_perform [1] (fir_set pd x none).1 = some ([2], ⟨0, some [1, 0, 0], some [2, 3, 5], 3, 1⟩) ∧
    ¬ ∃ x1 : t_fir Int, fir_perform [1] (fir_set pd x none).1 = some (List.replicate 1 0, x1) := by
  intro pd x
  have h1 : fir_set pd x none = (x, []) := rfl
  have h2 : fir_perform [1] (fir_set pd x none).1
      = some ([2], ⟨0, some [1, 0, 0], some [2, 3, 5], 3, 1⟩) := by rfl
  refine ⟨h1, h2, ?_⟩
  rintro ⟨x1, h⟩
  rw [h2] at h
  simp only [Option.some.injEq, Prod.mk.injEq] at h
  exact absurd h.1 (by decide)

/-- Claim C19, amended.  `fir_new` with no creation argument yields an object
without coefficients (no table, order 0, write pointer 0), so that every
subsequent `fir_perform` fills its output with zeros, and reports no error.
`fir_set` with `array_name == 0` reports no error and leaves every object state
unchanged: an object without coefficients goes on to output zeros, an object
that holds valid coefficients keeps them. -/
theorem fir_no_name [Add F] [Mul F] [Zero F] (pd : t_pd F) (x : t_fir F)
    (blocks : List (List F)) :
    fir_new pd [] = (⟨0, none, none, 0, 0⟩, []) ∧
    fir_perform_blocks blocks (fir_new pd []).1
      = some (List.replicate blocks.flatten.length 0, (fir_new pd []).1) ∧
    fir_set pd x none = (x, []) ∧
    (x.coefs = none →
      fir_perform_blocks blocks (fir_set pd x none).1
        = some (List.replicate blocks.flatten.length 0, x)) := by
  have hn : fir_new pd [] = ((⟨0, none, none, 0, 0⟩ : t_fir F), []) := by
    simp [fir_new, fir_set, fir_free]
  refine ⟨hn, ?_, rfl, fun hc => fir_perform_blocks_no_coefs blocks x hc⟩
  rw [hn]
  exact fir_perform_blocks_no_coefs blocks _ rfl

/-- Claim C20.  Every state reached from `fir_new` by any sequence of
`fir_set`, `fir_perform` and `fir_free` calls is valid: either `coefs` is
absent, `order = 0` and the history table is absent, or `coefs` refers to a
coefficient table, `order` is its length and the history table has exactly that
length.  `fir_perform` changes neither `coefs` nor `order`, and a successful
`fir_set` makes `coefs` the words of the array it found, `order` their number
and the history table of that length; when the object held no coefficients
before (as before its first successful bind) that table is all zeros. -/
theorem fir_reachable_valid [Add F] [Mul F] [Zero F] (pd0 : t_pd F) (argv : List t_symbol)
    (calls : List (t_call F)) (x : t_fir F)
    (h : fir_calls calls (fir_new pd0 argv).1 = some x) :
    fir_valid x ∧
    (∀ (input out : List F) (x1 : t_fir F), fir_perform input x = some (out, x1) →
      x1.coefs = x.coefs ∧ x1.order = x.order) ∧
    (∀ (pd : t_pd F) (name : t_symbol) (words : List F) (g : Nat → F),
      pd.pd_findbyclass name = some ⟨some words⟩ → pd.alloc = some g →
      (fir_set pd x (some name)).1.coefs = some words ∧
      (fir_set pd x (some name)).1.order = (words.length : Int) ∧
      ∃ tbl, (fir_set pd x (some name)).1.table = some tbl ∧ tbl.length = words.length ∧
        (x.coefs = none → tbl = List.replicate words.length 0)) := by
  have hv : fir_valid x := fir_valid_calls calls _ x (fir_valid_new pd0 argv) h
  refine ⟨hv, fun input out x1 hp => fir_perform_keeps input out x x1 hp, ?_⟩
  intro pd name words g hf ha
  cases ht : x.table with
  | none =>
    refine ⟨by simp [fir_set, hf, ha, ht, calloc], by simp [fir_set, hf, ha, ht, calloc],
      List.replicate words.length 0, by simp [fir_set, hf, ha, ht, calloc], by simp, fun _ => rfl⟩
  | some old =>
    have hc : x.coefs ≠ none := by
      rcases hv with ⟨-, -, hn⟩ | ⟨w, t, hw, -, -, -⟩
      · rw [hn] at ht; simp at ht
      · rw [hw]; simp
    refine ⟨by simp [fir_set, hf, ha, ht, realloc], by simp [fir_set, hf, ha, ht, realloc],
      (List.range words.length).map fun i => old.getD i (g i),
      by simp [fir_set, hf, ha, ht, realloc], by simp, fun h0 => absurd h0 hc⟩

end FirBindClaims

/-- Witness of claim C20: an object created on the array `[2, 3, 5]` that has
processed the block `[1, 10]`. -/
theorem fir_reachable_valid_witness :
    let pd0 : t_pd Int := ⟨fun _ => some ⟨some [2, 3, 5]⟩, some fun _ => 0⟩
    let x : t_fir Int := ⟨0, some [1, 10, 0], some [2, 3, 5], 3, 2⟩
    fir_calls [t_call.perform [1, 10]] (fir_new pd0 ["h"]).1 = some x ∧
    (fir_valid x ∧
    (∀ (input out : List Int) (x1 : t_fir Int), fir_perform input x = some (out, x1) →
      x1.coefs = x.coefs ∧ x1.order = x.order) ∧
    (∀ (pd : t_pd Int) (name : t_symbol) (words : List Int) (g : Nat → Int),
      pd.pd_findbyclass name = some ⟨some words⟩ → pd.alloc = some g →
      (fir_set pd x (some name)).1.coefs = some words ∧
      (fir_set pd x (some name)).1.order = (words.length : Int) ∧
      ∃ tbl, (fir_set pd x (some name)).1.table = some tbl ∧ tbl.length = words.length ∧
        (x.coefs = none → tbl = List.replicate words.length 0))) := by
  intro pd0 x
  have h : fir_calls [t_call.perform [1, 10]] (fir_new pd0 ["h"]).1 = some x := by rfl
  exact ⟨h, fir_reachable_valid pd0 ["h"] [t_call.perform [1, 10]] x h⟩

/-! ## Claims on the parameter setters and on empty blocks -/

section SetterClaims

variable {F : Type} [LinearOrderedField F]

/-- Claim C23.  Each of the nine parameter setters is idempotent: for every
object state `s` and every value `v`, applying the setter with `v` to the state
it has just produced with `v` gives that same state again, hence the same five
coefficients (every member of the object is equal). -/
theorem setters_idempotent (m : CMath F) (v : F) (sa : t_allpass F) (sl : t_lowpass F)
    (sh : t_highshelf F) (sp : t_peak F) :
    allpass_Q m (allpass_Q m sa v) v = allpass_Q m sa v ∧
    allpass_freq m (allpass_freq m sa v) v = allpass_freq m sa v ∧
    lowpass_Q m (lowpass_Q m sl v) v = lowpass_Q m sl v ∧
    lowpass_freq m (lowpass_freq m sl v) v = lowpass_freq m sl v ∧
    highshelf_dB m (highshelf_dB m sh v) v = highshelf_dB m sh v ∧
    highshelf_freq m (highshelf_freq m sh v) v = highshelf_freq m sh v ∧
    peak_Q m (peak_Q m sp v) v = peak_Q m sp v ∧
    peak_dB m (peak_dB m sp v) v = peak_dB m sp v ∧
    peak_freq m (peak_freq m sp v) v = peak_freq m sp v := by
  refine ⟨rfl, rfl, rfl, rfl, ?_, ?_, ?_, ?_, ?_⟩
  · simp only [highshelf_dB, highshelf_update_BA]; split <;> rfl
  · simp only [highshelf_freq, highshelf_update_BA]; split <;> rfl
  · simp only [peak_Q, peak_update_BA]; split <;> rfl
  · simp only [peak_dB, peak_update_BA]; split <;> rfl
  · simp only [peak_freq, peak_update_BA]; split <;> rfl

theorem clip_Q_idem (m : CMath F) (q : F) (hε : m.FLT_EPSILON ≤ 1000 - m.FLT_EPSILON) :
    clip_Q m (clip_Q m q) = clip_Q m q := by
  have h1 : clip_Q m q = max m.FLT_EPSILON (min q (1000 - m.FLT_EPSILON)) :=
    clip_float_eq_max_min q (min_Q m) (max_Q m) hε
  have h2 : clip_Q m (clip_Q m q)
      = max m.FLT_EPSILON (min (clip_Q m q) (1000 - m.FLT_EPSILON)) :=
    clip_float_eq_max_min (clip_Q m q) (min_Q m) (max_Q m) hε
  rw [h2, h1]
  rw [min_eq_left (max_le hε (min_le_right _ _)), max_eq_right (le_max_left _ _)]

/-- Claim C25.  The setters `allpass_Q`, `lowpass_Q` and `peak_Q` take every
value `q`: the object they return stores `q` itself in `Q`, its `b_coef` and
`a_coef` arrays are those the same setter produces for `clip_Q(q)`, and
`f_feed`, `b_feed` and `wptr` are those of the object before the call.  The
bounds of `clip_Q` are ordered (`FLT_EPSILON <= 1000 - FLT_EPSILON`). -/
theorem Q_setter_clamps (m : CMath F) (q : F) (xa : t_allpass F) (xl : t_lowpass F)
    (xp : t_peak F) (hε : m.FLT_EPSILON ≤ 1000 - m.FLT_EPSILON) :
    ((allpass_Q m xa q).Q = q ∧
      (allpass_Q m xa q).b_coef = (allpass_Q m xa (clip_Q m q)).b_coef ∧
      (allpass_Q m xa q).a_coef = (allpass_Q m xa (clip_Q m q)).a_coef ∧
      (allpass_Q m xa q).f_feed = xa.f_feed ∧ (allpass_Q m xa q).b_feed = xa.b_feed ∧
      (allpass_Q m xa q).wptr = xa.wptr) ∧
    ((lowpass_Q m xl q).Q = q ∧
      (lowpass_Q m xl q).b_coef = (lowpass_Q m xl (clip_Q m q)).b_coef ∧
      (lowpass_Q m xl q).a_coef = (lowpass_Q m xl (clip_Q m q)).a_coef ∧
      (lowpass_Q m xl q).f_feed = xl.f_feed ∧ (lowpass_Q m xl q).b_feed = xl.b_feed ∧
      (lowpass_Q m xl q).wptr = xl.wptr) ∧
    ((peak_Q m xp q).Q = q ∧
      (peak_Q m xp q).b_coef = (peak_Q m xp (clip_Q m q)).b_coef ∧
      (peak_Q m xp q).a_coef = (peak_Q m xp (clip_Q m q)).a_coef ∧
      (peak_Q m xp q).f_feed = xp.f_feed ∧ (peak_Q m xp q).b_feed = xp.b_feed ∧
      (peak_Q m xp q).wptr = xp.wptr) := by
  have hq := clip_Q_idem m q hε
  refine ⟨⟨rfl, ?_, ?_, rfl, rfl, rfl⟩, ⟨rfl, ?_, ?_, rfl, rfl, rfl⟩, ?_⟩
  · simp only [allpass_Q, allpass_update_BA, hq]
  · simp only [allpass_Q, allpass_update_BA, hq]
  · simp only [lowpass_Q, lowpass_update_BA, hq]
  · simp only [lowpass_Q, lowpass_update_BA, hq]
  · simp only [peak_Q, peak_update_BA, hq]
    split <;> exact ⟨rfl, rfl, rfl, rfl, rfl, rfl⟩

end SetterClaims

/-- Witness of claim C25: the real C library, the value `q = -3`, and objects
that hold the samples 1, 2 (feedforward) and 3, 4 (feedback). -/
theorem Q_setter_clamps_witness :
    let m : CMath ℝ :=
      ⟨Real.tan, Real.sqrt, fun a b => a ^ b, fun a => Real.log a / Real.log 10, Real.pi,
        Real.sqrt 2, 1 / Real.sqrt 2, 1 / 2 ^ 23, (2 - 1 / 2 ^ 23) * 2 ^ 127, 1 / 2 ^ 126⟩
    let c : t_biquad ℝ := ⟨![0, 0, 0], ![0, 0], ![1, 2], ![3, 4], 1⟩
    let xa : t_allpass ℝ := ⟨c, 0, 1, 1000, 44100⟩
    let xl : t_lowpass ℝ := ⟨c, 0, 1, 1000, 44100⟩
    let xp : t_peak ℝ := ⟨c, 0, 1, 6, 1000, 44100⟩
    m.FLT_EPSILON ≤ 1000 - m.FLT_EPSILON ∧
    (((allpass_Q m xa (-3)).Q = -3 ∧
      (allpass_Q m xa (-3)).b_coef = (allpass_Q m xa (clip_Q m (-3))).b_coef ∧
      (allpass_Q m xa (-3)).a_coef = (allpass_Q m xa (clip_Q m (-3))).a_coef ∧
      (allpass_Q m xa (-3)).f_feed = xa.f_feed ∧ (allpass_Q m xa (-3)).b_feed = xa.b_feed ∧
      (allpass_Q m xa (-3)).wptr = xa.wptr) ∧
    ((lowpass_Q m xl (-3)).Q = -3 ∧
      (lowpass_Q m xl (-3)).b_coef = (lowpass_Q m xl (clip_Q m (-3))).b_coef ∧
      (lowpass_Q m xl (-3)).a_coef = (lowpass_Q m xl (clip_Q m (-3))).a_coef ∧
      (lowpass_Q m xl (-3)).f_feed = xl.f_feed ∧ (lowpass_Q m xl (-3)).b_feed = xl.b_feed ∧
      (lowpass_Q m xl (-3)).wptr = xl.wptr) ∧
    ((peak_Q m xp (-3)).Q = -3 ∧
      (peak_Q m xp (-3)).b_coef = (peak_Q m xp (clip_Q m (-3))).b_coef ∧
      (peak_Q m xp (-3)).a_coef = (peak_Q m xp (clip_Q m (-3))).a_coef ∧
      (peak_Q m xp (-3)).f_feed = xp.f_feed ∧ (peak_Q m xp (-3)).b_feed = xp.b_feed ∧
      (peak_Q m xp (-3)).wptr = xp.wptr)) := by
  intro m c xa xl xp
  have hε : m.FLT_EPSILON ≤ 1000 - m.FLT_EPSILON := by
    show (1 / 2 ^ 23 : ℝ) ≤ 1000 - 1 / 2 ^ 23
    norm_num
  exact ⟨hε, Q_setter_clamps m (-3) xa xl xp hε⟩

/-- Claim C24.  A perform call on a block of length zero returns the empty
output and the object it was given, every member unchanged: for each of the
four biquad objects and for the `fir~` object in every state (with or without
coefficients and table, whatever the write pointer, in particular a write
pointer equal to `order`), also when two such calls follow one another. -/
theorem perform_empty_block {F : Type} [Add F] [Sub F] [Mul F] [Zero F]
    (xa : t_allpass F) (xl : t_lowpass F) (xh : t_highshelf F) (xp : t_peak F) (xf : t_fir F) :
    allpass_perform [] xa = some ([], xa) ∧
    lowpass_perform [] xl = some ([], xl) ∧
    highshelf_perform [] xh = some ([], xh) ∧
    peak_perform [] xp = some ([], xp) ∧
    fir_perform [] xf = some ([], xf) ∧
    fir_perform [] { xf with wptr := xf.order } = some ([], { xf with wptr := xf.order }) ∧
    fir_perform_blocks [[], []] xf = some ([], xf) := by
  have hf : ∀ x : t_fir F, fir_perform [] x = some ([], x) := by
    intro x
    unfold fir_perform
    split <;> simp [fir_loop]
  refine ⟨?_, ?_, ?_, ?_, hf xf, hf _, ?_⟩
  · simp [allpass_perform, biquad_loop]
  · simp [lowpass_perform, biquad_loop]
  · simp [highshelf_perform, biquad_loop]
  · simp [peak_perform, biquad_loop]
  · simp [fir_perform_blocks, hf]

/-! ## The delay slots of the biquad filters -/

section DelaySlots

variable {F : Type} [Add F] [Sub F] [Mul F]

theorem biquad_loop_state (xs : List F) :
    ∀ c : t_biquad F, (c.wptr = 0 ∨ c.wptr = 1) →
      ∃ (ys : List F) (c1 : t_biquad F),
        biquad_loop xs c = some (ys, c1) ∧ ys.length = xs.length ∧
        (c1.wptr = 0 ∨ c1.wptr = 1) ∧ c1.wptr = (c.wptr + (xs.length : Int)) % 2 ∧
        (c.f_feed (write_slot c) :: c.f_feed (recent_slot c) :: xs)[xs.length + 1]?
          = some (c1.f_feed (recent_slot c1)) ∧
        (c.f_feed (write_slot c) :: c.f_feed (recent_slot c) :: xs)[xs.length]?
          = some (c1.f_feed (write_slot c1)) ∧
        (c.b_feed (write_slot c) :: c.b_feed (recent_slot c) :: ys)[xs.length + 1]?
          = some (c1.b_feed (recent_slot c1)) ∧
        (c.b_feed (write_slot c) :: c.b_feed (recent_slot c) :: ys)[xs.length]?
          = some (c1.b_feed (write_slot c1)) := by
  induction xs with
  | nil =>
    intro c hw
    refine ⟨[], c, by simp [biquad_loop], rfl, hw, ?_, by simp, by simp, by simp, by simp⟩
    rcases hw with h | h <;> simp [h]
  | cons s rest ih =>
    intro c hw
    rcases hw with h | h
    · obtain ⟨ys, c1, hrun, hlen, hw1, hp, hf1, hf2, hb1, hb2⟩ := ih _ (Or.inr rfl : ({ c with
        b_feed := Function.update c.b_feed 0
          (biquad_out c.b_coef c.a_coef s (c.f_feed 1) (c.f_feed 0) (c.b_feed 1) (c.b_feed 0))
        f_feed := Function.update c.f_feed 0 s
        wptr := 1 } : t_biquad F).wptr = 0 ∨ _)
      refine ⟨biquad_out c.b_coef c.a_coef s (c.f_feed 1) (c.f_feed 0) (c.b_feed 1) (c.b_feed 0)
          :: ys, c1, by simp [biquad_loop, biquad_iter_zero c s h, hrun], by simp [hlen],
        hw1, ?_, ?_, ?_, ?_, ?_⟩
      · rw [hp, h]; simp only [List.length_cons]; push_cast; ring_nf
      · rw [List.length_cons, List.getElem?_cons_succ]
        simpa only [recent_slot, write_slot, h, if_true, if_false, one_ne_zero,
          Function.update_same, Function.update_noteq, ne_eq, Fin.isValue, not_false_eq_true,
          zero_ne_one] using hf1
      · rw [List.length_cons, List.getElem?_cons_succ]
        simpa only [recent_slot, write_slot, h, if_true, if_false, one_ne_zero,
          Function.update_same, Function.update_noteq, ne_eq, Fin.isValue, not_false_eq_true,
          zero_ne_one] using hf2
      · rw [List.length_cons, List.getElem?_cons_succ]
        simpa only [recent_slot, write_slot, h, if_true, if_false, one_ne_zero,
          Function.update_same, Function.update_noteq, ne_eq, Fin.isValue, not_false_eq_true,
          zero_ne_one] using hb1
      · rw [List.length_cons, List.getElem?_cons_succ]
        simpa only [recent_slot, write_slot, h, if_true, if_false, one_ne_zero,
          Function.update_same, Function.update_noteq, ne_eq, Fin.isValue, not_false_eq_true,
          zero_ne_one] using hb2
    · obtain ⟨ys, c1, hrun, hlen, hw1, hp, hf1, hf2, hb1, hb2⟩ := ih _ (Or.inl rfl : ({ c with
        b_feed := Function.update c.b_feed 1
          (biquad_out c.b_coef c.a_coef s (c.f_feed 0) (c.f_feed 1) (c.b_feed 0) (c.b_feed 1))
        f_feed := Function.update c.f_feed 1 s
        wptr := 0 } : t_biquad F).wptr = 0 ∨ _)
      refine ⟨biquad_out c.b_coef c.a_coef s (c.f_feed 0) (c.f_feed 1) (c.b_feed 0) (c.b_feed 1)
          :: ys, c1, by simp [biquad_loop, biquad_iter_one c s h, hrun], by simp [hlen],
        hw1, ?_, ?_, ?_, ?_, ?_⟩
      · rw [hp, h]; simp only [List.length_cons]; push_cast
        omega
      · rw [List.length_cons, List.getElem?_cons_succ]
        simpa only [recent_slot, write_slot, h, if_true, if_false, one_ne_zero,
          Function.update_same, Function.update_noteq, ne_eq, Fin.isValue, not_false_eq_true,
          zero_ne_one] using hf1
      · rw [List.length_cons, List.getElem?_cons_succ]
        simpa only [recent_slot, write_slot, h, if_true, if_false, one_ne_zero,
          Function.update_same, Function.update_noteq, ne_eq, Fin.isValue, not_false_eq_true,
          zero_ne_one] using hf2
      · rw [List.length_cons, List.getElem?_cons_succ]
        simpa only [recent_slot, write_slot, h, if_true, if_false, one_ne_zero,
          Function.update_same, Function.update_noteq, ne_eq, Fin.isValue, not_false_eq_true,
          zero_ne_one] using hb1
      · rw [List.length_cons, List.getElem?_cons_succ]
        simpa only [recent_slot, write_slot, h, if_true, if_false, one_ne_zero,
          Function.update_same, Function.update_noteq, ne_eq, Fin.isValue, not_false_eq_true,
          zero_ne_one] using hb2

/-- Claim C26.  For each of the four biquad objects whose write pointer starts
at 0 or 1, the perform method on a block of `n` samples returns, leaves the
write pointer at 0 or 1 and equal to `(w0 + n) mod 2`; and when `n >= 2`, slot
`1 - wptr` of `f_feed` and of `b_feed` holds the last input and the last output
sample, slot `wptr` holds the ones before them, and the two slots differ. -/
theorem biquad_delay_slots (c : t_biquad F) (xs : List F) (sample Q dB freq sr : F)
    (hw : c.wptr = 0 ∨ c.wptr = 1) :
    ∃ (ys : List F) (c1 : t_biquad F),
      allpass_perform xs ⟨c, sample, Q, freq, sr⟩ = some (ys, ⟨c1, sample, Q, freq, sr⟩) ∧
      lowpass_perform xs ⟨c, sample, Q, freq, sr⟩ = some (ys, ⟨c1, sample, Q, freq, sr⟩) ∧
      highshelf_perform xs ⟨c, sample, dB, freq, sr⟩ = some (ys, ⟨c1, sample, dB, freq, sr⟩) ∧
      peak_perform xs ⟨c, sample, Q, dB, freq, sr⟩ = some (ys, ⟨c1, sample, Q, dB, freq, sr⟩) ∧
      ys.length = xs.length ∧
      (c1.wptr = 0 ∨ c1.wptr = 1) ∧ c1.wptr = (c.wptr + (xs.length : Int)) % 2 ∧
      ∃ r w : Fin 2, ((r : Nat) : Int) = 1 - c1.wptr ∧ ((w : Nat) : Int) = c1.wptr ∧ r ≠ w ∧
        (2 ≤ xs.length →
          xs[xs.length - 1]? = some (c1.f_feed r) ∧ ys[xs.length - 1]? = some (c1.b_feed r) ∧
          xs[xs.length - 2]? = some (c1.f_feed w) ∧ ys[xs.length - 2]? = some (c1.b_feed w)) := by
  obtain ⟨ys, c1, hrun, hlen, hw1, hp, hf1, hf2, hb1, hb2⟩ := biquad_loop_state xs c hw
  refine ⟨ys, c1, by simp [allpass_perform, hrun], by simp [lowpass_perform, hrun],
    by simp [highshelf_perform, hrun], by simp [peak_perform, hrun], hlen, hw1, hp,
    recent_slot c1, write_slot c1, ?_, ?_, ?_, ?_⟩
  · rcases hw1 with h | h <;> simp [recent_slot, h]
  · rcases hw1 with h | h <;> simp [write_slot, h]
  · rcases hw1 with h | h <;> simp [recent_slot, write_slot, h]
  · intro h2
    obtain ⟨k, hk⟩ : ∃ k, xs.length = k + 2 := ⟨xs.length - 2, by omega⟩
    rw [hk] at hf1 hf2 hb1 hb2
    simp only [List.getElem?_cons_succ] at hf1 hf2 hb1 hb2
    have e1 : xs.length - 1 = k + 1 := by omega
    have e2 : xs.length - 2 = k := by omega
    rw [e1, e2]
    exact ⟨hf1, hb1, hf2, hb2⟩

end DelaySlots

/-- Witness of claim C26: the object `biquad_example` (write pointer 1) on the
block `[10, 20, 30]`. -/
theorem biquad_delay_slots_witness :
    (biquad_example.wptr = 0 ∨ biquad_example.wptr = 1) ∧
    ∃ (ys : List Int) (c1 : t_biquad Int),
      allpass_perform [10, 20, 30] ⟨biquad_example, 0, 1, 1000, 44100⟩
        = some (ys, ⟨c1, 0, 1, 1000, 44100⟩) ∧
      lowpass_perform [10, 20, 30] ⟨biquad_example, 0, 1, 1000, 44100⟩
        = some (ys, ⟨c1, 0, 1, 1000, 44100⟩) ∧
      highshelf_perform [10, 20, 30] ⟨biquad_example, 0, 6, 1000, 44100⟩
        = some (ys, ⟨c1, 0, 6, 1000, 44100⟩) ∧
      peak_perform [10, 20, 30] ⟨biquad_example, 0, 1, 6, 1000, 44100⟩
        = some (ys, ⟨c1, 0, 1, 6, 1000, 44100⟩) ∧
      ys.length = ([10, 20, 30] : List Int).length ∧
      (c1.wptr = 0 ∨ c1.wptr = 1) ∧
      c1.wptr = (biquad_example.wptr + (([10, 20, 30] : List Int).length : Int)) % 2 ∧
      ∃ r w : Fin 2, ((r : Nat) : Int) = 1 - c1.wptr ∧ ((w : Nat) : Int) = c1.wptr ∧ r ≠ w ∧
        (2 ≤ ([10, 20, 30] : List Int).length →
          ([10, 20, 30] : List Int)[([10, 20, 30] : List Int).length - 1]? = some (c1.f_feed r) ∧
          ys[([10, 20, 30] : List Int).length - 1]? = some (c1.b_feed r) ∧
          ([10, 20, 30] : List Int)[([10, 20, 30] : List Int).length - 2]? = some (c1.f_feed w) ∧
          ys[([10, 20, 30] : List Int).length - 2]? = some (c1.b_feed w)) :=
  ⟨Or.inr rfl, biquad_delay_slots biquad_example [10, 20, 30] 0 1 6 1000 44100 (Or.inr rfl)⟩

/-! ## Claims on the values of the coefficients -/

section CoefficientValues

variable {F : Type} [LinearOrderedField F]

theorem clip_freq_ratio_quarter (m : CMath F) (h1 : m.FLT_EPSILON ≤ 1 / 4)
    (h2 : (1 / 4 : F) ≤ 44100 * (1 / 2 - m.FLT_EPSILON)) :
    clip_freq_ratio m 11025 44100 = 1 / 4 := by
  unfold clip_freq_ratio min_freq max_freq_ratio
  rw [clip_float_eq_max_min _ _ _ (le_trans h1 h2), show (11025 : F) / 44100 = 1 / 4 by norm_num,
    min_eq_left h2, max_eq_right h1]

theorem clip_Q_pos (m : CMath F) (q : F) (h0 : 0 < m.FLT_EPSILON)
    (hε : m.FLT_EPSILON ≤ 1000 - m.FLT_EPSILON) : 0 < clip_Q m q := by
  unfold clip_Q min_Q max_Q
  rw [clip_float_eq_max_min _ _ _ hε]
  exact lt_of_lt_of_le h0 (le_max_left _ _)

theorem stability_triangle (Q K : F) (hQ : 0 < Q) (hK : 0 < K) :
    |((K * K * Q - K) + Q) * (1 / (K * K * Q + K + Q))| < 1 ∧
    |2 * (K * K * Q - Q) * (1 / (K * K * Q + K + Q))|
      < 1 + ((K * K * Q - K) + Q) * (1 / (K * K * Q + K + Q)) := by
  have hKK : 0 < K * K * Q := mul_pos (mul_pos hK hK) hQ
  have hD : 0 < K * K * Q + K + Q := by linarith
  have h2 : ((K * K * Q - K) + Q) * (1 / (K * K * Q + K + Q)) * (K * K * Q + K + Q)
      = (K * K * Q - K) + Q := by
    field_simp
  have h1 : 2 * (K * K * Q - Q) * (1 / (K * K * Q + K + Q)) * (K * K * Q + K + Q)
      = 2 * (K * K * Q - Q) := by
    field_simp
  generalize ((K * K * Q - K) + Q) * (1 / (K * K * Q + K + Q)) = a2 at h2 ⊢
  generalize 2 * (K * K * Q - Q) * (1 / (K * K * Q + K + Q)) = a1 at h1 ⊢
  rw [abs_lt, abs_lt]
  refine ⟨⟨?_, ?_⟩, ?_, ?_⟩
  · refine lt_of_mul_lt_mul_right ?_ hD.le
    rw [h2]; linarith
  · refine lt_of_mul_lt_mul_right ?_ hD.le
    rw [h2]; linarith
  · refine lt_of_mul_lt_mul_right ?_ hD.le
    rw [neg_mul, add_mul, h2, h1]; linarith
  · refine lt_of_mul_lt_mul_right ?_ hD.le
    rw [add_mul, h2, h1]; linarith

/-- The feedback formulas in exact arithmetic.  When the clamped quality factor
`clip_Q(Q)` and the value `K = tanf(M_PI * clip_freq_ratio(freq, sr))` are
positive, the expressions that `allpass_update_BA` and `lowpass_update_BA`
evaluate for `a1 = a_coef[0]` and `a2 = a_coef[1]`, taken without rounding, lie
inside the stability triangle: `|a2| < 1` and `|a1| < 1 + a2`.  The
coefficients stored in `t_float` arithmetic need not (see the section on
single precision). -/
theorem feedback_coefficients_stable (m : CMath F) (xa : t_allpass F) (xl : t_lowpass F)
    (hQa : 0 < clip_Q m xa.Q) (hKa : 0 < m.tanf (m.M_PI * clip_freq_ratio m xa.freq xa.sr))
    (hQl : 0 < clip_Q m xl.Q) (hKl : 0 < m.tanf (m.M_PI * clip_freq_ratio m xl.freq xl.sr)) :
    (|(allpass_update_BA m xa).a_coef 1| < 1 ∧
      |(allpass_update_BA m xa).a_coef 0| < 1 + (allpass_update_BA m xa).a_coef 1) ∧
    (|(lowpass_update_BA m xl).a_coef 1| < 1 ∧
      |(lowpass_update_BA m xl).a_coef 0| < 1 + (lowpass_update_BA m xl).a_coef 1) := by
  constructor
  · have h := stability_triangle _ _ hQa hKa
    simpa only [allpass_update_BA, Matrix.cons_val_zero, Matrix.cons_val_one,
      Matrix.head_cons] using h
  · have h := stability_triangle _ _ hQl hKl
    simpa only [lowpass_update_BA, Matrix.cons_val_zero, Matrix.cons_val_one,
      Matrix.head_cons] using h

theorem highshelf_branch_gains (m : CMath F) (G K : F) (hK : 0 < K) (hG : 0 < G)
    (h2 : 0 ≤ m.M_SQRT2) (hs : 0 ≤ m.sqrtf (2 * G)) :
    ((highshelf_boost m G K).1 0 + (highshelf_boost m G K).1 1 + (highshelf_boost m G K).1 2
        = 1 + (highshelf_boost m G K).2 0 + (highshelf_boost m G K).2 1 ∧
      (highshelf_boost m G K).1 0 - (highshelf_boost m G K).1 1 + (highshelf_boost m G K).1 2
        = G * (1 - (highshelf_boost m G K).2 0 + (highshelf_boost m G K).2 1)) ∧
    ((highshelf_cut m G K).1 0 + (highshelf_cut m G K).1 1 + (highshelf_cut m G K).1 2
        = 1 + (highshelf_cut m G K).2 0 + (highshelf_cut m G K).2 1 ∧
      (highshelf_cut m G K).1 0 - (highshelf_cut m G K).1 1 + (highshelf_cut m G K).1 2
        = G * (1 - (highshelf_cut m G K).2 0 + (highshelf_cut m G K).2 1)) := by
  have hKK : 0 < K * K := mul_pos hK hK
  have hD : 1 + m.M_SQRT2 * K + K * K ≠ 0 := by
    have := mul_nonneg h2 hK.le
    exact ne_of_gt (by linarith)
  have hD1 : 1 + m.sqrtf (2 * G) * K + G * (K * K) ≠ 0 := by
    have := mul_nonneg hs hK.le
    have := mul_pos hG hKK
    exact ne_of_gt (by linarith)
  simp only [highshelf_boost, highshelf_cut, Matrix.cons_val_zero, Matrix.cons_val_one,
    Matrix.cons_val_two, Matrix.head_cons, Matrix.tail_cons]
  refine ⟨⟨?_, ?_⟩, ?_, ?_⟩ <;> field_simp <;> ring

/-- Claim C28, amended.  In exact arithmetic, for every `K > 0` and every gain
`G > 0`, with a library whose `M_SQRT2` and `sqrtf(2 * G)` are not negative,
the formulas of the boost branch and those of the attenuation branch of
`highshelf_update_BA` both satisfy `b0 + b1 + b2 = 1 + a1 + a2` and
`b0 - b1 + b2 = G * (1 - a1 + a2)`; so do the formulas `highshelf_update_BA`
selects for an object `x` with `dB_to_gain(dB) = G` and
`tanf(M_PI * clip_freq_ratio(freq, sr)) = K`. -/
theorem highshelf_dc_nyquist_gain (m : CMath F) (G K : F) (x : t_highshelf F)
    (hK : 0 < K) (hG : 0 < G) (h2 : 0 ≤ m.M_SQRT2) (hs : 0 ≤ m.sqrtf (2 * G))
    (hxG : dB_to_gain m x.dB = G)
    (hxK : m.tanf (m.M_PI * clip_freq_ratio m x.freq x.sr) = K) :
    ((highshelf_boost m G K).1 0 + (highshelf_boost m G K).1 1 + (highshelf_boost m G K).1 2
        = 1 + (highshelf_boost m G K).2 0 + (highshelf_boost m G K).2 1 ∧
      (highshelf_boost m G K).1 0 - (highshelf_boost m G K).1 1 + (highshelf_boost m G K).1 2
        = G * (1 - (highshelf_boost m G K).2 0 + (highshelf_boost m G K).2 1)) ∧
    ((highshelf_cut m G K).1 0 + (highshelf_cut m G K).1 1 + (highshelf_cut m G K).1 2
        = 1 + (highshelf_cut m G K).2 0 + (highshelf_cut m G K).2 1 ∧
      (highshelf_cut m G K).1 0 - (highshelf_cut m G K).1 1 + (highshelf_cut m G K).1 2
        = G * (1 - (highshelf_cut m G K).2 0 + (highshelf_cut m G K).2 1)) ∧
    ((highshelf_update_BA m x).b_coef 0 + (highshelf_update_BA m x).b_coef 1
          + (highshelf_update_BA m x).b_coef 2
        = 1 + (highshelf_update_BA m x).a_coef 0 + (highshelf_update_BA m x).a_coef 1 ∧
      (highshelf_update_BA m x).b_coef 0 - (highshelf_update_BA m x).b_coef 1
          + (highshelf_update_BA m x).b_coef 2
        = G * (1 - (highshelf_update_BA m x).a_coef 0 + (highshelf_update_BA m x).a_coef 1)) := by
  have hb := highshelf_branch_gains m G K hK hG h2 hs
  refine ⟨hb.1, hb.2, ?_⟩
  have hbr := highshelf_update_BA_branch m x
  rw [hxG, hxK] at hbr
  have e1 : (highshelf_update_BA m x).b_coef
      = (if G > 1 then highshelf_boost m G K else highshelf_cut m G K).1 := by rw [← hbr]
  have e2 : (highshelf_update_BA m x).a_coef
      = (if G > 1 then highshelf_boost m G K else highshelf_cut m G K).2 := by rw [← hbr]
  rw [e1, e2]
  by_cases h : G > 1
  · simp only [if_pos h]; exact hb.1
  · simp only [if_neg h]; exact hb.2

end CoefficientValues

/-- Witness of the amended claim C28: the real numbers, `dB = 0` (gain 1), `freq = 11025`
and `sr = 44100` (`K = tan(pi/4) = 1`). -/
theorem highshelf_dc_nyquist_gain_witness :
    let m : CMath ℝ :=
      ⟨Real.tan, Real.sqrt, fun a b => a ^ b, fun a => Real.log a / Real.log 10, Real.pi,
        Real.sqrt 2, 1 / Real.sqrt 2, 1 / 2 ^ 23, (2 - 1 / 2 ^ 23) * 2 ^ 127, 1 / 2 ^ 126⟩
    let x : t_highshelf ℝ := ⟨⟨![0, 0, 0], ![0, 0], ![0, 0], ![0, 0], 0⟩, 0, 0, 11025, 44100⟩
    (0 : ℝ) < 1 ∧ (0 : ℝ) < 1 ∧ 0 ≤ m.M_SQRT2 ∧ 0 ≤ m.sqrtf (2 * 1) ∧
    dB_to_gain m x.dB = 1 ∧ m.tanf (m.M_PI * clip_freq_ratio m x.freq x.sr) = 1 ∧
    (((highshelf_boost m 1 1).1 0 + (highshelf_boost m 1 1).1 1 + (highshelf_boost m 1 1).1 2
        = 1 + (highshelf_boost m 1 1).2 0 + (highshelf_boost m 1 1).2 1 ∧
      (highshelf_boost m 1 1).1 0 - (highshelf_boost m 1 1).1 1 + (highshelf_boost m 1 1).1 2
        = 1 * (1 - (highshelf_boost m 1 1).2 0 + (highshelf_boost m 1 1).2 1)) ∧
    ((highshelf_cut m 1 1).1 0 + (highshelf_cut m 1 1).1 1 + (highshelf_cut m 1 1).1 2
        = 1 + (highshelf_cut m 1 1).2 0 + (highshelf_cut m 1 1).2 1 ∧
      (highshelf_cut m 1 1).1 0 - (highshelf_cut m 1 1).1 1 + (highshelf_cut m 1 1).1 2
        = 1 * (1 - (highshelf_cut m 1 1).2 0 + (highshelf_cut m 1 1).2 1)) ∧
    ((highshelf_update_BA m x).b_coef 0 + (highshelf_update_BA m x).b_coef 1
          + (highshelf_update_BA m x).b_coef 2
        = 1 + (highshelf_update_BA m x).a_coef 0 + (highshelf_update_BA m x).a_coef 1 ∧
      (highshelf_update_BA m x).b_coef 0 - (highshelf_update_BA m x).b_coef 1
          + (highshelf_update_BA m x).b_coef 2
        = 1 * (1 - (highshelf_update_BA m x).a_coef 0 + (highshelf_update_BA m x).a_coef 1))) := by
  intro m x
  have h1 : m.FLT_EPSILON ≤ 1 / 4 := by
    show (1 / 2 ^ 23 : ℝ) ≤ 1 / 4
    norm_num
  have h2 : (1 / 4 : ℝ) ≤ 44100 * (1 / 2 - m.FLT_EPSILON) := by
    show (1 / 4 : ℝ) ≤ 44100 * (1 / 2 - 1 / 2 ^ 23)
    norm_num
  have hpow : m.powf 10 0 = 1 := by
    show (10 : ℝ) ^ (0 : ℝ) = 1
    exact Real.rpow_zero 10
  have hmax : 1 ≤ m.FLT_MAX := by
    show (1 : ℝ) ≤ (2 - 1 / 2 ^ 23) * 2 ^ 127
    norm_num
  have hG : dB_to_gain m (0 : ℝ) = 1 := dB_to_gain_zero m hpow hmax
  have hK : m.tanf (m.M_PI * clip_freq_ratio m 11025 44100) = 1 := by
    rw [clip_freq_ratio_quarter m h1 h2]
    show Real.tan (Real.pi * (1 / 4)) = 1
    rw [show Real.pi * (1 / 4) = Real.pi / 4 by ring, Real.tan_pi_div_four]
  have hs2 : 0 ≤ m.M_SQRT2 := Real.sqrt_nonneg 2
  have hs : 0 ≤ m.sqrtf (2 * 1) := Real.sqrt_nonneg (2 * 1)
  exact ⟨one_pos, one_pos, hs2, hs, hG, hK,
    highshelf_dc_nyquist_gain m 1 1 x one_pos one_pos hs2 hs hG hK⟩

/-! ## Claims on the gain of the highshelf and peak filters -/

section GainClaims

variable {F : Type} [LinearOrderedField F]

theorem biquad_direct_transparent (b : Fin 3 → F) (a : Fin 2 → F) (h0 : b 0 = 1)
    (h1 : b 1 = a 0) (h2 : b 2 = a 1) (xs : List F) :
    ∀ x1 x2 : F, biquad_direct b a x1 x2 x1 x2 xs = xs := by
  induction xs with
  | nil => intro _ _; rfl
  | cons s rest ih =>
    intro x1 x2
    have hs : biquad_out b a s x1 x2 x1 x2 = s := by
      simp only [biquad_out, h0, h1, h2]; ring
    simp only [biquad_direct, hs, ih]

theorem biquad_loop_transparent (c : t_biquad F) (xs : List F) (h0 : c.b_coef 0 = 1)
    (h1 : c.b_coef 1 = c.a_coef 0) (h2 : c.b_coef 2 = c.a_coef 1)
    (hf : c.f_feed = ![0, 0]) (hb : c.b_feed = ![0, 0]) (hw : c.wptr = 0 ∨ c.wptr = 1) :
    ∃ c1 : t_biquad F, biquad_loop xs c = some (xs, c1) := by
  obtain ⟨c1, hrun, -, -⟩ := biquad_loop_direct xs c hw
  refine ⟨c1, ?_⟩
  rw [hrun, hf, hb]
  have e : ∀ i : Fin 2, (![0, 0] : Fin 2 → F) i = 0 := by
    intro i
    fin_cases i <;> rfl
  simp only [e]
  rw [biquad_direct_transparent c.b_coef c.a_coef h0 h1 h2 xs 0 0]

theorem highshelf_cut_unit (m : CMath F) (K : F) (hK : 0 < K) (hs : m.sqrtf 2 = m.M_SQRT2)
    (h2 : 0 ≤ m.M_SQRT2) :
    (highshelf_cut m 1 K).1 0 = 1 ∧ (highshelf_cut m 1 K).1 1 = (highshelf_cut m 1 K).2 0 ∧
    (highshelf_cut m 1 K).1 2 = (highshelf_cut m 1 K).2 1 := by
  have hD : 1 + m.M_SQRT2 * K + K * K ≠ 0 := by
    have := mul_nonneg h2 hK.le
    have := mul_pos hK hK
    exact ne_of_gt (by linarith)
  simp only [highshelf_cut, Matrix.cons_val_zero, Matrix.cons_val_one, Matrix.cons_val_two,
    Matrix.head_cons, Matrix.tail_cons, mul_one, one_mul, hs]
  refine ⟨?_, ?_, trivial⟩
  · field_simp
  · ring

theorem peak_cut_unit (Q K : F) (hK : 0 < K) (hQ : 0 < Q) :
    (peak_cut Q 1 K).1 0 = 1 ∧ (peak_cut Q 1 K).1 1 = (peak_cut Q 1 K).2 0 ∧
    (peak_cut Q 1 K).1 2 = (peak_cut Q 1 K).2 1 := by
  have hD : 1 + K / Q + K * K ≠ 0 := by
    have := div_pos hK hQ
    have := mul_pos hK hK
    exact ne_of_gt (by linarith)
  simp only [peak_cut, Matrix.cons_val_zero, Matrix.cons_val_one, Matrix.cons_val_two,
    Matrix.head_cons, Matrix.tail_cons, div_one]
  refine ⟨?_, trivial, trivial⟩
  field_simp


theorem peak_boost_b0_gt_one (Q G K : F) (hQ : 0 < Q) (hG : 1 < G) (hK : 0 < K) :
    1 < (peak_boost Q G K).1 0 := by
  have hKQ : 0 < K / Q := div_pos hK hQ
  have hKK : 0 < K * K := mul_pos hK hK
  have hD : 0 < 1 + K / Q + K * K := by linarith
  have hlt : K / Q < G * (K / Q) := by
    have := mul_lt_mul_of_pos_right hG hKQ
    rwa [one_mul] at this
  simp only [peak_boost, Matrix.cons_val_zero]
  rw [mul_one_div, lt_div_iff₀ hD]
  linarith

theorem peak_cut_inverts_boost (Q G K : F) (hQ : 0 < Q) (hG : 0 < G) (hK : 0 < K) :
    (peak_cut Q (1 / G) K).1 0 = 1 / (peak_boost Q G K).1 0 ∧
    (peak_cut Q (1 / G) K).1 1 = (peak_boost Q G K).2 0 / (peak_boost Q G K).1 0 ∧
    (peak_cut Q (1 / G) K).1 2 = (peak_boost Q G K).2 1 / (peak_boost Q G K).1 0 ∧
    (peak_cut Q (1 / G) K).2 0 = (peak_boost Q G K).1 1 / (peak_boost Q G K).1 0 ∧
    (peak_cut Q (1 / G) K).2 1 = (peak_boost Q G K).1 2 / (peak_boost Q G K).1 0 := by
  have hKQ : 0 < K / Q := div_pos hK hQ
  have hKK : 0 < K * K := mul_pos hK hK
  have hGKQ : 0 < G * (K / Q) := mul_pos hG hKQ
  have hD : 1 + K / Q + K * K ≠ 0 := ne_of_gt (by linarith)
  have hD1 : 1 + G * (K / Q) + K * K ≠ 0 := ne_of_gt (by linarith)
  have e : K / Q / (1 / G) = G * (K / Q) := by
    field_simp
    ring
  simp only [peak_cut, peak_boost, Matrix.cons_val_zero, Matrix.cons_val_one,
    Matrix.cons_val_two, Matrix.head_cons, Matrix.tail_cons, e]
  generalize G * (K / Q) = A at hD1 ⊢
  generalize K / Q = B at hD ⊢
  refine ⟨?_, ?_, ?_, ?_, ?_⟩ <;> field_simp


/-- Claim C30, amended.  In exact arithmetic peak boost and cut are reciprocal.
Let the peak objects `x` and `y` have the same `Q`, `freq` and `sr`, with
`clip_Q(Q) > 0` and `K = tanf(M_PI * clip_freq_ratio(freq, sr)) > 0`, and let
the gain of `x` be `G > 1` and the gain of `y` be `1 / G`.  Then the formulas
of `peak_update_BA` give, for `x`, coefficients `(b0, b1, b2, a1, a2)` with
`b0 > 1`, and for `y` coefficients `(b0', b1', b2', a1', a2')` with
`b0' * b0 = 1`, `b1' * b0 = a1`, `b2' * b0 = a2`, `a1' * b0 = b1` and
`a2' * b0 = b2`, that is `b0' = 1 / b0`, `b1' = a1 / b0`, `b2' = a2 / b0`,
`a1' = b1 / b0` and `a2' = b2 / b0`. -/
theorem peak_boost_cut_reciprocal (m : CMath F) (x y : t_peak F)
    (hQ : y.Q = x.Q) (hf : y.freq = x.freq) (hsr : y.sr = x.sr)
    (hQpos : 0 < clip_Q m x.Q) (hK : 0 < m.tanf (m.M_PI * clip_freq_ratio m x.freq x.sr))
    (hG : dB_to_gain m x.dB > 1) (hG1 : dB_to_gain m y.dB = 1 / dB_to_gain m x.dB) :
    1 < (peak_update_BA m x).b_coef 0 ∧
    (peak_update_BA m y).b_coef 0 * (peak_update_BA m x).b_coef 0 = 1 ∧
    (peak_update_BA m y).b_coef 1 * (peak_update_BA m x).b_coef 0 = (peak_update_BA m x).a_coef 0 ∧
    (peak_update_BA m y).b_coef 2 * (peak_update_BA m x).b_coef 0 = (peak_update_BA m x).a_coef 1 ∧
    (peak_update_BA m y).a_coef 0 * (peak_update_BA m x).b_coef 0 = (peak_update_BA m x).b_coef 1 ∧
    (peak_update_BA m y).a_coef 1 * (peak_update_BA m x).b_coef 0 = (peak_update_BA m x).b_coef 2 ∧
    (peak_update_BA m y).b_coef 0 = 1 / (peak_update_BA m x).b_coef 0 ∧
    (peak_update_BA m y).b_coef 1 = (peak_update_BA m x).a_coef 0 / (peak_update_BA m x).b_coef 0 ∧
    (peak_update_BA m y).b_coef 2 = (peak_update_BA m x).a_coef 1 / (peak_update_BA m x).b_coef 0 ∧
    (peak_update_BA m y).a_coef 0 = (peak_update_BA m x).b_coef 1 / (peak_update_BA m x).b_coef 0 ∧
    (peak_update_BA m y).a_coef 1
      = (peak_update_BA m x).b_coef 2 / (peak_update_BA m x).b_coef 0 := by
  have hGpos : 0 < dB_to_gain m x.dB := lt_trans one_pos hG
  have hnot : ¬ (1 / dB_to_gain m x.dB > 1) := by
    rw [gt_iff_lt, not_lt, div_le_iff₀ hGpos, one_mul]
    exact hG.le
  have hbx := peak_update_BA_branch m x
  rw [if_pos hG] at hbx
  have hby := peak_update_BA_branch m y
  rw [hG1, if_neg hnot, hQ, hf, hsr] at hby
  have e1 : (peak_update_BA m x).b_coef = (peak_boost (clip_Q m x.Q) (dB_to_gain m x.dB)
      (m.tanf (m.M_PI * clip_freq_ratio m x.freq x.sr))).1 := by rw [← hbx]
  have e2 : (peak_update_BA m x).a_coef = (peak_boost (clip_Q m x.Q) (dB_to_gain m x.dB)
      (m.tanf (m.M_PI * clip_freq_ratio m x.freq x.sr))).2 := by rw [← hbx]
  have e3 : (peak_update_BA m y).b_coef = (peak_cut (clip_Q m x.Q) (1 / dB_to_gain m x.dB)
      (m.tanf (m.M_PI * clip_freq_ratio m x.freq x.sr))).1 := by rw [← hby]
  have e4 : (peak_update_BA m y).a_coef = (peak_cut (clip_Q m x.Q) (1 / dB_to_gain m x.dB)
      (m.tanf (m.M_PI * clip_freq_ratio m x.freq x.sr))).2 := by rw [← hby]
  rw [e1, e2, e3, e4]
  have hb := peak_boost_b0_gt_one _ _ _ hQpos hG hK
  have hb0 := (lt_trans one_pos hb).ne'
  obtain ⟨h0, h1, h2, h3, h4⟩ := peak_cut_inverts_boost _ _ _ hQpos hGpos hK
  refine ⟨hb, ?_, ?_, ?_, ?_, ?_, h0, h1, h2, h3, h4⟩
  · rw [h0]; field_simp
  · rw [h1]; field_simp
  · rw [h2]; field_simp
  · rw [h3]; field_simp
  · rw [h4]; field_simp

end GainClaims

theorem dB_to_gain_of_powf {F : Type} [LinearOrderedField F] (m : CMath F) (dB g : F)
    (hp : m.powf 10 (dB * (1 / 20)) = g) (h0 : 0 ≤ g) (h1 : g ≤ m.FLT_MAX) :
    dB_to_gain m dB = g := by
  unfold dB_to_gain
  rw [hp, clip_float_eq_max_min _ _ _ (le_trans h0 h1), min_eq_left h1, max_eq_right h0]

/-- Witness of the amended claim C30: the real numbers, `Q = 1`, `freq = 11025`,
`sr = 44100`, and `dB = 20` (gain 10) against `dB = -20` (gain 1/10). -/
theorem peak_boost_cut_reciprocal_witness :
    let m : CMath ℝ :=
      ⟨Real.tan, Real.sqrt, fun a b => a ^ b, fun a => Real.log a / Real.log 10, Real.pi,
        Real.sqrt 2, 1 / Real.sqrt 2, 1 / 2 ^ 23, (2 - 1 / 2 ^ 23) * 2 ^ 127, 1 / 2 ^ 126⟩
    let c : t_biquad ℝ := ⟨![0, 0, 0], ![0, 0], ![0, 0], ![0, 0], 0⟩
    let x : t_peak ℝ := ⟨c, 0, 1, 20, 11025, 44100⟩
    let y : t_peak ℝ := ⟨c, 0, 1, -20, 11025, 44100⟩
    (y.Q = x.Q ∧ y.freq = x.freq ∧ y.sr = x.sr) ∧
    (0 < clip_Q m x.Q ∧ 0 < m.tanf (m.M_PI * clip_freq_ratio m x.freq x.sr)) ∧
    (dB_to_gain m x.dB > 1 ∧ dB_to_gain m y.dB = 1 / dB_to_gain m x.dB) ∧
    (1 < (peak_update_BA m x).b_coef 0 ∧
    (peak_update_BA m y).b_coef 0 * (peak_update_BA m x).b_coef 0 = 1 ∧
    (peak_update_BA m y).b_coef 1 * (peak_update_BA m x).b_coef 0 = (peak_update_BA m x).a_coef 0 ∧
    (peak_update_BA m y).b_coef 2 * (peak_update_BA m x).b_coef 0 = (peak_update_BA m x).a_coef 1 ∧
    (peak_update_BA m y).a_coef 0 * (peak_update_BA m x).b_coef 0 = (peak_update_BA m x).b_coef 1 ∧
    (peak_update_BA m y).a_coef 1 * (peak_update_BA m x).b_coef 0 = (peak_update_BA m x).b_coef 2 ∧
    (peak_update_BA m y).b_coef 0 = 1 / (peak_update_BA m x).b_coef 0 ∧
    (peak_update_BA m y).b_coef 1 = (peak_update_BA m x).a_coef 0 / (peak_update_BA m x).b_coef 0 ∧
    (peak_update_BA m y).b_coef 2 = (peak_update_BA m x).a_coef 1 / (peak_update_BA m x).b_coef 0 ∧
    (peak_update_BA m y).a_coef 0 = (peak_update_BA m x).b_coef 1 / (peak_update_BA m x).b_coef 0 ∧
    (peak_update_BA m y).a_coef 1
      = (peak_update_BA m x).b_coef 2 / (peak_update_BA m x).b_coef 0) := by
  intro m c x y
  have h0 : 0 < m.FLT_EPSILON := by
    show (0 : ℝ) < 1 / 2 ^ 23
    norm_num
  have hε : m.FLT_EPSILON ≤ 1000 - m.FLT_EPSILON := by
    show (1 / 2 ^ 23 : ℝ) ≤ 1000 - 1 / 2 ^ 23
    norm_num
  have h1 : m.FLT_EPSILON ≤ 1 / 4 := by
    show (1 / 2 ^ 23 : ℝ) ≤ 1 / 4
    norm_num
  have h2 : (1 / 4 : ℝ) ≤ 44100 * (1 / 2 - m.FLT_EPSILON) := by
    show (1 / 4 : ℝ) ≤ 44100 * (1 / 2 - 1 / 2 ^ 23)
    norm_num
  have hQ : 0 < clip_Q m (1 : ℝ) := clip_Q_pos m 1 h0 hε
  have hK : 0 < m.tanf (m.M_PI * clip_freq_ratio m 11025 44100) := by
    rw [clip_freq_ratio_quarter m h1 h2]
    show 0 < Real.tan (Real.pi * (1 / 4))
    rw [show Real.pi * (1 / 4) = Real.pi / 4 by ring, Real.tan_pi_div_four]
    norm_num
  have hp1 : m.powf 10 (20 * (1 / 20)) = 10 := by
    show (10 : ℝ) ^ ((20 : ℝ) * (1 / 20)) = 10
    rw [show (20 : ℝ) * (1 / 20) = 1 by norm_num, Real.rpow_one]
  have hp2 : m.powf 10 (-20 * (1 / 20)) = 1 / 10 := by
    show (10 : ℝ) ^ ((-20 : ℝ) * (1 / 20)) = 1 / 10
    rw [show (-20 : ℝ) * (1 / 20) = -1 by norm_num, Real.rpow_neg_one]
    norm_num
  have hm1 : (10 : ℝ) ≤ m.FLT_MAX := by
    show (10 : ℝ) ≤ (2 - 1 / 2 ^ 23) * 2 ^ 127
    norm_num
  have hm2 : (1 / 10 : ℝ) ≤ m.FLT_MAX := by
    show (1 / 10 : ℝ) ≤ (2 - 1 / 2 ^ 23) * 2 ^ 127
    norm_num
  have hGx : dB_to_gain m (20 : ℝ) = 10 := dB_to_gain_of_powf m 20 10 hp1 (by norm_num) hm1
  have hGy : dB_to_gain m (-20 : ℝ) = 1 / 10 :=
    dB_to_gain_of_powf m (-20) (1 / 10) hp2 (by norm_num) hm2
  have hG : dB_to_gain m x.dB > 1 := by
    show dB_to_gain m (20 : ℝ) > 1
    rw [hGx]
    norm_num
  have hG1 : dB_to_gain m y.dB = 1 / dB_to_gain m x.dB := by
    show dB_to_gain m (-20 : ℝ) = 1 / dB_to_gain m (20 : ℝ)
    rw [hGx, hGy]
  exact ⟨⟨rfl, rfl, rfl⟩, ⟨hQ, hK⟩, ⟨hG, hG1⟩,
    peak_boost_cut_reciprocal m x y rfl rfl rfl hQ hK hG hG1⟩

/-! ## Claims on the blocks of the FIR filter -/

section FirBlocks

variable {F : Type} [Add F] [Mul F]

theorem foldlM_option_some {α β : Type} (f : β → α → Option β) (l : List α)
    (h : ∀ a ∈ l, ∀ b, ∃ b1, f b a = some b1) : ∀ b, ∃ b1, l.foldlM f b = some b1 := by
  induction l with
  | nil => intro b; exact ⟨b, rfl⟩
  | cons a rest ih =>
    intro b
    obtain ⟨b1, hb1⟩ := h a (List.mem_cons_self _ _) b
    obtain ⟨b2, hb2⟩ := ih (fun a1 ha1 => h a1 (List.mem_cons_of_mem _ ha1)) b1
    exact ⟨b2, by simp [List.foldlM_cons, hb1, hb2]⟩

theorem fir_tap_some [Zero F] (N w k : Nat) (h tbl : List F) (hh : h.length = N) (ht : tbl.length = N)
    (hw : w < N) (hk1 : 1 ≤ k) (hkN : k < N) (y : F) :
    ∃ y1, fir_tap (N : Int) (w : Int) h tbl y k = some y1 := by
  have hrd : readAt h (k : Int) = some (h.getD k 0) := readAt_natCast 0 h k (by omega)
  by_cases hlt : w < k
  · have hidx : (N : Int) + ((w : Int) - (k : Int)) = ((w + N - k : Nat) : Int) := by omega
    have hneg : (w : Int) - (k : Int) < 0 := by omega
    have hrt := readAt_natCast 0 tbl (w + N - k) (by omega)
    exact ⟨y + h.getD k 0 * tbl.getD (w + N - k) 0, by simp [fir_tap, hrd, hneg, hidx, hrt]⟩
  · have hidx : (w : Int) - (k : Int) = ((w - k : Nat) : Int) := by omega
    have hneg : ¬ (((w - k : Nat) : Int) < 0) := by omega
    have hrt := readAt_natCast 0 tbl (w - k) (by omega)
    exact ⟨y + h.getD k 0 * tbl.getD (w - k) 0, by simp [fir_tap, hrd, hidx, hneg, hrt]⟩

theorem fir_iter_some [Zero F] (N w : Nat) (wp : Int) (h tbl : List F) (hh : h.length = N)
    (ht : tbl.length = N) (hw : w < N)
    (hnorm : (if wp < (N : Int) then wp else 0) = (w : Int)) (smp x_n : F) :
    ∃ y_n, fir_iter ⟨smp, some tbl, some h, (N : Int), wp⟩ x_n
      = some (y_n, ⟨smp, some (tbl.set w x_n), some h, (N : Int), (w : Int) + 1⟩) := by
  have h0 : readAt h 0 = some (h.getD 0 0) := readAt_natCast 0 h 0 (by omega)
  have hwr := writeAt_natCast tbl w x_n (by omega)
  obtain ⟨y, hy⟩ : ∃ y, fir_taps (N : Int) (w : Int) h tbl (h.getD 0 0 * x_n) = some y := by
    unfold fir_taps
    refine foldlM_option_some _ _ (fun k hk y => ?_) _
    rw [Int.toNat_ofNat, List.mem_range'_1] at hk
    exact fir_tap_some N w k h tbl hh ht hw hk.1 (by omega) y
  exact ⟨y, by simp only [fir_iter, hnorm, h0, hy, hwr, Option.bind_eq_bind, Option.some_bind]⟩

theorem norm_wptr (N : Nat) (wp : Int) (hN : 1 ≤ N) (hwp : 0 ≤ wp) :
    ∃ w : Nat, w < N ∧ (if wp < (N : Int) then wp else 0) = (w : Int) := by
  by_cases h : wp < (N : Int)
  · exact ⟨wp.toNat, by omega, by rw [if_pos h]; omega⟩
  · exact ⟨0, by omega, by rw [if_neg h]; rfl⟩

theorem fir_loop_some [Zero F] (N : Nat) (h : List F) (smp : F) (hN : 1 ≤ N) (hh : h.length = N)
    (zs : List F) :
    ∀ (tbl : List F) (wp : Int), tbl.length = N → 0 ≤ wp →
      ∃ (out tbl1 : List F) (wp1 : Int),
        fir_loop zs ⟨smp, some tbl, some h, (N : Int), wp⟩
          = some (out, ⟨smp, some tbl1, some h, (N : Int), wp1⟩) ∧
        out.length = zs.length ∧ tbl1.length = N ∧ 0 ≤ wp1 ∧
        (wp ≤ (N : Int) → wp1 ≤ (N : Int)) := by
  induction zs with
  | nil =>
    intro tbl wp ht hwp
    exact ⟨[], tbl, wp, by simp [fir_loop], rfl, ht, hwp, fun h => h⟩
  | cons z rest ih =>
    intro tbl wp ht hwp
    obtain ⟨w, hw, hnorm⟩ := norm_wptr N wp hN hwp
    obtain ⟨y, hy⟩ := fir_iter_some N w wp h tbl hh ht hw hnorm smp z
    obtain ⟨out, tbl1, wp1, hrun, hlen, ht1, hwp1, hle⟩ :=
      ih (tbl.set w z) ((w : Int) + 1) (by simp [ht]) (by omega)
    refine ⟨y :: out, tbl1, wp1, ?_, by simp [hlen], ht1, hwp1, fun _ => hle (by omega)⟩
    simp only [fir_loop, hy, hrun, Option.bind_eq_bind, Option.some_bind]

theorem fir_loop_append (xs ys : List F) :
    ∀ x : t_fir F, fir_loop (xs ++ ys) x
      = (fir_loop xs x).bind fun r => (fir_loop ys r.2).map fun r2 => (r.1 ++ r2.1, r2.2) := by
  induction xs with
  | nil =>
    intro x
    cases hl : fir_loop ys x <;> simp [fir_loop, hl]
  | cons a rest ih =>
    intro x
    cases hi : fir_iter x a with
    | none => simp [fir_loop, hi]
    | some r =>
      obtain ⟨y, x1⟩ := r
      cases h1 : fir_loop rest x1 with
      | none => simp [fir_loop, hi, ih, h1]
      | some r1 =>
        obtain ⟨o1, x2⟩ := r1
        cases h2 : fir_loop ys x2 <;> simp [fir_loop, hi, ih, h1, h2]

/-- Claim C22.  For every `fir~` object of order `N >= 1` (coefficients and
history table of `N` floats, write pointer not negative) and every pair of
input blocks `xs` and `ys`, `fir_perform` on `xs` and then on `ys` returns, and
`fir_perform` on `xs ++ ys` returns the concatenation of the two output blocks
and the same final object (history table and write pointer included); each
output block has the length of its input block. -/
theorem fir_perform_split [Zero F] (N : Nat) (h tbl : List F) (smp : F) (wp : Int) (xs ys : List F)
    (hN : 1 ≤ N) (hh : h.length = N) (ht : tbl.length = N) (hwp : 0 ≤ wp) :
    ∃ (o1 o2 : List F) (x1 x2 : t_fir F),
      fir_perform xs ⟨smp, some tbl, some h, (N : Int), wp⟩ = some (o1, x1) ∧
      fir_perform ys x1 = some (o2, x2) ∧
      fir_perform (xs ++ ys) ⟨smp, some tbl, some h, (N : Int), wp⟩ = some (o1 ++ o2, x2) ∧
      o1.length = xs.length ∧ o2.length = ys.length ∧
      (o1 ++ o2).length = (xs ++ ys).length := by
  obtain ⟨o1, tbl1, wp1, hrun1, hl1, ht1, hwp1, -⟩ :=
    fir_loop_some N h smp hN hh xs tbl wp ht hwp
  obtain ⟨o2, tbl2, wp2, hrun2, hl2, -, -, -⟩ :=
    fir_loop_some N h smp hN hh ys tbl1 wp1 ht1 hwp1
  refine ⟨o1, o2, ⟨smp, some tbl1, some h, (N : Int), wp1⟩,
    ⟨smp, some tbl2, some h, (N : Int), wp2⟩, ?_, ?_, ?_, hl1, hl2, by simp [hl1, hl2]⟩
  · simpa [fir_perform] using hrun1
  · simpa [fir_perform] using hrun2
  · have := fir_loop_append xs ys ⟨smp, some tbl, some h, (N : Int), wp⟩
    rw [hrun1] at this
    simp only [Option.some_bind, hrun2, Option.map_some'] at this
    simpa [fir_perform] using this


end FirBlocks

/-- Witness of claim C22: order 3, coefficients `[2, 3, 5]`, history
`[7, 8, 9]`, write pointer 2, and the blocks `[1]` and `[4, 6]`. -/
theorem fir_perform_split_witness :
    1 ≤ 3 ∧ ([2, 3, 5] : List Int).length = 3 ∧ ([7, 8, 9] : List Int).length = 3 ∧
    (0 : Int) ≤ 2 ∧
    ∃ (o1 o2 : List Int) (x1 x2 : t_fir Int),
      fir_perform [1] ⟨0, some [7, 8, 9], some [2, 3, 5], ((3 : Nat) : Int), 2⟩ = some (o1, x1) ∧
      fir_perform [4, 6] x1 = some (o2, x2) ∧
      fir_perform ([1] ++ [4, 6]) ⟨0, some [7, 8, 9], some [2, 3, 5], ((3 : Nat) : Int), 2⟩
        = some (o1 ++ o2, x2) ∧
      o1.length = ([1] : List Int).length ∧ o2.length = ([4, 6] : List Int).length ∧
      (o1 ++ o2).length = ([1] ++ [4, 6] : List Int).length :=
  ⟨by decide, rfl, rfl, by decide,
    fir_perform_split 3 [2, 3, 5] [7, 8, 9] 0 2 [1] [4, 6] (by decide) rfl rfl (by decide)⟩

/-! ## Claims on re-binding the FIR filter -/

/-- Claim C21 fails in the code.  An object created on an array of 3 floats
processes the inputs 1, 10, 100, 1000: its table holds `[1000, 10, 100]` and
its write pointer is 1.  `fir_set` then binds it to `[1, 2, 3, 4, 5]`: `realloc`
keeps the three floats at their indices and the write pointer stays 1.  With
new cells that happen to be 0 the table is `[1000, 10, 100, 0, 0]`, and on the
next input 7 the output is `1*7 + 2*1000 + 5*100 = 2507`: the sample 100 is read
at delay 4 and the sample 10 is not read at all, where the last 5 true inputs
give `1*7 + 2*1000 + 3*100 + 4*10 + 5*0 = 2347`.  The new cells are what the
allocator leaves there (`calloc` is used on the first binding only): with new
cells 9 the table is `[1000, 10, 100, 9, 9]`. -/
theorem fir_rebind_wrong_delay :
    let pd3 : t_pd Int := ⟨fun _ => some ⟨some [1, 1, 1]⟩, some fun _ => 0⟩
    let pd5 : t_pd Int := ⟨fun _ => some ⟨some [1, 2, 3, 4, 5]⟩, some fun _ => 0⟩
    let pd9 : t_pd Int := ⟨fun _ => some ⟨some [1, 2, 3, 4, 5]⟩, some fun _ => 9⟩
    fir_calls [t_call.perform [1, 10, 100, 1000], t_call.set pd5 (some "h5")]
        (fir_new pd3 ["h3"]).1
      = some ⟨0, some [1000, 10, 100, 0, 0], some [1, 2, 3, 4, 5], 5, 1⟩ ∧
    fir_perform [7] ⟨0, some [1000, 10, 100, 0, 0], some [1, 2, 3, 4, 5], 5, 1⟩
      = some ([2507], ⟨0, some [1000, 7, 100, 0, 0], some [1, 2, 3, 4, 5], 5, 2⟩) ∧
    (1 * 7 + 2 * 1000 + 3 * 100 + 4 * 10 + 5 * 0 : Int) = 2347 ∧
    (2507 : Int) ≠ 2347 ∧
    fir_calls [t_call.perform [1, 10, 100, 1000], t_call.set pd9 (some "h5")]
        (fir_new pd3 ["h3"]).1
      = some ⟨0, some [1000, 10, 100, 9, 9], some [1, 2, 3, 4, 5], 5, 1⟩ := by
  intro pd3 pd5 pd9
  exact ⟨by rfl, by rfl, by decide, by decide, by rfl⟩

/-! ## Claims on the indices of the FIR filter -/

theorem fir_tap_reads {F : Type} [Add F] [Mul F] (order wptr : Int) (coefs table : List F)
    (y_n : F) (k : Nat) :
    fir_tap order wptr coefs table y_n k
      = (readAt coefs (k : Int)).bind fun h =>
          (readAt table (fir_tap_index order wptr k)).bind fun t => some (y_n + h * t) := rfl

theorem readAt_isSome_iff {F : Type} (a : List F) (i : Int) :
    (readAt a i).isSome = true ↔ 0 ≤ i ∧ i < (a.length : Int) := by
  unfold readAt
  by_cases h : 0 ≤ i
  · rw [if_pos h]
    constructor
    · intro hs
      obtain ⟨v, hv⟩ := Option.isSome_iff_exists.mp hs
      have := (List.getElem?_eq_some_iff.mp hv).1
      exact ⟨h, by omega⟩
    · intro hb
      have hlt : i.toNat < a.length := by omega
      rw [List.getElem?_eq_getElem hlt]
      rfl
  · rw [if_neg h]
    constructor
    · intro hs; cases hs
    · intro hb; exact absurd hb.1 h

theorem fir_iter_indices_bounds (N : Nat) (wp : Int) (hN : 1 ≤ N) (hwp : 0 ≤ wp) :
    (∀ i ∈ (fir_iter_indices (N : Int) wp).1, 0 ≤ i ∧ i < (N : Int)) ∧
    (∀ i ∈ (fir_iter_indices (N : Int) wp).2, 0 ≤ i ∧ i < (N : Int)) := by
  obtain ⟨w, hw, hnorm⟩ := norm_wptr N wp hN hwp
  simp only [fir_iter_indices, hnorm, Int.toNat_ofNat]
  constructor
  · intro i hi
    rcases List.mem_cons.mp hi with h0 | hk
    · omega
    · obtain ⟨k, hkr, rfl⟩ := List.mem_map.mp hk
      rw [List.mem_range'_1] at hkr
      omega
  · intro i hi
    rcases List.mem_append.mp hi with hk | hw1
    · obtain ⟨k, hkr, rfl⟩ := List.mem_map.mp hk
      rw [List.mem_range'_1] at hkr
      simp only [fir_tap_index]
      split <;> omega
    · rw [List.mem_singleton] at hw1
      omega

theorem fir_indices_bounds (N : Nat) (hN : 1 ≤ N) (n : Nat) :
    ∀ wp : Int, 0 ≤ wp →
      (∀ i ∈ (fir_indices n (N : Int) wp).1, 0 ≤ i ∧ i < (N : Int)) ∧
      (∀ i ∈ (fir_indices n (N : Int) wp).2, 0 ≤ i ∧ i < (N : Int)) := by
  induction n with
  | zero =>
    intro wp _
    exact ⟨fun i hi => by simp [fir_indices] at hi, fun i hi => by simp [fir_indices] at hi⟩
  | succ n ih =>
    intro wp hwp
    obtain ⟨w, hw, hnorm⟩ := norm_wptr N wp hN hwp
    have h1 := fir_iter_indices_bounds N wp hN hwp
    have h2 := ih ((if wp < (N : Int) then wp else 0) + 1) (by rw [hnorm]; omega)
    simp only [fir_indices]
    constructor
    · intro i hi
      rcases List.mem_append.mp hi with h | h
      · exact h1.1 i h
      · exact h2.1 i h
    · intro i hi
      rcases List.mem_append.mp hi with h | h
      · exact h1.2 i h
      · exact h2.2 i h

theorem fir_loop_wptr_range {F : Type} [Add F] [Mul F] [Zero F] (N : Nat) (h : List F) (smp : F)
    (hN : 1 ≤ N) (hh : h.length = N) (zs : List F) :
    ∀ (tbl : List F) (wp : Int), tbl.length = N → 0 ≤ wp →
      ∃ (out tbl1 : List F) (wp1 : Int),
        fir_loop zs ⟨smp, some tbl, some h, (N : Int), wp⟩
          = some (out, ⟨smp, some tbl1, some h, (N : Int), wp1⟩) ∧
        out.length = zs.length ∧ tbl1.length = N ∧
        (zs = [] → wp1 = wp ∧ tbl1 = tbl) ∧
        (zs ≠ [] → 1 ≤ wp1 ∧ wp1 ≤ (N : Int)) := by
  induction zs with
  | nil =>
    intro tbl wp ht _
    exact ⟨[], tbl, wp, by simp [fir_loop], rfl, ht, fun _ => ⟨rfl, rfl⟩, fun hne => absurd rfl hne⟩
  | cons z rest ih =>
    intro tbl wp ht hwp
    obtain ⟨w, hw, hnorm⟩ := norm_wptr N wp hN hwp
    obtain ⟨y, hy⟩ := fir_iter_some N w wp h tbl hh ht hw hnorm smp z
    obtain ⟨out, tbl1, wp1, hrun, hlen, ht1, hnil, hcons⟩ :=
      ih (tbl.set w z) ((w : Int) + 1) (by simp [ht]) (by omega)
    refine ⟨y :: out, tbl1, wp1, ?_, by simp [hlen], ht1, fun hc => (by cases hc), fun _ => ?_⟩
    · simp only [fir_loop, hy, hrun, Option.bind_eq_bind, Option.some_bind]
    · by_cases hr : rest = []
      · rw [(hnil hr).1]; omega
      · exact hcons hr

/-- Claim C31 as stated fails on the write pointer after a block of zero
samples.  With order 3, tables of 3 floats and the write pointer 5 (left over
from a larger binding), `fir_perform` on the empty block runs no iteration, so
the wrap of `wptr` is not applied: the write pointer is still 5 after the
block, above the order. -/
theorem fir_perform_empty_keeps_large_wptr :
    fir_perform [] (⟨0, some [7, 8, 9], some [2, 3, 5], 3, 5⟩ : t_fir Int)
        = some ([], ⟨0, some [7, 8, 9], some [2, 3, 5], 3, 5⟩) ∧
    ¬ ∃ (ys : List Int) (x1 : t_fir Int),
      fir_perform [] (⟨0, some [7, 8, 9], some [2, 3, 5], 3, 5⟩ : t_fir Int) = some (ys, x1) ∧
      0 ≤ x1.wptr ∧ x1.wptr ≤ 3 := by
  have h2 : fir_perform [] (⟨0, some [7, 8, 9], some [2, 3, 5], 3, 5⟩ : t_fir Int)
        = some ([], ⟨0, some [7, 8, 9], some [2, 3, 5], 3, 5⟩) := by rfl
  refine ⟨h2, ?_⟩
  rintro ⟨ys, x1, h, -, hw⟩
  rw [h2] at h
  simp only [Option.some.injEq, Prod.mk.injEq] at h
  rw [← h.2] at hw
  revert hw
  decide

/-- Claim C31, amended.  For every `fir~` object of order `N >= 1` whose
coefficient array and history table hold `N` floats, and every write pointer
`w >= 0` (also `w >= N`), `fir_perform` returns on every block (no read or
write falls outside an array), leaving the order, the coefficients and the
length of the table unchanged; every index it uses to read `coefs` and every
index it uses to read or write `table` lies in `[0, N)`; after a block of at
least one sample the write pointer satisfies `1 <= wptr <= N`; after a block
of zero samples the write pointer and the table are unchanged, so that
`wptr <= N` holds after it exactly when it held before. -/
theorem fir_perform_indices_in_bounds {F : Type} [Add F] [Mul F] [Zero F] (N : Nat)
    (h tbl : List F) (smp : F) (wp : Int) (zs : List F)
    (hN : 1 ≤ N) (hh : h.length = N) (ht : tbl.length = N) (hwp : 0 ≤ wp) :
    ∃ (out tbl1 : List F) (wp1 : Int),
      fir_perform zs ⟨smp, some tbl, some h, (N : Int), wp⟩
        = some (out, ⟨smp, some tbl1, some h, (N : Int), wp1⟩) ∧
      out.length = zs.length ∧ tbl1.length = N ∧
      (∀ i ∈ (fir_indices zs.length (N : Int) wp).1,
        0 ≤ i ∧ i < (N : Int) ∧ (readAt h i).isSome = true) ∧
      (∀ i ∈ (fir_indices zs.length (N : Int) wp).2,
        0 ≤ i ∧ i < (N : Int) ∧ (readAt tbl i).isSome = true) ∧
      0 ≤ wp1 ∧
      (zs ≠ [] → 1 ≤ wp1 ∧ wp1 ≤ (N : Int)) ∧
      (zs = [] → wp1 = wp ∧ tbl1 = tbl) ∧
      (wp ≤ (N : Int) → wp1 ≤ (N : Int)) := by
  obtain ⟨out, tbl1, wp1, hrun, hlen, ht1, hnil, hcons⟩ :=
    fir_loop_wptr_range N h smp hN hh zs tbl wp ht hwp
  have hb := fir_indices_bounds N hN zs.length wp hwp
  refine ⟨out, tbl1, wp1, by simpa [fir_perform] using hrun, hlen, ht1, ?_, ?_, ?_, hcons, hnil, ?_⟩
  · intro i hi
    have := hb.1 i hi
    exact ⟨this.1, this.2, (readAt_isSome_iff h i).mpr (by rw [hh]; exact this)⟩
  · intro i hi
    have := hb.2 i hi
    exact ⟨this.1, this.2, (readAt_isSome_iff tbl i).mpr (by rw [ht]; exact this)⟩
  · by_cases hz : zs = []
    · rw [(hnil hz).1]; exact hwp
    · have := hcons hz; omega
  · intro hle
    by_cases hz : zs = []
    · rw [(hnil hz).1]; exact hle
    · exact (hcons hz).2

/-- Witness of the amended claim C31: order 3, coefficients `[2, 3, 5]`,
history `[7, 8, 9]`, write pointer 5, and the block `[1, 4]`. -/
theorem fir_perform_indices_in_bounds_witness :
    1 ≤ 3 ∧ ([2, 3, 5] : List Int).length = 3 ∧ ([7, 8, 9] : List Int).length = 3 ∧
    (0 : Int) ≤ 5 ∧
    ∃ (out tbl1 : List Int) (wp1 : Int),
      fir_perform [1, 4] ⟨0, some [7, 8, 9], some [2, 3, 5], ((3 : Nat) : Int), 5⟩
        = some (out, ⟨0, some tbl1, some [2, 3, 5], ((3 : Nat) : Int), wp1⟩) ∧
      out.length = ([1, 4] : List Int).length ∧ tbl1.length = 3 ∧
      (∀ i ∈ (fir_indices ([1, 4] : List Int).length ((3 : Nat) : Int) 5).1,
        0 ≤ i ∧ i < ((3 : Nat) : Int) ∧ (readAt ([2, 3, 5] : List Int) i).isSome = true) ∧
      (∀ i ∈ (fir_indices ([1, 4] : List Int).length ((3 : Nat) : Int) 5).2,
        0 ≤ i ∧ i < ((3 : Nat) : Int) ∧ (readAt ([7, 8, 9] : List Int) i).isSome = true) ∧
      0 ≤ wp1 ∧
      (([1, 4] : List Int) ≠ [] → 1 ≤ wp1 ∧ wp1 ≤ ((3 : Nat) : Int)) ∧
      (([1, 4] : List Int) = [] → wp1 = 5 ∧ tbl1 = [7, 8, 9]) ∧
      ((5 : Int) ≤ ((3 : Nat) : Int) → wp1 ≤ ((3 : Nat) : Int)) :=
  ⟨by decide, rfl, rfl, by decide,
    fir_perform_indices_in_bounds 3 [2, 3, 5] [7, 8, 9] 0 5 [1, 4] (by decide) rfl rfl (by decide)⟩

/-! ## The routines in single precision -/

theorem single_clip_Q_constants :
    Single.min_Q = Flt.finite (1 / 2 ^ 23) ∧ Single.max_Q = Flt.finite 1000 := by
  decide!

/-- Claim C15 fails in the code.  For the peak object with `Q = 1`,
`dB = -1000`, `freq = 11025` and `sr = 44100`: `dB * 0.05f` is `-50`,
`powf(10, -50)` underflows to `0`, so `G = dB_to_gain(dB) = 0`;
`peak_update_BA` takes the `else` branch and divides `KrQ = 1` by `G`, which
gives `+inf`, `rDenominator = 1 / inf` is `0`, and `a_coef[1]` is
`(1 - inf + KK) * 0`, NaN.  `highshelf_update_BA` at the same `dB`, `freq` and
`sr` stores five numbers; at `dB = 770` (`G = 0x1.dbce82p+127`, below
`FLT_MAX`) its product `2.f * G` overflows and the three `b_coef` it stores are
infinities. -/
theorem peak_update_BA_nan_at_zero_gain :
    Single.dB_to_gain libm_values (Flt.finite (-1000)) = Flt.finite 0 ∧
    Single.clip_Q 1 = Flt.finite 1 ∧
    Single.tan_K libm_values 11025 44100 = Flt.finite 1 ∧
    ((1 : Flt) / 1) / Single.dB_to_gain libm_values (Flt.finite (-1000)) = Flt.inf false ∧
    (Single.peak_update_BA libm_values
        ⟨biquad_zero, 0, 1, Flt.finite (-1000), 11025, 44100⟩).b_coef = ![0, 0, 0] ∧
    (Single.peak_update_BA libm_values
        ⟨biquad_zero, 0, 1, Flt.finite (-1000), 11025, 44100⟩).a_coef = ![0, Flt.nan] ∧
    (Single.highshelf_update_BA libm_values
        ⟨biquad_zero, 0, Flt.finite (-1000), 11025, 44100⟩).b_coef = ![0, 0, 0] ∧
    (Single.highshelf_update_BA libm_values
        ⟨biquad_zero, 0, Flt.finite (-1000), 11025, 44100⟩).a_coef = ![Flt.finite (-2), 1] ∧
    Single.dB_to_gain libm_values 770 = Flt.finite (0x1dbce82 / 2 ^ 24 * 2 ^ 127) ∧
    (Single.highshelf_update_BA libm_values ⟨biquad_zero, 0, 770, 11025, 44100⟩).b_coef
      = ![Flt.inf false, Flt.inf true, Flt.inf true] := by
  decide!

/-- Claim C17 as stated fails for the highshelf formulas in the code.  The
boost branch and the attenuation branch compute `sqrt(2) * K` in two ways:
`sqrtf(G2) * K`, a `float` product with `sqrtf(2.f) = 0x1.6a09e6p+0`, and
`M_SQRT2 * K`, a `double` product stored in a `float`.  At `G = 1` and
`K = 0x1.2acb46p-9` (positive) the two differ in the last bit
(`0x1.a68efep-9` against `0x1.a68fp-9`), and the branches give
`b_coef[2] = 0x1.fcb598p-1` (boost) against `0x1.fcb596p-1` (attenuation).
The peak formulas at the same `K`, with `Q = 1`, give the same coefficients. -/
theorem highshelf_branches_differ_in_single :
    libm_values.sqrtf 2 * Flt.finite (0x12acb46 / 2 ^ 33) = Flt.finite (0x1a68efe / 2 ^ 33) ∧
    Flt.toSingle (Flt.mul binary64 Single.M_SQRT2 (Flt.finite (0x12acb46 / 2 ^ 33)))
      = Flt.finite (0x1a68f00 / 2 ^ 33) ∧
    (Single.highshelf_boost libm_values 1 (Flt.finite (0x12acb46 / 2 ^ 33))).1 2
      = Flt.finite (0x1fcb598 / 2 ^ 25) ∧
    (Single.highshelf_cut libm_values 1 (Flt.finite (0x12acb46 / 2 ^ 33))).1 2
      = Flt.finite (0x1fcb596 / 2 ^ 25) ∧
    Single.highshelf_boost libm_values 1 (Flt.finite (0x12acb46 / 2 ^ 33))
      ≠ Single.highshelf_cut libm_values 1 (Flt.finite (0x12acb46 / 2 ^ 33)) ∧
    Single.peak_boost 1 1 (Flt.finite (0x12acb46 / 2 ^ 33))
      = Single.peak_cut 1 1 (Flt.finite (0x12acb46 / 2 ^ 33)) := by
  decide!

/-- Claim C27 fails in the code.  For the lowpass object with `Q = 100`,
`freq = 1` and `sr = 44100`, `clip_Q(Q) = 100 > 0` and
`K = tanf(...) = 0x1.2acb24p-14 > 0`, and `lowpass_update_BA` stores
`a_coef[0] = -0x1.ffffeap+0` and `a_coef[1] = 0x1.ffffd2p-1`, so that
`|a1| = 2 - 22 * 2^-24` is above `1 + a2 = 2 - 23 * 2^-24`.  For `Q = 1000`
and `freq = 0` (`K = 0x1.921fb6p-22 > 0`), `lowpass_update_BA` and
`allpass_update_BA` store `a_coef = (-2, 1)`: `|a2| < 1` fails and
`|a1| = 1 + a2`. -/
theorem feedback_coefficients_leave_triangle :
    (Single.clip_Q 100 = Flt.finite 100 ∧
      Single.tan_K libm_values 1 44100 = Flt.finite (0x12acb24 / 2 ^ 38) ∧
      (Single.lowpass_update_BA libm_values ⟨biquad_zero, 0, 100, 1, 44100⟩).a_coef
        = ![Flt.finite (-(0x1ffffea / 2 ^ 24)), Flt.finite (0x1ffffd2 / 2 ^ 25)] ∧
      (Single.allpass_update_BA libm_values ⟨biquad_zero, 0, 100, 1, 44100⟩).a_coef
        = ![Flt.finite (-(0x1ffffea / 2 ^ 24)), Flt.finite (0x1ffffd2 / 2 ^ 25)] ∧
      ¬ (|(-(0x1ffffea / 2 ^ 24) : ℚ)| < 1 + 0x1ffffd2 / 2 ^ 25)) ∧
    (Single.clip_Q 1000 = Flt.finite 1000 ∧
      Single.tan_K libm_values 0 44100 = Flt.finite (0x1921fb6 / 2 ^ 46) ∧
      (Single.lowpass_update_BA libm_values ⟨biquad_zero, 0, 1000, 0, 44100⟩).a_coef
        = ![Flt.finite (-2), Flt.finite 1] ∧
      (Single.allpass_update_BA libm_values ⟨biquad_zero, 0, 1000, 0, 44100⟩).a_coef
        = ![Flt.finite (-2), Flt.finite 1] ∧
      ¬ (|(1 : ℚ)| < 1) ∧ ¬ (|(-2 : ℚ)| < 1 + 1)) := by
  decide!

/-- Claim C28 as stated fails for the stored coefficients.  In `t_float`
arithmetic the boost branch at `G = 2`, `K = 1` stores
`b = (0x1.76e73ep+0, -0x1.2bec32p-1, 0x1.2bec32p-2)` and
`a = (0, 0x1.5f619ap-3)`, whose sums `b0 + b1 + b2` and `1 + a1 + a2` differ
(by rounding, about `1e-7`).  At `dB = 760`, `freq = 11025`, `sr = 44100`
(`G = 0x1.2ced32p+126`, `K = 1`) `highshelf_update_BA` stores
`b = (0x1.608eaep+124, -0x1.608eaep+125, 0x1.608eaep+124)`, whose sum is `0`,
against `1 + a1 + a2 = 1 + 0x1.5f619ap-3`. -/
theorem highshelf_gain_identities_fail_in_single :
    ((Single.highshelf_boost libm_values 2 1).1
        = ![Flt.finite (0x176e73e / 2 ^ 24), Flt.finite (-(0x12bec32 / 2 ^ 25)),
            Flt.finite (0x12bec32 / 2 ^ 26)] ∧
      (Single.highshelf_boost libm_values 2 1).2 = ![Flt.finite 0, Flt.finite (0x15f619a / 2 ^ 27)] ∧
      (0x176e73e / 2 ^ 24 + -(0x12bec32 / 2 ^ 25) + 0x12bec32 / 2 ^ 26 : ℚ)
        ≠ 1 + 0 + 0x15f619a / 2 ^ 27) ∧
    (Single.dB_to_gain libm_values 760 = Flt.finite (0x12ced32 / 2 ^ 24 * 2 ^ 126) ∧
      (Single.highshelf_update_BA libm_values ⟨biquad_zero, 0, 760, 11025, 44100⟩).b_coef
        = ![Flt.finite (0x1608eae / 2 ^ 24 * 2 ^ 124), Flt.finite (-(0x1608eae / 2 ^ 24 * 2 ^ 125)),
            Flt.finite (0x1608eae / 2 ^ 24 * 2 ^ 124)] ∧
      (Single.highshelf_update_BA libm_values ⟨biquad_zero, 0, 760, 11025, 44100⟩).a_coef
        = ![Flt.finite 0, Flt.finite (0x15f619a / 2 ^ 27)] ∧
      (0x1608eae / 2 ^ 24 * 2 ^ 124 + -(0x1608eae / 2 ^ 24 * 2 ^ 125)
          + 0x1608eae / 2 ^ 24 * 2 ^ 124 : ℚ) = 0 ∧
      (0 : ℚ) ≠ 1 + 0 + 0x15f619a / 2 ^ 27) := by
  decide!

/-- Claim C30 as stated fails for the stored coefficients.  In `t_float`
arithmetic, with `Q = 1` and `K = 1/4`, the boost branch of `peak_update_BA` at
`G = 2` stores `b = (0x1.30c30cp+0, -0x1.6db6dcp+0, 0x1.b6db6ep-2)` and
`a = (-0x1.6db6dcp+0, 0x1.3cf3dp-1)`, and the attenuation branch at `G = 1/2`
stores `b = (0x1.ae147ap-1, -0x1.333332p+0, 0x1.0a3d7p-1)` and
`a = (-0x1.333332p+0, 0x1.70a3d6p-2)`.  The product `b0' * b0` is not `1`, and
none of the five relations holds, not even with the quotients rounded to
`t_float` (each is off by one unit in the last place). -/
theorem peak_reciprocity_fails_in_single :
    (Single.peak_boost 1 2 (Flt.finite (1 / 4))).1
      = ![Flt.finite (0x130c30c / 2 ^ 24), Flt.finite (-(0x16db6dc / 2 ^ 24)),
          Flt.finite (0x1b6db6e / 2 ^ 26)] ∧
    (Single.peak_boost 1 2 (Flt.finite (1 / 4))).2
      = ![Flt.finite (-(0x16db6dc / 2 ^ 24)), Flt.finite (0x13cf3d0 / 2 ^ 25)] ∧
    (Single.peak_cut 1 (Flt.finite (1 / 2)) (Flt.finite (1 / 4))).1
      = ![Flt.finite (0x1ae147a / 2 ^ 25), Flt.finite (-(0x1333332 / 2 ^ 24)),
          Flt.finite (0x10a3d70 / 2 ^ 25)] ∧
    (Single.peak_cut 1 (Flt.finite (1 / 2)) (Flt.finite (1 / 4))).2
      = ![Flt.finite (-(0x1333332 / 2 ^ 24)), Flt.finite (0x170a3d6 / 2 ^ 26)] ∧
    (0x1ae147a / 2 ^ 25 : ℚ) * (0x130c30c / 2 ^ 24) ≠ 1 ∧
    (1 : Flt) / (Single.peak_boost 1 2 (Flt.finite (1 / 4))).1 0
      ≠ (Single.peak_cut 1 (Flt.finite (1 / 2)) (Flt.finite (1 / 4))).1 0 ∧
    (Single.peak_boost 1 2 (Flt.finite (1 / 4))).2 0 / (Single.peak_boost 1 2 (Flt.finite (1 / 4))).1 0
      ≠ (Single.peak_cut 1 (Flt.finite (1 / 2)) (Flt.finite (1 / 4))).1 1 ∧
    (Single.peak_boost 1 2 (Flt.finite (1 / 4))).2 1 / (Single.peak_boost 1 2 (Flt.finite (1 / 4))).1 0
      ≠ (Single.peak_cut 1 (Flt.finite (1 / 2)) (Flt.finite (1 / 4))).1 2 ∧
    (Single.peak_boost 1 2 (Flt.finite (1 / 4))).1 1 / (Single.peak_boost 1 2 (Flt.finite (1 / 4))).1 0
      ≠ (Single.peak_cut 1 (Flt.finite (1 / 2)) (Flt.finite (1 / 4))).2 0 ∧
    (Single.peak_boost 1 2 (Flt.finite (1 / 4))).1 2 / (Single.peak_boost 1 2 (Flt.finite (1 / 4))).1 0
      ≠ (Single.peak_cut 1 (Flt.finite (1 / 2)) (Flt.finite (1 / 4))).2 1 := by
  decide!

end HigherOrderFilter
